import Mathlib

/-! sngrep: SIP message parsing and call correlation (`src/sip.c`)

A shallow embedding of the message parser and the call store of `sip.c`,
followed by theorems about it.

Modelling conventions.

* C strings are `List Char` (type `CStr`); a C string never holds a NUL, and
  the fixed-size scratch buffers (`value[256]`, `rest[256]`, `ipfrom[22]`,
  `ipto[22]`, `time[20]`, the `payload[]` array of a message) are taken to be
  large enough for the text written to them.
* `sscanf` is embedded as an interpreter of the format strings used by the
  source, with the C return value (`-1` is `EOF`) and the list of the
  conversions it assigned.
* Singly linked lists (`attrs`, `msgs`, `calls`) are Lean lists in link order;
  a pointer into such a list is an index, `none` is `NULL`.
* A scratch buffer that the source reads without having written it first has
  the content given by the environment (`Env.junk_*`).
* The buffer `filter_option[80]` of `sip_check_call_ignore` is modelled with
  its size: the function has no result (`none`) when `sprintf` writes past its
  end, as when it hands `NULL` to `strstr` or `strncasecmp`.
* `malloc` and `strdup` do not fail.
-/

namespace Sngrep

/-- C string: the characters before the terminating NUL. -/
abbrev CStr := List Char

/-! ## libc -/

/-- The predicate `isspace` of the C locale. -/
def isspace (c : Char) : Bool :=
  c = ' ' || c = '\t' || c = '\n' || c = Char.ofNat 11 || c = Char.ofNat 12 || c = '\r'

/-- The predicate `isdigit`. -/
def isdigit (c : Char) : Bool := 48 ≤ c.toNat && c.toNat ≤ 57

/-- The function `tolower` of the C locale, on character codes. -/
def tolower (c : Char) : Nat :=
  if 65 ≤ c.toNat ∧ c.toNat ≤ 90 then c.toNat + 32 else c.toNat

/-- The function `strncasecmp`: compares at most `n` characters ignoring case;
the result is zero exactly when no difference is found. -/
def strncasecmp : CStr → CStr → Nat → Int
  | _, _, 0 => 0
  | [], [], _ + 1 => 0
  | [], b :: _, _ + 1 => 0 - (tolower b : Int)
  | a :: _, [], _ + 1 => (tolower a : Int)
  | a :: as, b :: bs, n + 1 =>
    if tolower a = tolower b then strncasecmp as bs n
    else (tolower a : Int) - (tolower b : Int)

/-- The function `strcasecmp`. -/
def strcasecmp : CStr → CStr → Int
  | [], [] => 0
  | [], b :: _ => 0 - (tolower b : Int)
  | a :: _, [] => (tolower a : Int)
  | a :: as, b :: bs =>
    if tolower a = tolower b then strcasecmp as bs
    else (tolower a : Int) - (tolower b : Int)

/-- The function `strcmp`, up to the sign of a non-zero result. -/
def strcmp (a b : CStr) : Int := if a = b then 0 else 1

/-- Tokens of `strtok(body, "\n")` followed by `strtok(NULL, "\n")` until
`NULL`: the maximal runs of characters other than newline; `cur` is the run
being read. -/
def strtok_go : List Char → List Char → List CStr
  | [], cur => if cur = [] then [] else [cur]
  | c :: cs, cur =>
    if c = '\n' then (if cur = [] then strtok_go cs [] else cur :: strtok_go cs [])
    else strtok_go cs (cur ++ [c])

/-- All tokens of a text for the delimiter newline. -/
def strtok (body : CStr) : List CStr := strtok_go body []

/-! ### sscanf -/

/-- One directive of a `scanf` format. -/
inductive Dir where
  | lit (c : Char)
  | ws
  | int
  | str
  | set (excl : List Char)
  deriving DecidableEq, Repr

/-- A value assigned by a conversion. -/
inductive Val where
  | int (n : Int)
  | str (s : CStr)
  deriving DecidableEq, Repr

/-- State of the format reader: outside a conversion, after `%`, after `%[`,
inside `%[^...` with the excluded characters read so far. -/
inductive FmtState where
  | plain
  | percent
  | bracket
  | inset (excl : List Char)
  deriving DecidableEq, Repr

/-- Reads a format string into directives. Only the conversions used by the
source are known: `%d`, `%s` and `%[^...]`. -/
def fmt_go : List Char → FmtState → List Dir
  | [], _ => []
  | c :: cs, FmtState.plain =>
    if c = '%' then fmt_go cs FmtState.percent
    else if isspace c then Dir.ws :: fmt_go cs FmtState.plain
    else Dir.lit c :: fmt_go cs FmtState.plain
  | c :: cs, FmtState.percent =>
    if c = 'd' then Dir.int :: fmt_go cs FmtState.plain
    else if c = 's' then Dir.str :: fmt_go cs FmtState.plain
    else if c = '[' then fmt_go cs FmtState.bracket
    else fmt_go cs FmtState.plain
  | _ :: cs, FmtState.bracket => fmt_go cs (FmtState.inset [])
  | c :: cs, FmtState.inset excl =>
    if c = ']' then Dir.set excl :: fmt_go cs FmtState.plain
    else fmt_go cs (FmtState.inset (excl ++ [c]))

/-- The directives of a format string. -/
def fmt (s : String) : List Dir := fmt_go s.toList FmtState.plain

/-- Value of a run of decimal digits. -/
def digits_val (ds : List Char) : Nat :=
  ds.foldl (fun acc c => 10 * acc + (c.toNat - 48)) 0

/-- What `%d` stores in an `int`: `strtol` saturates to the range of `long`,
and the store keeps the low 32 bits. -/
def store_int (v : Int) : Int :=
  let l : Int := if v > 9223372036854775807 then 9223372036854775807
    else if v < -9223372036854775808 then -9223372036854775808 else v
  (l + 2147483648) % 4294967296 - 2147483648

/-- Result of an input failure: `EOF` when no conversion was done yet. -/
def input_failure (done : Nat) (acc : List Val) : Int × List Val :=
  (if done = 0 then -1 else (done : Int), acc)

/-- The interpreter of `sscanf`: `done` counts the conversions assigned so
far, `acc` holds their values in order. -/
def sscanf_go : List Dir → List Char → Nat → List Val → Int × List Val
  | [], _, done, acc => ((done : Int), acc)
  | Dir.ws :: ds, inp, done, acc => sscanf_go ds (inp.dropWhile isspace) done acc
  | Dir.lit c :: ds, inp, done, acc =>
    match inp with
    | [] => input_failure done acc
    | x :: rest => if x = c then sscanf_go ds rest done acc else ((done : Int), acc)
  | Dir.int :: ds, inp, done, acc =>
    match inp.dropWhile isspace with
    | [] => input_failure done acc
    | x :: rest =>
      let body := if x = '-' ∨ x = '+' then rest else x :: rest
      let num := body.takeWhile isdigit
      if num = [] then ((done : Int), acc)
      else
        let v : Int := if x = '-' then 0 - (digits_val num : Int) else (digits_val num : Int)
        sscanf_go ds (body.dropWhile isdigit) (done + 1) (acc ++ [Val.int (store_int v)])
  | Dir.str :: ds, inp, done, acc =>
    match inp.dropWhile isspace with
    | [] => input_failure done acc
    | x :: rest =>
      let tok := (x :: rest).takeWhile (fun c => !isspace c)
      sscanf_go ds ((x :: rest).dropWhile (fun c => !isspace c)) (done + 1)
        (acc ++ [Val.str tok])
  | Dir.set excl :: ds, inp, done, acc =>
    match inp with
    | [] => input_failure done acc
    | x :: rest =>
      let tok := (x :: rest).takeWhile (fun c => !(excl.contains c))
      if tok = [] then ((done : Int), acc)
      else sscanf_go ds ((x :: rest).dropWhile (fun c => !(excl.contains c))) (done + 1)
        (acc ++ [Val.str tok])

/-- The call `sscanf(inp, format, ...)`: the return value and the values
assigned, first argument first. -/
def sscanf (inp : CStr) (format : String) : Int × List Val :=
  sscanf_go (fmt format) inp 0 []

/-- Content of a string buffer after a `sscanf` that had it as its `i`-th
argument: the value assigned, or the old content. -/
def arg_str (vals : List Val) (i : Nat) (old : CStr) : CStr :=
  match vals.get? i with
  | some (Val.str s) => s
  | _ => old

/-- Content of an `int` after a `sscanf` that had it as its `i`-th argument. -/
def arg_int (vals : List Val) (i : Nat) (old : Int) : Int :=
  match vals.get? i with
  | some (Val.int n) => n
  | _ => old

/-- Decimal digits of a natural number, most significant first. -/
def dec_digits (n : Nat) : List Char := Nat.toDigits 10 n

/-- The conversion `%0<w>d` of `printf`: sign, then zeros up to the width. -/
def printf_0d (w : Nat) (n : Int) : CStr :=
  let ds := dec_digits n.natAbs
  if n < 0 then '-' :: (List.replicate (w - 1 - ds.length) '0' ++ ds)
  else List.replicate (w - ds.length) '0' ++ ds

/-- The conversion `%d` of `printf`. -/
def printf_d (n : Int) : CStr := printf_0d 0 n

/-- The fields of `struct tm` the source uses. -/
structure tm where
  tm_year : Int
  tm_mon : Int
  tm_mday : Int
  tm_hour : Int
  tm_min : Int
  tm_sec : Int
  tm_isdst : Int
  deriving DecidableEq, Repr

/-- The call `strftime(buf, 20, "%H:%M:%S", t)`. -/
def strftime_HMS (t : tm) : CStr :=
  printf_0d 2 t.tm_hour ++ [':'] ++ printf_0d 2 t.tm_min ++ [':'] ++ printf_0d 2 t.tm_sec

/-! ## Environment

What `sip.c` takes from outside: the option table of `option.c`, the time zone
behind `mktime` and `localtime`, and the content of the scratch buffers before
the first write. -/

/-- The surroundings of a call into `sip.c`. -/
structure Env where
  is_option_enabled : String → Bool
  get_option_int_value : String → Int
  mktime : tm → Int
  localtime : Int → tm
  junk_value : CStr
  junk_rest : CStr
  junk_ipfrom : CStr
  junk_ipto : CStr

/-! ## Data model -/

/-- The attribute ids of `enum sip_attr_id`, in the order of the table `attrs`. -/
inductive sip_attr_id where
  | SIP_ATTR_SIPFROM
  | SIP_ATTR_SIPTO
  | SIP_ATTR_SRC
  | SIP_ATTR_DST
  | SIP_ATTR_CALLID
  | SIP_ATTR_XCALLID
  | SIP_ATTR_TIME
  | SIP_ATTR_METHOD
  | SIP_ATTR_REQUEST
  | SIP_ATTR_CSEQ
  | SIP_ATTR_SDP
  | SIP_ATTR_STARTING
  | SIP_ATTR_MSGCNT
  deriving DecidableEq, Repr

open sip_attr_id

/-- The list `sip_attr_t`: entries `(hdr->id, value)` in link order. -/
abbrev sip_attr_list := List (sip_attr_id × CStr)

/-- The record `sip_msg_t`. The link `next` is the position in the list of the
owning call; `call` is the index of the owning call in the store. -/
structure sip_msg where
  attrs : sip_attr_list
  headerptr : CStr
  payloadptr : CStr
  parsed : Bool
  payload : List CStr
  ts_sec : Int
  ts_usec : Int
  call : Option Nat
  deriving DecidableEq, Repr

/-- The counter `plines`: the number of entries written to `payload[]`. -/
def sip_msg.plines (m : sip_msg) : Nat := m.payload.length

/-- The record `sip_call_t`: its own attribute list and its messages in link
order. -/
structure sip_call where
  attrs : sip_attr_list
  msgs : List sip_msg
  deriving DecidableEq, Repr

/-- The list `calls`, in link order. -/
abbrev Store := List sip_call

/-! ## Attributes -/

/-- The loop of `sip_attr_set` over existing entries: the list with the value
of the first entry for `id` replaced, or `none` when there is no such entry. -/
def sip_attr_replace : sip_attr_list → sip_attr_id → CStr → Option sip_attr_list
  | [], _, _ => none
  | (i, v) :: l, id, value =>
    if id = i then some ((i, value) :: l)
    else (sip_attr_replace l id value).map (fun r => (i, v) :: r)

/-- The function `sip_attr_set`. -/
def sip_attr_set (list : sip_attr_list) (id : sip_attr_id) (value : CStr) : sip_attr_list :=
  match sip_attr_replace list id value with
  | some l => l
  | none => (id, value) :: list

/-- The function `sip_attr_get`; `none` is `NULL`. -/
def sip_attr_get : sip_attr_list → sip_attr_id → Option CStr
  | [], _ => none
  | (i, v) :: l, id => if id = i then some v else sip_attr_get l id

/-- The function `msg_set_attribute`. -/
def msg_set_attribute (msg : sip_msg) (id : sip_attr_id) (value : CStr) : sip_msg :=
  { msg with attrs := sip_attr_set msg.attrs id value }

/-- The function `msg_get_attribute`; the message may be `NULL`. -/
def msg_get_attribute (msg : Option sip_msg) (id : sip_attr_id) : Option CStr :=
  match msg with
  | none => none
  | some m => sip_attr_get m.attrs id

/-! ## Messages -/

/-- The function `sip_msg_create`. -/
def sip_msg_create (header payload : CStr) : sip_msg :=
  { attrs := [], headerptr := header, payloadptr := payload, parsed := false,
    payload := [], ts_sec := 0, ts_usec := 0, call := none }

/-- The function `msg_parse_header`: the message afterwards and the return
value. -/
def msg_parse_header (env : Env) (msg : sip_msg) (header : CStr) : sip_msg × Int :=
  let r := sscanf header "U %d/%d/%d %d:%d:%d.%d %s -> %s"
  if r.1 ≠ 0 then
    let usec := arg_int r.2 6 msg.ts_usec
    let ipfrom := arg_str r.2 7 env.junk_ipfrom
    let ipto := arg_str r.2 8 env.junk_ipto
    let when : tm :=
      { tm_year := arg_int r.2 0 0 - 1900, tm_mon := arg_int r.2 1 0 - 1,
        tm_mday := arg_int r.2 2 0, tm_hour := arg_int r.2 3 0,
        tm_min := arg_int r.2 4 0, tm_sec := arg_int r.2 5 0, tm_isdst := 1 }
    let timet := env.mktime when
    let time := strftime_HMS (env.localtime timet) ++ ['.'] ++ printf_0d 6 usec
    let m0 : sip_msg := { msg with ts_usec := usec, ts_sec := timet }
    let m1 := msg_set_attribute m0 SIP_ATTR_TIME time
    let m2 := msg_set_attribute m1 SIP_ATTR_SRC ipfrom
    let m3 := msg_set_attribute m2 SIP_ATTR_DST ipto
    (m3, 0)
  else (msg, 1)

/-- The fix of the last character of an ngrep line: one trailing `.` is cut. -/
def fix_last (pch : CStr) : CStr :=
  if pch.getLast? = some '.' then pch.dropLast else pch

/-- The lines the loops of `sip_get_callid` and `msg_parse_payload` see: the
tokens of the text, each with its last character fixed. -/
def payload_lines (payload : CStr) : List CStr := (strtok payload).map fix_last

/-- State of the loop of `msg_parse_payload`: the message and the buffers
`value` and `rest`. -/
structure PayloadState where
  msg : sip_msg
  value : CStr
  rest : CStr
  deriving DecidableEq, Repr

/-- The last test of the loop body of `msg_parse_payload`: the prefix
`Content-Type: application/sdp`. -/
def payload_sdp (s : PayloadState) (pch : CStr) : PayloadState :=
  if strncasecmp pch "Content-Type: application/sdp".toList 29 = 0 then
    { s with msg := msg_set_attribute s.msg SIP_ATTR_SDP "1".toList }
  else s

/-- The test for a `To:` line, and the tests after it. -/
def payload_to (s : PayloadState) (pch : CStr) : PayloadState :=
  let r := sscanf pch "To: %[^:]:%[^\t\n\r>;]"
  let rest := arg_str r.2 0 s.rest
  let value := arg_str r.2 1 s.value
  if r.1 ≠ 0 then
    { msg := msg_set_attribute s.msg SIP_ATTR_SIPTO value, value := value, rest := rest }
  else payload_sdp { s with value := value, rest := rest } pch

/-- The test for a `From:` line, and the tests after it. -/
def payload_from (s : PayloadState) (pch : CStr) : PayloadState :=
  let r := sscanf pch "From: %[^:]:%[^\t\n\r>;]"
  let rest := arg_str r.2 0 s.rest
  let value := arg_str r.2 1 s.value
  if r.1 ≠ 0 then
    { msg := msg_set_attribute s.msg SIP_ATTR_SIPFROM value, value := value, rest := rest }
  else payload_to { s with value := value, rest := rest } pch

/-- The test for a `CSeq:` line, and the tests after it. -/
def payload_cseq (s : PayloadState) (pch : CStr) : PayloadState :=
  let r := sscanf pch "CSeq: %s %[^\t\n\r]"
  let rest := arg_str r.2 0 s.rest
  let value := arg_str r.2 1 s.value
  if r.1 ≠ 0 then
    let m1 :=
      if (msg_get_attribute (some s.msg) SIP_ATTR_METHOD).isNone then
        let m0 :=
          if strcasecmp value "ACK".toList ≠ 0 then
            msg_set_attribute s.msg SIP_ATTR_REQUEST "1".toList
          else s.msg
        msg_set_attribute m0 SIP_ATTR_METHOD value
      else s.msg
    { msg := msg_set_attribute m1 SIP_ATTR_CSEQ rest, value := value, rest := rest }
  else payload_from { s with value := value, rest := rest } pch

/-- The test for a status line `SIP/2.0 ...`, and the tests after it. -/
def payload_status (s : PayloadState) (pch : CStr) : PayloadState :=
  let r := sscanf pch "SIP/2.0 %[^\t\n\r]"
  let value := arg_str r.2 0 s.value
  if r.1 ≠ 0 then
    if (msg_get_attribute (some s.msg) SIP_ATTR_METHOD).isNone then
      { s with msg := msg_set_attribute s.msg SIP_ATTR_METHOD value, value := value }
    else { s with value := value }
  else payload_cseq { s with value := value } pch

/-- The test for an `X-CID:` line, and the tests after it. -/
def payload_xcid (s : PayloadState) (pch : CStr) : PayloadState :=
  let r := sscanf pch "X-CID: %[^@\t\n\r]"
  let value := arg_str r.2 0 s.value
  if r.1 = 1 then
    { s with msg := msg_set_attribute s.msg SIP_ATTR_XCALLID value, value := value }
  else payload_status { s with value := value } pch

/-- The test for an `X-Call-ID:` line, and the tests after it. -/
def payload_xcallid (s : PayloadState) (pch : CStr) : PayloadState :=
  let r := sscanf pch "X-Call-ID: %[^@\t\n\r]"
  let value := arg_str r.2 0 s.value
  if r.1 = 1 then
    { s with msg := msg_set_attribute s.msg SIP_ATTR_XCALLID value, value := value }
  else payload_xcid { s with value := value } pch

/-- The body of the loop of `msg_parse_payload` for one line `pch`, after the
fix of its last character: the line is copied to `payload[]`, and a line that
is not empty goes through the tests in the order of the source. -/
def payload_step (s : PayloadState) (pch : CStr) : PayloadState :=
  let s1 : PayloadState :=
    { s with msg := { s.msg with payload := s.msg.payload ++ [pch] } }
  if pch.length = 0 then s1 else payload_xcallid s1 pch

/-- The function `msg_parse_payload`: the message afterwards and the return
value. -/
def msg_parse_payload (env : Env) (msg : sip_msg) (payload : CStr) : sip_msg × Int :=
  let s := (payload_lines payload).foldl payload_step
    { msg := msg, value := env.junk_value, rest := env.junk_rest }
  (s.msg, 0)

/-- The function `msg_parse` on a message that is not `NULL`: the message
afterwards, and whether the pointer returned is the message (`true`) or `NULL`
(`false`). -/
def msg_parse (env : Env) (msg : sip_msg) : sip_msg × Bool :=
  if msg.parsed then (msg, true)
  else
    let h := msg_parse_header env msg msg.headerptr
    if h.2 ≠ 0 then (h.1, false)
    else
      let p := msg_parse_payload env h.1 h.1.payloadptr
      if p.2 ≠ 0 then (p.1, false)
      else ({ p.1 with parsed := true }, true)

/-- The function `msg_parse` on a pointer that may be `NULL`: the message
returned, `none` for `NULL`. -/
def msg_parse_ptr (env : Env) (msg : Option sip_msg) : Option sip_msg :=
  match msg with
  | none => none
  | some m => if (msg_parse env m).2 then some (msg_parse env m).1 else none

/-! ## Calls -/

/-- The message a pointer into the message list of a call points to. -/
def msg_at (call : sip_call) (ptr : Option Nat) : Option sip_msg :=
  match ptr with
  | none => none
  | some i => call.msgs.get? i

/-- The function `call_add_message` for the call at index `cidx` of the store:
the call and the message afterwards. -/
def call_add_message (env : Env) (call : sip_call) (cidx : Nat) (msg : sip_msg) :
    sip_call × sip_msg :=
  let msg : sip_msg := { msg with call := some cidx }
  match call.msgs with
  | [] =>
    let r := msg_parse env msg
    ({ call with msgs := if r.2 then [r.1] else [] }, r.1)
  | m :: ms => ({ call with msgs := (m :: ms) ++ [msg] }, msg)

/-- The function `call_msg_count`. -/
def call_msg_count (call : sip_call) : Nat := call.msgs.length

/-- The function `call_get_next_msg`: the call afterwards and the pointer
returned. -/
def call_get_next_msg (env : Env) (call : sip_call) (msg : Option Nat) :
    sip_call × Option Nat :=
  match msg with
  | none => (call, if call.msgs = [] then none else some 0)
  | some i =>
    match call.msgs.get? (i + 1) with
    | none => (call, none)
    | some nxt =>
      let r := msg_parse env nxt
      ({ call with msgs := call.msgs.set (i + 1) r.1 }, if r.2 then some (i + 1) else none)

/-- The function `call_get_attribute`. With `NULL` as its second argument
`call_get_next_msg` returns the head of the message list and changes nothing,
so the environment it is given has no influence. -/
def call_get_attribute (call : sip_call) (id : sip_attr_id) : Option CStr :=
  if id = SIP_ATTR_MSGCNT then some (printf_d (call_msg_count call))
  else if id = SIP_ATTR_STARTING then msg_get_attribute call.msgs.head? SIP_ATTR_METHOD
  else msg_get_attribute call.msgs.head? id

/-- The function `call_set_attribute`. -/
def call_set_attribute (call : sip_call) (id : sip_attr_id) (value : CStr) : sip_call :=
  { call with attrs := sip_attr_set call.attrs id value }

/-! ## The call store -/

/-- The loop of `call_find_by_callid` from the call at index `i` on. -/
def call_find_by_callid_from : List sip_call → Nat → CStr → Option Nat
  | [], _, _ => none
  | cur :: next, i, callid =>
    match call_get_attribute cur SIP_ATTR_CALLID with
    | some cur_callid =>
      if strcmp cur_callid callid = 0 then some i
      else call_find_by_callid_from next (i + 1) callid
    | none => call_find_by_callid_from next (i + 1) callid

/-- The function `call_find_by_callid`: the index of the call found. -/
def call_find_by_callid (calls : Store) (callid : CStr) : Option Nat :=
  call_find_by_callid_from calls 0 callid

/-- The function `sip_call_create`: the store with the new call at its end, and
the index of the new call. -/
def sip_call_create (calls : Store) (_callid : CStr) : Store × Nat :=
  (calls ++ [{ attrs := [], msgs := [] }], calls.length)

/-- The loop of `sip_get_callid` over the lines: `callid` is the value found so
far. -/
def sip_get_callid_go : List CStr → Option CStr → Option CStr
  | [], callid => callid
  | pch :: rest, callid =>
    if strncasecmp pch "Call-ID".toList 7 = 0 then
      let r := sscanf pch "Call-ID: %[^@\n]"
      if r.1 = 1 then sip_get_callid_go rest (some (arg_str r.2 0 []))
      else sip_get_callid_go rest callid
    else sip_get_callid_go rest callid

/-- The function `sip_get_callid`; `none` is `NULL`. -/
def sip_get_callid (payload : CStr) : Option CStr :=
  sip_get_callid_go (payload_lines payload) none

/-- The test of `sip_load_message` on the method of the first message of a
call: true when the message is to be dropped. -/
def method_rejected (method : Option CStr) : Bool :=
  match method with
  | none => false
  | some m =>
    strncasecmp m "INVITE".toList 6 ≠ 0
    && strncasecmp m "REGISTER".toList 8 ≠ 0 && strncasecmp m "SUBSCRIBE".toList 9 ≠ 0
    && strncasecmp m "OPTIONS".toList 7 ≠ 0 && strncasecmp m "PUBLISH".toList 7 ≠ 0
    && strncasecmp m "MESSAGE".toList 7 ≠ 0 && strncasecmp m "NOTIFY".toList 6 ≠ 0

/-- The part of `sip_load_message` after the call was found or created: sets
the Call-ID of the message and adds it to the call at index `cidx`. -/
def sip_load_attach (env : Env) (calls : Store) (cidx : Nat) (msg : sip_msg) (callid : CStr) :
    Store × Option sip_msg :=
  match calls.get? cidx with
  | none => (calls, none)
  | some call =>
    let msg := msg_set_attribute msg SIP_ATTR_CALLID callid
    let r := call_add_message env call cidx msg
    (calls.set cidx r.1, some r.2)

/-- The function `sip_load_message`: the store afterwards and the message
returned, `none` for `NULL`. -/
def sip_load_message (env : Env) (calls : Store) (header payload : CStr) :
    Store × Option sip_msg :=
  if !env.is_option_enabled "sip.capture" then (calls, none)
  else
    match sip_get_callid payload with
    | none => (calls, none)
    | some callid =>
      let msg := sip_msg_create header payload
      match call_find_by_callid calls callid with
      | some cidx => sip_load_attach env calls cidx msg callid
      | none =>
        if env.get_option_int_value "sip.ignoreincomplete" ≠ 0 then
          let r := msg_parse env msg
          let method := msg_get_attribute (if r.2 then some r.1 else none) SIP_ATTR_METHOD
          if method_rejected method then (calls, none)
          else
            let c := sip_call_create calls callid
            sip_load_attach env c.1 c.2 r.1 callid
        else
          let c := sip_call_create calls callid
          sip_load_attach env c.1 c.2 msg callid

/-- The store after a sequence of records, each loaded under the environment
it comes with. -/
def sip_load_all : Store → List (Env × CStr × CStr) → Store
  | calls, [] => calls
  | calls, (env, header, payload) :: rest =>
    sip_load_all (sip_load_message env calls header payload).1 rest

/-! ## Previous message and retransmissions -/

/-- The loop of `call_get_prev_msg`: `cur` runs over the messages from position
`pos` on, `ret` is the message before `cur`, and the loop stops when `cur` is
the message at position `msg`. -/
def call_prev_scan : List sip_msg → Nat → Nat → Option Nat → Option Nat
  | [], _, _, ret => ret
  | _ :: next, pos, msg, ret =>
    if pos = msg then ret else call_prev_scan next (pos + 1) msg (some pos)

/-- The function `call_get_prev_msg`: the call afterwards and the pointer
returned. A pointer `some i` with `i` not below the number of messages of the
call stands for a message that is not in the list of this call. -/
def call_get_prev_msg (env : Env) (call : sip_call) (msg : Option Nat) :
    sip_call × Option Nat :=
  let ret : Option Nat :=
    match msg with
    | none => none
    | some i => call_prev_scan call.msgs 0 i none
  match ret with
  | none => (call, none)
  | some j =>
    match call.msgs.get? j with
    | none => (call, none)
    | some prev =>
      let r := msg_parse env prev
      ({ call with msgs := call.msgs.set j r.1 }, if r.2 then some j else none)

/-- The loop of `msg_is_retrans` over the payload lines of the message and of
the previous one, which have the same number of lines: true when some pair of
lines differs for `strcasecmp`. -/
def payload_lines_differ : List CStr → List CStr → Bool
  | a :: as, b :: bs => if strcasecmp a b ≠ 0 then true else payload_lines_differ as bs
  | _, _ => false

/-- The function `msg_is_retrans`: the store afterwards (the previous message
may get parsed) and the return value. The message is given by its record,
`none` for `NULL`, and by its position `pos` in the list of its owning call
(`pos` is not below the number of messages when it is in no list). -/
def msg_is_retrans (env : Env) (calls : Store) (msg : Option sip_msg) (pos : Nat) :
    Store × Int :=
  match msg with
  | none => (calls, 0)
  | some m =>
    match m.call with
    | none => (calls, 0)
    | some cidx =>
      match calls.get? cidx with
      | none => (calls, 0)
      | some call =>
        let r := call_get_prev_msg env call (some pos)
        let calls1 := calls.set cidx r.1
        match msg_at r.1 r.2 with
        | none => (calls1, 0)
        | some prev =>
          if m.plines ≠ prev.plines then (calls1, 0)
          else if payload_lines_differ m.payload prev.payload then (calls1, 0)
          else (calls1, 1)

/-! ## The attribute table and the filter -/

/-- The record `sip_attr_hdr_t`. -/
structure sip_attr_hdr where
  id : sip_attr_id
  name : String
  desc : String
  deriving DecidableEq, Repr

/-- The table `attrs`. -/
def attrs : List sip_attr_hdr :=
  [{ id := SIP_ATTR_SIPFROM, name := "sipfrom", desc := "SIP From" },
   { id := SIP_ATTR_SIPTO, name := "sipto", desc := "SIP To" },
   { id := SIP_ATTR_SRC, name := "src", desc := "Source" },
   { id := SIP_ATTR_DST, name := "dst", desc := "Destiny" },
   { id := SIP_ATTR_CALLID, name := "callid", desc := "Call-ID" },
   { id := SIP_ATTR_XCALLID, name := "xcallid", desc := "X-Call-ID" },
   { id := SIP_ATTR_TIME, name := "time", desc := "Time" },
   { id := SIP_ATTR_METHOD, name := "method", desc := "Method" },
   { id := SIP_ATTR_REQUEST, name := "request", desc := "Request" },
   { id := SIP_ATTR_CSEQ, name := "CSeq", desc := "CSeq" },
   { id := SIP_ATTR_SDP, name := "sdp", desc := "Has SDP" },
   { id := SIP_ATTR_STARTING, name := "starting", desc := "Starting" },
   { id := SIP_ATTR_MSGCNT, name := "msgcnt", desc := "Msgs" }]

/-- The functions of `option.c` the filter reads besides `is_option_enabled`:
`get_option_value` (`none` is `NULL`) and `is_ignored_value`, whose second
argument may be `NULL`. -/
structure Filters where
  get_option_value : String → Option CStr
  is_ignored_value : String → Option CStr → Bool

/-- The function `strstr`: the rest of `hay` from the first occurrence of
`needle` on, `none` for `NULL`. -/
def strstr : CStr → CStr → Option CStr
  | [], needle => if needle = [] then some [] else none
  | h :: hay, needle =>
    if needle.isPrefixOf (h :: hay) then some (h :: hay) else strstr hay needle

/-- The first loop of `sip_check_call_ignore` over the rest of the table: true
when the value of some attribute of the call is an ignored value. -/
def ignored_value_scan (flt : Filters) (call : sip_call) : List sip_attr_hdr → Bool
  | [] => false
  | hdr :: rest =>
    if flt.is_ignored_value hdr.name (call_get_attribute call hdr.id) then true
    else ignored_value_scan flt call rest

/-- The test of `sip_check_call_ignore` for `filter.sipfrom` and `filter.sipto`:
`some true` when the function returns 1, `some false` when it goes on, `none`
when `strstr` is handed `NULL` as the value of the attribute. -/
def filter_strstr (filter value : Option CStr) : Option Bool :=
  match filter with
  | none => some false
  | some f =>
    if f.length = 0 then some false
    else
      match value with
      | none => none
      | some v => some (strstr v f).isNone

/-- The test of `sip_check_call_ignore` for `filter.src` and `filter.dst`, with
the results of `filter_strstr`. -/
def filter_strncasecmp (filter value : Option CStr) : Option Bool :=
  match filter with
  | none => some false
  | some f =>
    if f.length = 0 then some false
    else
      match value with
      | none => none
      | some v => some (decide (strncasecmp f v f.length ≠ 0))

/-- One test of `sip_check_call_ignore` followed by the rest of the function. -/
def filter_then (test : Option Bool) (rest : Option Int) : Option Int :=
  match test with
  | none => none
  | some true => some 1
  | some false => rest

/-- The key `sprintf(filter_option, "filter.%s", starting)` writes into the
buffer `char filter_option[80]`; a `NULL` argument is printed as `(null)`. The
result is `none` when the text and its terminating NUL do not fit the 80
characters of the buffer: `sprintf` then writes past its end. -/
def filter_option (starting : Option CStr) : Option String :=
  let text := "filter.".toList ++ starting.getD "(null)".toList
  if text.length + 1 ≤ 80 then some (String.mk text) else none

/-- The function `sip_check_call_ignore`; `none` when the function hands `NULL`
to `strstr` or `strncasecmp`, or writes past the end of `filter_option`. -/
def sip_check_call_ignore (env : Env) (flt : Filters) (call : sip_call) : Option Int :=
  if ignored_value_scan flt call attrs then some 1
  else if env.is_option_enabled "filter.enable" then
    filter_then (filter_strstr (flt.get_option_value "filter.sipfrom")
        (call_get_attribute call SIP_ATTR_SIPFROM))
      (filter_then (filter_strstr (flt.get_option_value "filter.sipto")
          (call_get_attribute call SIP_ATTR_SIPTO))
        (filter_then (filter_strncasecmp (flt.get_option_value "filter.src")
            (call_get_attribute call SIP_ATTR_SRC))
          (filter_then (filter_strncasecmp (flt.get_option_value "filter.dst")
              (call_get_attribute call SIP_ATTR_DST))
            (match filter_option (call_get_attribute call SIP_ATTR_STARTING) with
              | none => none
              | some key => if !env.is_option_enabled key then some 1 else some 0))))
  else some 0

/-- The loop of `sip_calls_count` for a given test of the calls; `none` when
the test fails on a call. -/
def sip_calls_count_loop (ignore : sip_call → Option Int) : List sip_call → Nat → Option Nat
  | [], callcnt => some callcnt
  | call :: next, callcnt =>
    match ignore call with
    | none => none
    | some r => sip_calls_count_loop ignore next (if r = 0 then callcnt + 1 else callcnt)

/-- The function `sip_calls_count`. -/
def sip_calls_count (env : Env) (flt : Filters) (calls : Store) : Option Nat :=
  sip_calls_count_loop (sip_check_call_ignore env flt) calls 0

/-- The recursion of `call_get_next` for a given test of the calls: `next` is
the head of the list given, at index `i` of the store. The outer `none` is a
test that fails, the inner `none` is `NULL`. -/
def call_next_chain (ignore : sip_call → Option Int) : List sip_call → Nat → Option (Option Nat)
  | [], _ => some none
  | next :: rest, i =>
    match ignore next with
    | none => none
    | some r => if r ≠ 0 then call_next_chain ignore rest (i + 1) else some (some i)

/-- The function `call_get_next` for a given test of the calls. -/
def call_get_next_with (ignore : sip_call → Option Int) (calls : Store) (cur : Option Nat) :
    Option (Option Nat) :=
  match cur with
  | none => call_next_chain ignore calls 0
  | some i => call_next_chain ignore (calls.drop (i + 1)) (i + 1)

/-- The function `call_get_next`. -/
def call_get_next (env : Env) (flt : Filters) (calls : Store) (cur : Option Nat) :
    Option (Option Nat) :=
  call_get_next_with (sip_check_call_ignore env flt) calls cur

/-- The recursion of `call_get_prev` for a given test of the calls: `prev` is
the head of the list given, which holds the calls in the order of the `prev`
links. -/
def call_prev_chain (ignore : sip_call → Option Int) : List sip_call → Option (Option Nat)
  | [] => some none
  | prev :: before =>
    match ignore prev with
    | none => none
    | some r => if r ≠ 0 then call_prev_chain ignore before else some (some before.length)

/-- The function `call_get_prev` for a given test of the calls; with `NULL` the
source starts at the head of the store. -/
def call_get_prev_with (ignore : sip_call → Option Int) (calls : Store) (cur : Option Nat) :
    Option (Option Nat) :=
  match cur with
  | none => call_prev_chain ignore (calls.take 1).reverse
  | some i => call_prev_chain ignore (calls.take i).reverse

/-- The function `call_get_prev`. -/
def call_get_prev (env : Env) (flt : Filters) (calls : Store) (cur : Option Nat) :
    Option (Option Nat) :=
  call_get_prev_with (sip_check_call_ignore env flt) calls cur

/-! ## Notions used in the statements -/

/-- The ids `msg_parse_header` and `msg_parse_payload` write. -/
def parse_written : List sip_attr_id :=
  [SIP_ATTR_TIME, SIP_ATTR_SRC, SIP_ATTR_DST, SIP_ATTR_XCALLID, SIP_ATTR_METHOD,
   SIP_ATTR_REQUEST, SIP_ATTR_CSEQ, SIP_ATTR_SIPFROM, SIP_ATTR_SIPTO, SIP_ATTR_SDP]

/-- The three attributes a `CSeq:` line may write. -/
def cseq_written (j : sip_attr_id) : Prop :=
  j = SIP_ATTR_METHOD ∨ j = SIP_ATTR_REQUEST ∨ j = SIP_ATTR_CSEQ

/-- The Call-ID values of the calls of a store, as `call_get_attribute` returns
them, in store order. -/
def store_callids (calls : Store) : List (Option CStr) :=
  calls.map (fun c => call_get_attribute c SIP_ATTR_CALLID)

/-- No Call-ID value occurs at two positions of a list of Call-ID values;
absent values are not compared. -/
def callids_distinct (ids : List (Option CStr)) : Prop :=
  ids.Pairwise (fun a b => ∀ v, a = some v → b ≠ some v)

/-- The first message of a new call as `sip_load_message` hands it to
`call_add_message` and as `call_add_message` parses it: with its `CALLID` set
and the call at index `cidx` as its owner. -/
def first_msg_parse (env : Env) (msg : sip_msg) (callid : CStr) (cidx : Nat) : sip_msg × Bool :=
  msg_parse env { (msg_set_attribute msg SIP_ATTR_CALLID callid) with call := some cidx }

/-- The call at index `i` of a store; an empty call when there is none. -/
def call_at (calls : Store) (i : Nat) : sip_call :=
  (calls.get? i).getD { attrs := [], msgs := [] }

/-- The pointers `call_get_next_msg` returns when it is called with `NULL` and
then with its own last result, until it returns `NULL`; at most `fuel` calls.
Returns the call afterwards and the pointers in the order returned. -/
def call_walk (env : Env) : Nat → sip_call → Option Nat → sip_call × List Nat
  | 0, call, _ => (call, [])
  | fuel + 1, call, cur =>
    match (call_get_next_msg env call cur).2 with
    | none => ((call_get_next_msg env call cur).1, [])
    | some i =>
      let r := call_walk env fuel (call_get_next_msg env call cur).1 (some i)
      (r.1, i :: r.2)

/-- The seven method names `sip_load_message` compares the method of a first
message with. -/
def initiating_methods : List CStr :=
  ["INVITE".toList, "REGISTER".toList, "SUBSCRIBE".toList, "OPTIONS".toList,
   "PUBLISH".toList, "MESSAGE".toList, "NOTIFY".toList]

/-! ## Sample environment and records -/

/-- An environment with capture on, the option `sip.ignoreincomplete` as
given, a clock without time zone offset that ignores the date, and empty
scratch buffers. -/
def sample_env (ignoreincomplete : Int) : Env :=
  { is_option_enabled := fun k => k = "sip.capture"
    get_option_int_value := fun k => if k = "sip.ignoreincomplete" then ignoreincomplete else 0
    mktime := fun t => t.tm_hour * 3600 + t.tm_min * 60 + t.tm_sec
    localtime := fun s =>
      { tm_year := 70, tm_mon := 0, tm_mday := 1, tm_hour := s / 3600 % 24,
        tm_min := s / 60 % 60, tm_sec := s % 60, tm_isdst := 0 }
    junk_value := [], junk_rest := [], junk_ipfrom := [], junk_ipto := [] }

/-- The header line of the scenarios of the specification. -/
def sample_header : CStr := "U 2024/01/01 10:00:00.000000 10.0.0.1:5060 -> 10.0.0.2:5060".toList

/-- The header line ngrep prints for a TCP packet: it starts with `T`. -/
def tcp_header : CStr := "T 2024/01/01 10:00:00.000000 10.0.0.1:5060 -> 10.0.0.2:5060".toList

/-- A header line that stops after the date. -/
def short_header : CStr := "U 2024/01/01".toList

/-- The payload of the scenarios of the specification. -/
def sample_payload : CStr := "Call-ID: abc123@hostA\nCSeq: 1 INVITE".toList

/-- A second payload, for another Call-ID. -/
def second_payload : CStr := "Call-ID: xyz789@hostB\nCSeq: 7 REGISTER".toList

/-- A payload without a `Call-ID:` line. -/
def no_callid_payload : CStr := "CSeq: 1 INVITE\nFrom: <sip:alice@hostA>".toList

/-- A payload whose method extends `INVITE`. -/
def invitex_payload : CStr := "Call-ID: abc123@hostA\nCSeq: 1 INVITEX".toList

/-- A payload with a Call-ID and no line that sets a method. -/
def bare_payload : CStr := "Call-ID: abc123@hostA".toList

/-- A payload whose method is `BYE`. -/
def bye_payload : CStr := "Call-ID: abc123@hostA\nCSeq: 1 BYE".toList

/-- A payload with two `CSeq:` lines. -/
def two_cseq_payload : CStr := "Call-ID: abc123@hostA\nCSeq: 1 INVITE\nCSeq: 2 BYE".toList

/-- A payload with two `Call-ID:` lines. -/
def two_callid_payload : CStr :=
  "Call-ID: abc123@hostA\nCSeq: 1 INVITE\nCall-ID: xyz789@hostB".toList

/-- Three records: two for the Call-ID `abc123`, one for `xyz789`. -/
def sample_records : List (Env × CStr × CStr) :=
  [(sample_env 0, sample_header, sample_payload), (sample_env 1, sample_header, second_payload),
   (sample_env 0, sample_header, sample_payload)]

/-- The store after the record of the scenario was loaded into the empty
store: one call, `abc123`, with one message. -/
def one_call_store : Store :=
  (sip_load_message (sample_env 0) [] sample_header sample_payload).1

/-- A store whose only call is `xyz789`. -/
def other_call_store : Store :=
  (sip_load_message (sample_env 0) [] sample_header second_payload).1

/-- A call `abc123` built by three records, the second with a header line that
starts with `T`. -/
def gap_call : sip_call :=
  call_at (sip_load_all []
    [(sample_env 0, sample_header, sample_payload), (sample_env 0, tcp_header, sample_payload),
     (sample_env 0, sample_header, sample_payload)]) 0

/-- The splitting the specification words describe: the pieces of a text
between newline characters, empty pieces included; `cur` is the piece being
read. -/
def spec_split_go : List Char → List Char → List CStr
  | [], cur => [cur]
  | c :: cs, cur =>
    if c = '\n' then cur :: spec_split_go cs [] else spec_split_go cs (cur ++ [c])

/-- The lines of a text as the specification words describe them: split on
newline, blank lines kept. -/
def spec_split_lines (text : CStr) : List CStr := spec_split_go text []

/-- A payload with an empty line between two lines. -/
def blank_line_payload : CStr := "Call-ID: abc123@hostA\n\nv=0".toList

/-- A payload as ngrep prints it: each line ends in `.`, and the line after the
header fields is only `.`. -/
def dotted_payload : CStr := "Call-ID: abc123@hostA.\nCSeq: 1 INVITE.\n.\nv=0.\n".toList

/-- A text the conversion `%[^\t\n\r]` reads whole after blanks were skipped:
not empty, without tab, newline and carriage return, and not starting with a
blank. -/
def line_value (t : CStr) : Prop :=
  t ≠ [] ∧ (∀ c ∈ t, c ≠ '\t' ∧ c ≠ '\n' ∧ c ≠ '\r') ∧ ∀ c, t.head? = some c → isspace c = false

/-- A text the conversion `%s` reads whole: not empty and without blanks. -/
def line_token (t : CStr) : Prop := t ≠ [] ∧ ∀ c ∈ t, isspace c = false

/-- A line that neither the status line test nor the `CSeq:` test of
`msg_parse_payload` takes: it is empty, or `sscanf` returns 0 for both formats. -/
def no_method_line (l : CStr) : Prop :=
  l = [] ∨ ((sscanf l "SIP/2.0 %[^\t\n\r]").1 = 0 ∧ (sscanf l "CSeq: %s %[^\t\n\r]").1 = 0)

/-- A line that the `CSeq:` test of `msg_parse_payload` does not take. -/
def no_cseq_line (l : CStr) : Prop :=
  l = [] ∨ (sscanf l "CSeq: %s %[^\t\n\r]").1 = 0

/-- A response: status line first, `CSeq:` line later. -/
def response_payload : CStr :=
  "SIP/2.0 200 OK\nCall-ID: abc123@hostA\nCSeq: 1 INVITE\nFrom: <sip:alice@hostA>".toList

/-- The text `f` is an initial part of `s` ignoring letter case. -/
def ci_initial (f s : CStr) : Prop :=
  f.length ≤ s.length ∧ (s.take f.length).map tolower = f.map tolower

/-- A filter on a substring hides the value: the filter is set, is not empty,
and does not occur in the value. -/
def substring_filter_fails (filter : Option CStr) (value : CStr) : Prop :=
  ∃ f, filter = some f ∧ f ≠ [] ∧ ¬ (f <:+: value)

/-- A filter on an initial part hides the value: the filter is set, is not
empty, and is not an initial part of the value ignoring letter case. -/
def initial_filter_fails (filter : Option CStr) (value : CStr) : Prop :=
  ∃ f, filter = some f ∧ f ≠ [] ∧ ¬ ci_initial f value

/-- The call `r` points to is not ignored and lies at position `lo` or later,
and every call from `lo` up to it is ignored; for `NULL`, every call from `lo`
on is ignored. -/
def nearest_after (ign : sip_call → Int) (calls : Store) (lo : Nat) (r : Option Nat) : Prop :=
  match r with
  | some j =>
    lo ≤ j ∧ (∃ c, calls.get? j = some c ∧ ign c = 0)
      ∧ ∀ k c, lo ≤ k → k < j → calls.get? k = some c → ign c ≠ 0
  | none => ∀ k c, lo ≤ k → calls.get? k = some c → ign c ≠ 0

/-- The call `r` points to is not ignored and lies before position `hi`, and
every call between it and `hi` is ignored; for `NULL`, every call before `hi`
is ignored. -/
def nearest_before (ign : sip_call → Int) (calls : Store) (hi : Nat) (r : Option Nat) : Prop :=
  match r with
  | some j =>
    j < hi ∧ (∃ c, calls.get? j = some c ∧ ign c = 0)
      ∧ ∀ k c, j < k → k < hi → calls.get? k = some c → ign c ≠ 0
  | none => ∀ k c, k < hi → calls.get? k = some c → ign c ≠ 0

/-- An option table without filters and without ignored values. -/
def no_filters : Filters :=
  { get_option_value := fun _ => none, is_ignored_value := fun _ _ => false }

/-- The environment `sample_env 0` with the options `filter.enable` and
`filter.INVITE` on as well. -/
def filter_env : Env :=
  { sample_env 0 with
    is_option_enabled := fun k => k = "sip.capture" ∨ k = "filter.enable" ∨ k = "filter.INVITE" }

/-- An option table with a filter on the source address. -/
def src_filters : Filters :=
  { get_option_value := fun k => if k = "filter.src" then some "10.0.0.9".toList else none,
    is_ignored_value := fun _ _ => false }

/-- A message with the five attributes the filter reads, for the call
`filter_call`. -/
def filter_msg : sip_msg :=
  { (msg_set_attribute (msg_set_attribute
      (msg_parse (sample_env 0) (sip_msg_create sample_header sample_payload)).1
      SIP_ATTR_SIPFROM "alice@hostA".toList) SIP_ATTR_SIPTO "bob@hostB".toList) with
    call := some 0 }

/-- A call whose first message has `SIPFROM`, `SIPTO`, `SRC`, `DST` and
`METHOD`. -/
def filter_call : sip_call := { attrs := [], msgs := [filter_msg] }

/-- The store after three records for the Call-ID `abc123`, the second with a
header line that starts with `T`. -/
def gap_store : Store :=
  sip_load_all []
    [(sample_env 0, sample_header, sample_payload), (sample_env 0, tcp_header, sample_payload),
     (sample_env 0, sample_header, sample_payload)]

/-- The store after three records with the same header line and payload. -/
def triple_store : Store :=
  sip_load_all []
    [(sample_env 0, sample_header, sample_payload), (sample_env 0, sample_header, sample_payload),
     (sample_env 0, sample_header, sample_payload)]

/-- The store after two records with the same header line and payload. -/
def twice_store : Store :=
  sip_load_all []
    [(sample_env 0, sample_header, sample_payload), (sample_env 0, sample_header, sample_payload)]

/-- The store `twice_store` after `call_get_next_msg` was called on its call
with the first message: the second message is parsed. -/
def twice_walked : Store :=
  twice_store.set 0 (call_get_next_msg (sample_env 0) (call_at twice_store 0) (some 0)).1

/-- The first message of the call `abc123` after the record of the scenario was
loaded into the empty store. -/
def sample_first_msg : sip_msg :=
  (first_msg_parse (sample_env 0) (sip_msg_create sample_header sample_payload)
    "abc123".toList 0).1

/-- The attribute list after a sequence of `sip_attr_set` calls, given as the
pairs of id and value in the order of the calls. -/
def sip_attr_set_all (list : sip_attr_list) (sets : List (sip_attr_id × CStr)) : sip_attr_list :=
  sets.foldl (fun l p => sip_attr_set l p.1 p.2) list

/-- An attribute list with five entries, `CSEQ` among them, in the order a
parse of a request leaves them. -/
def sample_attrs : sip_attr_list :=
  [(SIP_ATTR_CSEQ, "1".toList), (SIP_ATTR_METHOD, "INVITE".toList),
   (SIP_ATTR_REQUEST, "1".toList), (SIP_ATTR_DST, "10.0.0.2:5060".toList),
   (SIP_ATTR_SRC, "10.0.0.1:5060".toList)]

/-! ## Lookups in the attribute table -/

/-- The loop of `sip_attr_get_header` over the table. -/
def sip_attr_get_header_from : List sip_attr_hdr → sip_attr_id → Option sip_attr_hdr
  | [], _ => none
  | hdr :: rest, id => if id = hdr.id then some hdr else sip_attr_get_header_from rest id

/-- The function `sip_attr_get_header`; `none` is `NULL`. -/
def sip_attr_get_header (id : sip_attr_id) : Option sip_attr_hdr :=
  sip_attr_get_header_from attrs id

/-- The function `sip_attr_get_description`; `none` is `NULL`. -/
def sip_attr_get_description (id : sip_attr_id) : Option String :=
  match sip_attr_get_header id with
  | some header => some header.desc
  | none => none

/-- The function `sip_attr_get_name`; `none` is `NULL`. -/
def sip_attr_get_name (id : sip_attr_id) : Option String :=
  match sip_attr_get_header id with
  | some header => some header.name
  | none => none

/-- The loop of `sip_attr_from_name` over the table. The function returns an
`enum sip_attr_id` as a number; `value` gives the numbers of the enumerators,
which `sip.h` declares. -/
def sip_attr_from_name_from (value : sip_attr_id → Int) : List sip_attr_hdr → CStr → Int
  | [], _ => 0
  | hdr :: rest, name =>
    if strcasecmp name hdr.name.toList = 0 then value hdr.id
    else sip_attr_from_name_from value rest name

/-- The function `sip_attr_from_name`, for the numbers `value` of the
enumerators. -/
def sip_attr_from_name (value : sip_attr_id → Int) (name : CStr) : Int :=
  sip_attr_from_name_from value attrs name

/-- An enumeration that numbers the ids from 1 in the order of the table. -/
def value_from_one (id : sip_attr_id) : Int :=
  match id with
  | SIP_ATTR_SIPFROM => 1
  | SIP_ATTR_SIPTO => 2
  | SIP_ATTR_SRC => 3
  | SIP_ATTR_DST => 4
  | SIP_ATTR_CALLID => 5
  | SIP_ATTR_XCALLID => 6
  | SIP_ATTR_TIME => 7
  | SIP_ATTR_METHOD => 8
  | SIP_ATTR_REQUEST => 9
  | SIP_ATTR_CSEQ => 10
  | SIP_ATTR_SDP => 11
  | SIP_ATTR_STARTING => 12
  | SIP_ATTR_MSGCNT => 13

/-! ## Related calls -/

/-- The loop of `call_find_by_xcallid` from the call at index `i` on. The
argument may be `NULL` (`none`); the result `none` stands for `NULL` handed to
`strcmp`, `some none` for the return value `NULL`. -/
def call_find_by_xcallid_from : List sip_call → Nat → Option CStr → Option (Option Nat)
  | [], _, _ => some none
  | cur :: next, i, xcallid =>
    match call_get_attribute cur SIP_ATTR_XCALLID with
    | some cur_xcallid =>
      match xcallid with
      | none => none
      | some x =>
        if strcmp cur_xcallid x = 0 then some (some i)
        else call_find_by_xcallid_from next (i + 1) xcallid
    | none => call_find_by_xcallid_from next (i + 1) xcallid

/-- The function `call_find_by_xcallid`. -/
def call_find_by_xcallid (calls : Store) (xcallid : Option CStr) : Option (Option Nat) :=
  call_find_by_xcallid_from calls 0 xcallid

/-- The function `call_get_xcall`: the index of the call returned, `some none`
for `NULL`; `none` when `NULL` is handed to `strcmp`. -/
def call_get_xcall (calls : Store) (call : sip_call) : Option (Option Nat) :=
  match call_get_attribute call SIP_ATTR_XCALLID with
  | some xcallid => some (call_find_by_callid calls xcallid)
  | none => call_find_by_xcallid calls (call_get_attribute call SIP_ATTR_CALLID)

/-- The pointer `r` is the first call of the store, in store order, for which
`call_get_attribute` returns `v` for the attribute `id`; it is `NULL` when the
store has no such call. -/
def first_call_with (id : sip_attr_id) (v : CStr) (calls : Store) (r : Option Nat) : Prop :=
  match r with
  | some j =>
    (∃ c, calls.get? j = some c ∧ call_get_attribute c id = some v)
    ∧ ∀ k c, k < j → calls.get? k = some c → call_get_attribute c id ≠ some v
  | none => ∀ c ∈ calls, call_get_attribute c id ≠ some v

/-- A payload of the call `abc123` that names the call `xyz789` in an
`X-Call-ID:` line. -/
def xcall_payload : CStr :=
  "Call-ID: abc123@hostA\nX-Call-ID: xyz789@hostB\nCSeq: 1 INVITE".toList

/-- The store after the record of the call `abc123` with the `X-Call-ID:` line
and a record of the call `xyz789`. -/
def xcall_store : Store :=
  sip_load_all []
    [(sample_env 0, sample_header, xcall_payload), (sample_env 0, sample_header, second_payload)]

/-- A payload whose `CSeq:` line has no method, after an `X-Call-ID:` line. -/
def cseq_only_payload : CStr := "Call-ID: abc123@hostA\nX-Call-ID: xyz789@hostB\nCSeq: 7".toList

/-- A payload whose `From:` line has no `:` after the name, after an
`X-Call-ID:` line. -/
def from_only_payload : CStr :=
  "Call-ID: abc123@hostA\nX-Call-ID: xyz789@hostB\nFrom: alice".toList

/-- A payload whose status line is only `SIP/2.0`, after an `X-Call-ID:` line. -/
def bare_status_payload : CStr :=
  "Call-ID: abc123@hostA\nX-Call-ID: xyz789@hostB\nSIP/2.0".toList

/-- A field of digits of a header line: not empty, only decimal digits, and a
value that fits an `int`. -/
def digit_field (t : CStr) : Prop :=
  t ≠ [] ∧ (∀ c ∈ t, isdigit c = true) ∧ digits_val t < 2147483648

/-- The header line `U Y/M/D h:mi:s.u src -> dst`. -/
def header_line (Y M D h mi s u src dst : CStr) : CStr :=
  "U ".toList ++ Y ++ '/' :: M ++ '/' :: D ++ ' ' :: h ++ ':' :: mi ++ ':' :: s ++ '.' :: u
    ++ ' ' :: src ++ " -> ".toList ++ dst

/-- The broken-down time `msg_parse_header` hands to `mktime` for the date and
time fields of a header line: years since 1900, months from 0, and the
daylight saving time flag set. -/
def header_tm (Y M D h mi s : CStr) : tm :=
  { tm_year := (digits_val Y : Int) - 1900, tm_mon := (digits_val M : Int) - 1,
    tm_mday := digits_val D, tm_hour := digits_val h, tm_min := digits_val mi,
    tm_sec := digits_val s, tm_isdst := 1 }

/-- An environment like `sample_env` whose clock is that of a time zone on a
day when daylight saving time is not in effect: `mktime` takes fields marked
with `tm_isdst` above 0 as daylight saving time, one hour ahead of the standard
time that `localtime` gives back. -/
def winter_env : Env :=
  { sample_env 0 with
    mktime := fun t =>
      t.tm_hour * 3600 + t.tm_min * 60 + t.tm_sec - (if t.tm_isdst > 0 then 3600 else 0) }

/-- An environment like `sample_env` whose clock is that of a time zone on a
day when daylight saving time is in effect: `localtime` gives daylight saving
time and marks it with `tm_isdst` = 1, and `mktime` takes fields marked with
`tm_isdst` = 0 as standard time, one hour behind the time `localtime` gives
back, and the other fields as they are. -/
def summer_env : Env :=
  { sample_env 0 with
    mktime := fun t =>
      t.tm_hour * 3600 + t.tm_min * 60 + t.tm_sec + (if t.tm_isdst = 0 then 3600 else 0)
    localtime := fun s =>
      { tm_year := 70, tm_mon := 0, tm_mday := 1, tm_hour := s / 3600 % 24,
        tm_min := s / 60 % 60, tm_sec := s % 60, tm_isdst := 1 } }

/-- Two records for the Call-ID `abc123` whose header lines start with `T`. -/
def unmatched_records : List (Env × CStr × CStr) :=
  [(sample_env 0, tcp_header, sample_payload), (sample_env 0, tcp_header, sample_payload)]

/-- A response with two `CSeq:` lines after the status line. -/
def response_two_cseq_payload : CStr :=
  "SIP/2.0 200 OK\nCall-ID: abc123@hostA\nCSeq: 1 INVITE\nCSeq: 2 BYE".toList

/-- A response whose reason phrase has 73 characters, with the `From:` and `To:`
lines. -/
def long_reason_payload : CStr :=
  ("Call-ID: abc123@hostA\n"
    ++ "SIP/2.0 480 Temporarily Unavailable - the callee is not registered with the proxy\n"
    ++ "From: <sip:alice@hostA>\nTo: <sip:bob@hostB>").toList

/-- The same response with a reason phrase of 72 characters. -/
def fitting_reason_payload : CStr :=
  ("Call-ID: abc123@hostA\n"
    ++ "SIP/2.0 480 Temporarily Unavailable - the callee is not registered at this proxy\n"
    ++ "From: <sip:alice@hostA>\nTo: <sip:bob@hostB>").toList

/-- The call that `sip_load_message` creates in the empty store for the
response with the reason phrase of 73 characters. -/
def long_reason_call : sip_call :=
  call_at (sip_load_message (sample_env 0) [] sample_header long_reason_payload).1 0

/-- The call that `sip_load_message` creates in the empty store for the
response with the reason phrase of 72 characters. -/
def fitting_reason_call : sip_call :=
  call_at (sip_load_message (sample_env 0) [] sample_header fitting_reason_payload).1 0

/-- A payload with a `CSeq:` line before the status line and another after it. -/
def request_then_status_payload : CStr :=
  "CSeq: 1 INVITE\nSIP/2.0 200 OK\nCSeq: 2 BYE".toList

/-! # Theorems -/

/-! ## Attribute lists -/

theorem sip_attr_get_replace_same (l r : sip_attr_list) (id : sip_attr_id) (v : CStr)
    (h : sip_attr_replace l id v = some r) : sip_attr_get r id = some v := by
  induction l generalizing r with
  | nil => simp [sip_attr_replace] at h
  | cons a l ih =>
    obtain ⟨i, w⟩ := a
    by_cases hi : id = i
    · simp [sip_attr_replace, hi] at h
      subst h
      simp [sip_attr_get, hi]
    · simp [sip_attr_replace, hi] at h
      obtain ⟨r', hr', rfl⟩ := h
      simp [sip_attr_get, hi, ih r' hr']

theorem sip_attr_get_replace_other (l r : sip_attr_list) (id j : sip_attr_id) (v : CStr)
    (hj : j ≠ id) (h : sip_attr_replace l id v = some r) :
    sip_attr_get r j = sip_attr_get l j := by
  induction l generalizing r with
  | nil => simp [sip_attr_replace] at h
  | cons a l ih =>
    obtain ⟨i, w⟩ := a
    by_cases hi : id = i
    · simp [sip_attr_replace, hi] at h
      subst h
      subst hi
      simp [sip_attr_get, hj]
    · simp [sip_attr_replace, hi] at h
      obtain ⟨r', hr', rfl⟩ := h
      simp [sip_attr_get, ih r' hr']

theorem sip_attr_get_set_same (l : sip_attr_list) (id : sip_attr_id) (v : CStr) :
    sip_attr_get (sip_attr_set l id v) id = some v := by
  unfold sip_attr_set
  cases h : sip_attr_replace l id v with
  | none => simp [sip_attr_get]
  | some r => exact sip_attr_get_replace_same l r id v h

theorem sip_attr_get_set_other (l : sip_attr_list) (id j : sip_attr_id) (v : CStr)
    (hj : j ≠ id) : sip_attr_get (sip_attr_set l id v) j = sip_attr_get l j := by
  unfold sip_attr_set
  cases h : sip_attr_replace l id v with
  | none => simp [sip_attr_get, hj]
  | some r => exact sip_attr_get_replace_other l r id j v hj h

theorem msg_set_attribute_get_same (m : sip_msg) (id : sip_attr_id) (v : CStr) :
    sip_attr_get (msg_set_attribute m id v).attrs id = some v := by
  simp [msg_set_attribute, sip_attr_get_set_same]

theorem msg_set_attribute_get_other (m : sip_msg) (id j : sip_attr_id) (v : CStr) (hj : j ≠ id) :
    sip_attr_get (msg_set_attribute m id v).attrs j = sip_attr_get m.attrs j := by
  simp [msg_set_attribute, sip_attr_get_set_other _ _ _ _ hj]

/-! ## Attributes the parser does not write -/

theorem msg_parse_header_get_other (env : Env) (m : sip_msg) (h : CStr) (j : sip_attr_id)
    (hj : j ∉ parse_written) :
    sip_attr_get (msg_parse_header env m h).1.attrs j = sip_attr_get m.attrs j := by
  simp [parse_written] at hj
  obtain ⟨h1, h2, h3, -⟩ := hj
  unfold msg_parse_header
  simp only []
  split_ifs
  · rw [msg_set_attribute_get_other _ _ _ _ h3, msg_set_attribute_get_other _ _ _ _ h2,
      msg_set_attribute_get_other _ _ _ _ h1]
  · rfl

theorem payload_sdp_get_other (s : PayloadState) (pch : CStr) (j : sip_attr_id)
    (hj : j ≠ SIP_ATTR_SDP) :
    sip_attr_get (payload_sdp s pch).msg.attrs j = sip_attr_get s.msg.attrs j := by
  unfold payload_sdp
  split_ifs
  · exact msg_set_attribute_get_other _ _ _ _ hj
  · rfl

theorem payload_to_get_other (s : PayloadState) (pch : CStr) (j : sip_attr_id)
    (h1 : j ≠ SIP_ATTR_SDP) (h2 : j ≠ SIP_ATTR_SIPTO) :
    sip_attr_get (payload_to s pch).msg.attrs j = sip_attr_get s.msg.attrs j := by
  unfold payload_to
  simp only []
  split_ifs
  · exact msg_set_attribute_get_other _ _ _ _ h2
  · rw [payload_sdp_get_other _ _ _ h1]

theorem payload_from_get_other (s : PayloadState) (pch : CStr) (j : sip_attr_id)
    (h1 : j ≠ SIP_ATTR_SDP) (h2 : j ≠ SIP_ATTR_SIPTO) (h3 : j ≠ SIP_ATTR_SIPFROM) :
    sip_attr_get (payload_from s pch).msg.attrs j = sip_attr_get s.msg.attrs j := by
  unfold payload_from
  simp only []
  split_ifs
  · exact msg_set_attribute_get_other _ _ _ _ h3
  · rw [payload_to_get_other _ _ _ h1 h2]

theorem payload_step_get_other (s : PayloadState) (pch : CStr) (j : sip_attr_id)
    (hj : j ∉ parse_written) :
    sip_attr_get (payload_step s pch).msg.attrs j = sip_attr_get s.msg.attrs j := by
  simp [parse_written] at hj
  obtain ⟨-, -, -, h4, h5, h6, h7, h8, h9, h10⟩ := hj
  unfold payload_step
  simp only []
  split_ifs
  · rfl
  · unfold payload_xcallid
    simp only []
    split_ifs
    · exact msg_set_attribute_get_other _ _ _ _ h4
    · unfold payload_xcid
      simp only []
      split_ifs
      · exact msg_set_attribute_get_other _ _ _ _ h4
      · unfold payload_status
        simp only []
        split_ifs
        · exact msg_set_attribute_get_other _ _ _ _ h5
        · rfl
        · unfold payload_cseq
          simp only []
          split_ifs
          · rw [msg_set_attribute_get_other _ _ _ _ h7, msg_set_attribute_get_other _ _ _ _ h5,
              msg_set_attribute_get_other _ _ _ _ h6]
          · rw [msg_set_attribute_get_other _ _ _ _ h7, msg_set_attribute_get_other _ _ _ _ h5]
          · rw [msg_set_attribute_get_other _ _ _ _ h7]
          · rw [payload_from_get_other _ _ _ h10 h9 h8]

theorem payload_foldl_get_other (ls : List CStr) (s : PayloadState) (j : sip_attr_id)
    (hj : j ∉ parse_written) :
    sip_attr_get (ls.foldl payload_step s).msg.attrs j = sip_attr_get s.msg.attrs j := by
  induction ls generalizing s with
  | nil => rfl
  | cons l ls ih => rw [List.foldl_cons, ih, payload_step_get_other _ _ _ hj]

theorem msg_parse_get_other (env : Env) (m : sip_msg) (j : sip_attr_id)
    (hj : j ∉ parse_written) :
    sip_attr_get (msg_parse env m).1.attrs j = sip_attr_get m.attrs j := by
  unfold msg_parse
  simp only [msg_parse_payload]
  split_ifs
  · rfl
  · exact msg_parse_header_get_other env m _ j hj
  · simp at *
  · show sip_attr_get (List.foldl payload_step _ _).msg.attrs j = _
    rw [payload_foldl_get_other _ _ _ hj]
    exact msg_parse_header_get_other env m _ j hj

/-! ## The scanner on literal text -/

theorem sscanf_go_lits (cs : List Char) (ds : List Dir) (inp : List Char) (acc : List Val)
    (h : (sscanf_go (cs.map Dir.lit ++ ds) inp 0 acc).1 = 1) : cs <+: inp := by
  induction cs generalizing inp with
  | nil => exact List.nil_prefix
  | cons c cs ih =>
    cases inp with
    | nil => simp [sscanf_go, input_failure] at h
    | cons x rest =>
      simp only [List.map_cons, List.cons_append, sscanf_go] at h
      split_ifs at h with hx
      · subst hx
        exact (List.cons_prefix_cons).2 ⟨rfl, ih rest h⟩
      · simp at h

theorem fix_last_initial (l : CStr) : fix_last l <+: l := by
  unfold fix_last
  split_ifs
  · exact List.dropLast_prefix l
  · exact List.prefix_refl l

theorem sscanf_callid_literal (l : CStr) (h : (sscanf l "Call-ID: %[^@\n]").1 = 1) :
    "Call-ID:".toList <+: l := by
  have hf : fmt "Call-ID: %[^@\n]"
      = "Call-ID:".toList.map Dir.lit ++ [Dir.ws, Dir.set ['@', '\n']] := by decide
  unfold sscanf at h
  rw [hf] at h
  exact sscanf_go_lits _ _ _ _ h

theorem sip_get_callid_go_none (ls : List CStr)
    (h : ∀ l ∈ ls, ¬ ("Call-ID:".toList <+: l)) : sip_get_callid_go ls none = none := by
  induction ls with
  | nil => rfl
  | cons l ls ih =>
    have hl : (sscanf l "Call-ID: %[^@\n]").1 ≠ 1 :=
      fun h1 => h l (List.mem_cons_self _ _) (sscanf_callid_literal l h1)
    have ih1 := ih (fun x hx => h x (List.mem_cons_of_mem _ hx))
    unfold sip_get_callid_go
    simp only [hl, if_false, ih1, ite_self]

theorem sip_get_callid_none (payload : CStr)
    (h : ∀ l ∈ strtok payload, ¬ ("Call-ID:".toList <+: l)) : sip_get_callid payload = none := by
  apply sip_get_callid_go_none
  intro l hl
  simp only [payload_lines, List.mem_map] at hl
  obtain ⟨t, ht, rfl⟩ := hl
  exact fun hp => h t ht (hp.trans (fix_last_initial t))

/-! ## Parsing twice -/

theorem msg_parse_header_failed (env : Env) (m : sip_msg) (h : CStr)
    (hf : (msg_parse_header env m h).2 ≠ 0) : (msg_parse_header env m h).1 = m := by
  unfold msg_parse_header at hf ⊢
  simp only [] at hf ⊢
  split_ifs at hf ⊢
  · simp at hf
  · rfl

theorem msg_parse_payload_ok (env : Env) (m : sip_msg) (p : CStr) :
    (msg_parse_payload env m p).2 = 0 := rfl

theorem msg_parse_parsed (env : Env) (m : sip_msg) (h : (msg_parse env m).2 = true) :
    (msg_parse env m).1.parsed = true := by
  unfold msg_parse at h ⊢
  by_cases h1 : m.parsed = true
  · simp [h1]
  · by_cases h2 : (msg_parse_header env m m.headerptr).2 = 0
    · simp [h1, h2, msg_parse_payload_ok]
    · simp [h1, h2] at h

theorem msg_parse_failed (env : Env) (m : sip_msg) (h : (msg_parse env m).2 = false) :
    (msg_parse env m).1 = m := by
  unfold msg_parse at h ⊢
  by_cases h1 : m.parsed = true
  · simp [h1]
  · by_cases h2 : (msg_parse_header env m m.headerptr).2 = 0
    · simp [h1, h2, msg_parse_payload_ok] at h
    · simpa [h1, h2] using msg_parse_header_failed env m _ h2

theorem msg_parse_of_parsed (env : Env) (m : sip_msg) (h : m.parsed = true) :
    msg_parse env m = (m, true) := by
  unfold msg_parse
  simp [h]

theorem msg_parse_twice (env : Env) (m : sip_msg) :
    msg_parse env (msg_parse env m).1 = msg_parse env m := by
  cases h : (msg_parse env m).2 with
  | true =>
    rw [msg_parse_of_parsed env _ (msg_parse_parsed env m h), ← h]
  | false =>
    rw [msg_parse_failed env m h]

/-- C9: `msg_parse` is idempotent. A second `msg_parse` on the message a first
one was applied to returns what the first one returned and leaves the message
as the first one left it: same attribute list, same payload lines, same
`plines`, same `parsed` flag. The same holds for `msg_parse(msg_parse(m))`,
where the inner result may be `NULL`. -/
theorem msg_parse_idempotent (env : Env) (m : sip_msg) :
    (msg_parse env (msg_parse env m).1).2 = (msg_parse env m).2
    ∧ (msg_parse env (msg_parse env m).1).1 = (msg_parse env m).1
    ∧ (msg_parse env (msg_parse env m).1).1.attrs = (msg_parse env m).1.attrs
    ∧ (msg_parse env (msg_parse env m).1).1.payload = (msg_parse env m).1.payload
    ∧ (msg_parse env (msg_parse env m).1).1.plines = (msg_parse env m).1.plines
    ∧ (msg_parse env (msg_parse env m).1).1.parsed = (msg_parse env m).1.parsed
    ∧ msg_parse_ptr env (msg_parse_ptr env (some m)) = msg_parse_ptr env (some m) := by
  refine ⟨?_, ?_, ?_, ?_, ?_, ?_, ?_⟩
  · rw [msg_parse_twice]
  · rw [msg_parse_twice]
  · rw [msg_parse_twice]
  · rw [msg_parse_twice]
  · rw [msg_parse_twice]
  · rw [msg_parse_twice]
  · cases h : (msg_parse env m).2 with
    | true => simp [msg_parse_ptr, h, msg_parse_twice]
    | false => simp [msg_parse_ptr, h]

/-! ## Records that are not loaded -/

/-- C5: with capture disabled, or with a payload none of whose lines starts
with `Call-ID:`, `sip_load_message` returns `NULL` and the store is the one it
was given. -/
theorem sip_load_message_skips (env : Env) (calls : Store) (header payload : CStr)
    (h : env.is_option_enabled "sip.capture" = false
      ∨ ∀ l ∈ strtok payload, ¬ ("Call-ID:".toList <+: l)) :
    sip_load_message env calls header payload = (calls, none) := by
  unfold sip_load_message
  rcases h with h | h
  · simp [h]
  · rw [sip_get_callid_none payload h]
    simp

/-- Witness of C5: a payload without a `Call-ID:` line, offered to a store
that holds one call. -/
theorem sip_load_message_skips_witness :
    sip_load_message (sample_env 0) one_call_store sample_header no_callid_payload
      = (one_call_store, none) :=
  sip_load_message_skips (sample_env 0) one_call_store sample_header no_callid_payload
    (Or.inr (by decide))

/-! ## The call store -/

theorem strcmp_eq_zero (a b : CStr) : strcmp a b = 0 ↔ a = b := by
  unfold strcmp
  split_ifs with h <;> simp [h]

theorem call_find_from_some (calls : Store) (k i : Nat) (callid : CStr)
    (h : call_find_by_callid_from calls k callid = some i) :
    k ≤ i ∧ ∃ c, calls.get? (i - k) = some c
      ∧ call_get_attribute c SIP_ATTR_CALLID = some callid := by
  induction calls generalizing k with
  | nil => simp [call_find_by_callid_from] at h
  | cons cur next ih =>
    unfold call_find_by_callid_from at h
    cases hc : call_get_attribute cur SIP_ATTR_CALLID with
    | none =>
      rw [hc] at h
      obtain ⟨hk, c, hget, hid⟩ := ih (k + 1) h
      refine ⟨by omega, c, ?_, hid⟩
      have : i - k = (i - (k + 1)) + 1 := by omega
      rw [this]
      simpa using hget
    | some v =>
      rw [hc] at h
      simp only [strcmp_eq_zero] at h
      split_ifs at h with hv
      · simp only [Option.some.injEq] at h
        subst h
        subst hv
        exact ⟨le_refl _, cur, by simp, hc⟩
      · obtain ⟨hk, c, hget, hid⟩ := ih (k + 1) h
        refine ⟨by omega, c, ?_, hid⟩
        have : i - k = (i - (k + 1)) + 1 := by omega
        rw [this]
        simpa using hget

theorem call_find_from_none (calls : Store) (k : Nat) (callid : CStr)
    (h : call_find_by_callid_from calls k callid = none) :
    ∀ c ∈ calls, call_get_attribute c SIP_ATTR_CALLID ≠ some callid := by
  induction calls generalizing k with
  | nil => simp
  | cons cur next ih =>
    unfold call_find_by_callid_from at h
    intro c hc
    cases hcur : call_get_attribute cur SIP_ATTR_CALLID with
    | none =>
      rw [hcur] at h
      rcases List.mem_cons.1 hc with rfl | hmem
      · simp [hcur]
      · exact ih (k + 1) h c hmem
    | some v =>
      rw [hcur] at h
      simp only [strcmp_eq_zero] at h
      split_ifs at h with hv
      rcases List.mem_cons.1 hc with rfl | hmem
      · simpa [hcur] using hv
      · exact ih (k + 1) h c hmem

theorem call_find_some (calls : Store) (i : Nat) (callid : CStr)
    (h : call_find_by_callid calls callid = some i) :
    ∃ c, calls.get? i = some c ∧ call_get_attribute c SIP_ATTR_CALLID = some callid := by
  obtain ⟨-, c, hget, hid⟩ := call_find_from_some calls 0 i callid h
  exact ⟨c, by simpa using hget, hid⟩

theorem call_get_attribute_callid (c : sip_call) :
    call_get_attribute c SIP_ATTR_CALLID = msg_get_attribute c.msgs.head? SIP_ATTR_CALLID := by
  simp [call_get_attribute]

theorem callid_not_written : SIP_ATTR_CALLID ∉ parse_written := by decide

theorem call_add_message_msg_attr (env : Env) (call : sip_call) (cidx : Nat) (msg : sip_msg)
    (j : sip_attr_id) (hj : j ∉ parse_written) :
    sip_attr_get (call_add_message env call cidx msg).2.attrs j = sip_attr_get msg.attrs j := by
  unfold call_add_message
  cases call.msgs with
  | nil => simp only []; rw [msg_parse_get_other _ _ _ hj]
  | cons m ms => rfl

theorem call_add_message_nonempty (env : Env) (call : sip_call) (cidx : Nat) (msg : sip_msg)
    (h : call.msgs ≠ []) :
    (call_add_message env call cidx msg).1.msgs = call.msgs ++ [{ msg with call := some cidx }] := by
  unfold call_add_message
  cases hm : call.msgs with
  | nil => exact absurd hm h
  | cons m ms => rfl

theorem call_add_message_empty (env : Env) (call : sip_call) (cidx : Nat) (msg : sip_msg)
    (h : call.msgs = []) :
    (call_add_message env call cidx msg).1.msgs
        = (if (msg_parse env { msg with call := some cidx }).2
            then [(msg_parse env { msg with call := some cidx }).1] else [])
      ∧ (call_add_message env call cidx msg).2 = (msg_parse env { msg with call := some cidx }).1 := by
  unfold call_add_message
  rw [h]
  exact ⟨rfl, rfl⟩

theorem sip_load_attach_some (env : Env) (calls : Store) (cidx : Nat) (msg : sip_msg)
    (callid : CStr) (call : sip_call) (h : calls.get? cidx = some call) :
    sip_load_attach env calls cidx msg callid
      = (calls.set cidx
          (call_add_message env call cidx (msg_set_attribute msg SIP_ATTR_CALLID callid)).1,
         some (call_add_message env call cidx (msg_set_attribute msg SIP_ATTR_CALLID callid)).2) := by
  unfold sip_load_attach
  rw [h]

theorem sip_load_attach_callid (env : Env) (calls calls1 : Store) (cidx : Nat) (msg m : sip_msg)
    (callid : CStr) (h : sip_load_attach env calls cidx msg callid = (calls1, some m)) :
    sip_attr_get m.attrs SIP_ATTR_CALLID = some callid := by
  unfold sip_load_attach at h
  cases hc : calls.get? cidx with
  | none => rw [hc] at h; simp at h
  | some call =>
    rw [hc] at h
    simp only [Prod.mk.injEq, Option.some.injEq] at h
    rw [← h.2, call_add_message_msg_attr _ _ _ _ _ callid_not_written,
      msg_set_attribute_get_same]

theorem sip_load_message_found (env : Env) (calls : Store) (header payload callid : CStr)
    (cidx : Nat) (hcap : env.is_option_enabled "sip.capture" = true)
    (hid : sip_get_callid payload = some callid)
    (hf : call_find_by_callid calls callid = some cidx) :
    sip_load_message env calls header payload
      = sip_load_attach env calls cidx (sip_msg_create header payload) callid := by
  simp [sip_load_message, hcap, hid, hf]

theorem sip_load_message_rejected (env : Env) (calls : Store) (header payload callid : CStr)
    (hcap : env.is_option_enabled "sip.capture" = true)
    (hid : sip_get_callid payload = some callid)
    (hf : call_find_by_callid calls callid = none)
    (hinc : env.get_option_int_value "sip.ignoreincomplete" ≠ 0)
    (hrej : method_rejected (msg_get_attribute
      (msg_parse_ptr env (some (sip_msg_create header payload))) SIP_ATTR_METHOD) = true) :
    sip_load_message env calls header payload = (calls, none) := by
  simp only [msg_parse_ptr] at hrej
  simp [sip_load_message, hcap, hid, hf, hinc, hrej]

theorem sip_load_message_forced (env : Env) (calls : Store) (header payload callid : CStr)
    (hcap : env.is_option_enabled "sip.capture" = true)
    (hid : sip_get_callid payload = some callid)
    (hf : call_find_by_callid calls callid = none)
    (hinc : env.get_option_int_value "sip.ignoreincomplete" ≠ 0)
    (hrej : method_rejected (msg_get_attribute
      (msg_parse_ptr env (some (sip_msg_create header payload))) SIP_ATTR_METHOD) = false) :
    sip_load_message env calls header payload
      = sip_load_attach env (calls ++ [{ attrs := [], msgs := [] }]) calls.length
          (msg_parse env (sip_msg_create header payload)).1 callid := by
  simp only [msg_parse_ptr] at hrej
  simp [sip_load_message, hcap, hid, hf, hinc, hrej, sip_call_create]

theorem sip_load_message_new (env : Env) (calls : Store) (header payload callid : CStr)
    (hcap : env.is_option_enabled "sip.capture" = true)
    (hid : sip_get_callid payload = some callid)
    (hf : call_find_by_callid calls callid = none)
    (hinc : env.get_option_int_value "sip.ignoreincomplete" = 0) :
    sip_load_message env calls header payload
      = sip_load_attach env (calls ++ [{ attrs := [], msgs := [] }]) calls.length
          (sip_msg_create header payload) callid := by
  simp [sip_load_message, hcap, hid, hf, hinc, sip_call_create]

theorem sip_load_message_off (env : Env) (calls : Store) (header payload : CStr)
    (hcap : env.is_option_enabled "sip.capture" = false) :
    sip_load_message env calls header payload = (calls, none) := by
  simp [sip_load_message, hcap]

theorem sip_load_message_noid (env : Env) (calls : Store) (header payload : CStr)
    (hid : sip_get_callid payload = none) :
    sip_load_message env calls header payload = (calls, none) := by
  simp [sip_load_message, hid]

/-- C2: when `sip_load_message` returns a message, the `CALLID` attribute of
that message is the value `sip_get_callid` extracts from the payload. -/
theorem sip_load_message_callid (env : Env) (calls calls1 : Store) (header payload : CStr)
    (m : sip_msg) (h : sip_load_message env calls header payload = (calls1, some m)) :
    msg_get_attribute (some m) SIP_ATTR_CALLID = sip_get_callid payload := by
  cases hcap : env.is_option_enabled "sip.capture" with
  | false => rw [sip_load_message_off _ _ _ _ hcap] at h; simp at h
  | true =>
    cases hid : sip_get_callid payload with
    | none => rw [sip_load_message_noid _ _ _ _ hid] at h; simp at h
    | some callid =>
      simp only [msg_get_attribute]
      cases hf : call_find_by_callid calls callid with
      | some cidx =>
        rw [sip_load_message_found _ _ _ _ _ _ hcap hid hf] at h
        exact sip_load_attach_callid _ _ _ _ _ _ _ h
      | none =>
        by_cases hinc : env.get_option_int_value "sip.ignoreincomplete" = 0
        · rw [sip_load_message_new _ _ _ _ _ hcap hid hf hinc] at h
          exact sip_load_attach_callid _ _ _ _ _ _ _ h
        · cases hrej : method_rejected (msg_get_attribute
              (msg_parse_ptr env (some (sip_msg_create header payload))) SIP_ATTR_METHOD) with
          | true => rw [sip_load_message_rejected _ _ _ _ _ hcap hid hf hinc hrej] at h; simp at h
          | false =>
            rw [sip_load_message_forced _ _ _ _ _ hcap hid hf hinc hrej] at h
            exact sip_load_attach_callid _ _ _ _ _ _ _ h

/-- Witness of C2: the record of the scenario, loaded into the empty store. -/
theorem sip_load_message_callid_witness :
    msg_get_attribute (sip_load_message (sample_env 0) [] sample_header sample_payload).2
        SIP_ATTR_CALLID = sip_get_callid sample_payload
      ∧ sip_get_callid sample_payload = some "abc123".toList :=
  ⟨by
    cases h : (sip_load_message (sample_env 0) [] sample_header sample_payload).2 with
    | none => exact absurd h (by decide)
    | some m => exact sip_load_message_callid (sample_env 0) [] _ sample_header sample_payload m
                  (Prod.ext rfl h),
   by decide⟩

/-! ## One call per Call-ID -/

theorem map_set_same {α β : Type} (f : α → β) (l : List α) (i : Nat) (a b : α)
    (h : l.get? i = some b) (hf : f a = f b) : (l.set i a).map f = l.map f := by
  induction l generalizing i with
  | nil => simp
  | cons x xs ih =>
    cases i with
    | zero =>
      simp only [List.get?_cons_zero, Option.some.injEq] at h
      subst h
      simp [hf]
    | succ i =>
      simp only [List.get?_cons_succ] at h
      simp [ih i h]

theorem set_append_length {α : Type} (l : List α) (e c : α) :
    (l ++ [e]).set l.length c = l ++ [c] := by
  induction l with
  | nil => rfl
  | cons x xs ih => simp [ih]

theorem get?_append_length {α : Type} (l : List α) (e : α) :
    (l ++ [e]).get? l.length = some e := by
  induction l with
  | nil => rfl
  | cons x xs ih => simp [ih]

theorem callid_present_msgs (c : sip_call) (v : CStr)
    (h : call_get_attribute c SIP_ATTR_CALLID = some v) : c.msgs ≠ [] := by
  intro hm
  simp [call_get_attribute_callid, hm, msg_get_attribute] at h

/-- Adding a message to a call that has a Call-ID leaves that Call-ID as it is. -/
theorem call_add_message_keeps_callid (env : Env) (call : sip_call) (cidx : Nat) (msg : sip_msg)
    (v : CStr) (h : call_get_attribute call SIP_ATTR_CALLID = some v) :
    call_get_attribute (call_add_message env call cidx msg).1 SIP_ATTR_CALLID
      = call_get_attribute call SIP_ATTR_CALLID := by
  have hne := callid_present_msgs call v h
  rw [call_get_attribute_callid, call_get_attribute_callid,
    call_add_message_nonempty env call cidx msg hne]
  cases hm : call.msgs with
  | nil => exact absurd hm hne
  | cons m ms => rfl

/-- The store after `sip_load_attach` on the call just created at the end of
the store. -/
theorem sip_load_attach_new (env : Env) (calls : Store) (msg : sip_msg) (callid : CStr) :
    sip_load_attach env (calls ++ [{ attrs := [], msgs := [] }]) calls.length msg callid
      = (calls ++ [sip_call.mk []
            (if (first_msg_parse env msg callid calls.length).2
              then [(first_msg_parse env msg callid calls.length).1] else [])],
         some (first_msg_parse env msg callid calls.length).1) := by
  rw [sip_load_attach_some env _ _ _ _ _ (get?_append_length calls _), set_append_length]
  rfl

theorem first_msg_parse_callid (env : Env) (msg : sip_msg) (callid : CStr) (cidx : Nat) :
    sip_attr_get (first_msg_parse env msg callid cidx).1.attrs SIP_ATTR_CALLID = some callid := by
  unfold first_msg_parse
  rw [msg_parse_get_other _ _ _ callid_not_written]
  exact msg_set_attribute_get_same msg SIP_ATTR_CALLID callid

theorem sip_load_attach_new_callids (env : Env) (calls : Store) (msg : sip_msg) (callid : CStr) :
    store_callids
        (sip_load_attach env (calls ++ [{ attrs := [], msgs := [] }]) calls.length msg callid).1
      = store_callids calls ++ [some callid]
    ∨ store_callids
        (sip_load_attach env (calls ++ [{ attrs := [], msgs := [] }]) calls.length msg callid).1
      = store_callids calls ++ [none] := by
  rw [sip_load_attach_new]
  simp only [store_callids, List.map_append, List.map_cons, List.map_nil,
    call_get_attribute_callid]
  split_ifs with hok
  · left
    simp only [List.head?_cons, msg_get_attribute, first_msg_parse_callid]
  · right
    rfl

theorem sip_load_attach_found_callids (env : Env) (calls : Store) (cidx : Nat) (msg : sip_msg)
    (callid : CStr) (call : sip_call) (hget : calls.get? cidx = some call)
    (hid : call_get_attribute call SIP_ATTR_CALLID = some callid) :
    store_callids (sip_load_attach env calls cidx msg callid).1 = store_callids calls := by
  rw [sip_load_attach_some env calls cidx msg callid call hget]
  exact map_set_same _ calls cidx _ call hget
    (call_add_message_keeps_callid env call cidx _ callid hid)

/-- The effect of `sip_load_message` on the Call-ID values of the store: none,
or one new value at the end for a Call-ID no call had, or one absent value at
the end. -/
theorem sip_load_message_callids (env : Env) (calls : Store) (header payload : CStr) :
    store_callids (sip_load_message env calls header payload).1 = store_callids calls
    ∨ (∃ callid, call_find_by_callid calls callid = none
        ∧ store_callids (sip_load_message env calls header payload).1
          = store_callids calls ++ [some callid])
    ∨ store_callids (sip_load_message env calls header payload).1
        = store_callids calls ++ [none] := by
  cases hcap : env.is_option_enabled "sip.capture" with
  | false => rw [sip_load_message_off _ _ _ _ hcap]; exact Or.inl rfl
  | true =>
    cases hid : sip_get_callid payload with
    | none => rw [sip_load_message_noid _ _ _ _ hid]; exact Or.inl rfl
    | some callid =>
      cases hf : call_find_by_callid calls callid with
      | some cidx =>
        rw [sip_load_message_found _ _ _ _ _ _ hcap hid hf]
        obtain ⟨c, hget, hc⟩ := call_find_some calls cidx callid hf
        exact Or.inl (sip_load_attach_found_callids env calls cidx _ callid c hget hc)
      | none =>
        by_cases hinc : env.get_option_int_value "sip.ignoreincomplete" = 0
        · rw [sip_load_message_new _ _ _ _ _ hcap hid hf hinc]
          rcases sip_load_attach_new_callids env calls (sip_msg_create header payload) callid
            with h | h
          · exact Or.inr (Or.inl ⟨callid, hf, h⟩)
          · exact Or.inr (Or.inr h)
        · cases hrej : method_rejected (msg_get_attribute
              (msg_parse_ptr env (some (sip_msg_create header payload))) SIP_ATTR_METHOD) with
          | true =>
            rw [sip_load_message_rejected _ _ _ _ _ hcap hid hf hinc hrej]
            exact Or.inl rfl
          | false =>
            rw [sip_load_message_forced _ _ _ _ _ hcap hid hf hinc hrej]
            rcases sip_load_attach_new_callids env calls
              (msg_parse env (sip_msg_create header payload)).1 callid with h | h
            · exact Or.inr (Or.inl ⟨callid, hf, h⟩)
            · exact Or.inr (Or.inr h)

theorem sip_load_message_distinct (env : Env) (calls : Store) (header payload : CStr)
    (h : callids_distinct (store_callids calls)) :
    callids_distinct (store_callids (sip_load_message env calls header payload).1) := by
  rcases sip_load_message_callids env calls header payload with h1 | ⟨callid, hf, h1⟩ | h1
  · rw [h1]; exact h
  · rw [h1]
    unfold callids_distinct
    rw [List.pairwise_append]
    refine ⟨h, List.pairwise_singleton _ _, ?_⟩
    intro a ha b hb v hav hbv
    simp only [List.mem_singleton] at hb
    subst hb
    simp only [Option.some.injEq] at hbv
    subst hbv
    subst hav
    simp only [store_callids, List.mem_map] at ha
    obtain ⟨c, hc, hcv⟩ := ha
    exact call_find_from_none calls 0 callid hf c hc hcv
  · rw [h1]
    unfold callids_distinct
    rw [List.pairwise_append]
    refine ⟨h, List.pairwise_singleton _ _, ?_⟩
    intro a _ b hb v _ hbv
    simp only [List.mem_singleton] at hb
    subst hb
    simp at hbv

theorem sip_load_all_distinct (records : List (Env × CStr × CStr)) (calls : Store)
    (h : callids_distinct (store_callids calls)) :
    callids_distinct (store_callids (sip_load_all calls records)) := by
  induction records generalizing calls with
  | nil => exact h
  | cons r rs ih =>
    obtain ⟨env, header, payload⟩ := r
    exact ih _ (sip_load_message_distinct env calls header payload h)

theorem callids_distinct_get (ids : List (Option CStr)) (h : callids_distinct ids)
    (i j : Nat) (hij : i ≠ j) (v : CStr) (hi : ids.get? i = some (some v)) :
    ids.get? j ≠ some (some v) := by
  intro hj
  unfold callids_distinct at h
  rw [List.pairwise_iff_getElem] at h
  simp only [List.get?_eq_getElem?, List.getElem?_eq_some] at hi hj
  obtain ⟨hi1, hi2⟩ := hi
  obtain ⟨hj1, hj2⟩ := hj
  rcases Nat.lt_or_gt_of_ne hij with hlt | hgt
  · exact h i j hi1 hj1 hlt v hi2 hj2
  · exact h j i hj1 hi1 hgt v hj2 hi2

/-- Call-ID values that are present are not repeated: starting from the empty
store, after every finite sequence of `sip_load_message` calls, each with its
own header, payload and option settings, when `call_get_attribute(call,
CALLID)` returns a value `v` for a call of the store, it does not return `v`
for a call at another position. Calls for which it returns `NULL` are not
covered. -/
theorem sip_load_all_callid_unique (records : List (Env × CStr × CStr)) (i j : Nat)
    (ci cj : sip_call) (v : CStr) (hij : i ≠ j)
    (hi : (sip_load_all [] records).get? i = some ci)
    (hj : (sip_load_all [] records).get? j = some cj)
    (hv : call_get_attribute ci SIP_ATTR_CALLID = some v) :
    call_get_attribute cj SIP_ATTR_CALLID ≠ some v := by
  have h := sip_load_all_distinct records [] List.Pairwise.nil
  intro hcj
  refine callids_distinct_get _ h i j hij v ?_ ?_
  · simp only [store_callids, List.get?_eq_getElem?, List.getElem?_map] at hi ⊢
    rw [hi]
    simp [hv]
  · simp only [store_callids, List.get?_eq_getElem?, List.getElem?_map] at hj ⊢
    rw [hj]
    simp [hcj]

/-- An instance: three records, two of them for the same Call-ID, give two
calls; the first has the Call-ID `abc123`, the second does not. -/
theorem sip_load_all_callid_unique_witness :
    (sip_load_all [] sample_records).length = 2
    ∧ call_get_attribute (call_at (sip_load_all [] sample_records) 0) SIP_ATTR_CALLID
        = some "abc123".toList
    ∧ call_get_attribute (call_at (sip_load_all [] sample_records) 1) SIP_ATTR_CALLID
        ≠ some "abc123".toList :=
  ⟨by decide, by decide,
   sip_load_all_callid_unique sample_records 0 1 (call_at (sip_load_all [] sample_records) 0)
     (call_at (sip_load_all [] sample_records) 1) "abc123".toList (by decide) (by decide)
     (by decide) (by decide)⟩

/-! ## Records with a header line that is not matched -/

/-- C4, at a failing input: a record whose header line starts with `T`, loaded
into the empty store, leaves a call with no message in the store, and
`call_get_attribute(call, CALLID)` is `NULL` for it; so with the option
`sip.ignoreincomplete` off as with it on. -/
theorem sip_load_message_leaves_empty_call :
    (sip_load_message (sample_env 0) [] tcp_header sample_payload).1
      = [{ attrs := [], msgs := [] }]
    ∧ (sip_load_message (sample_env 1) [] tcp_header sample_payload).1
      = [{ attrs := [], msgs := [] }]
    ∧ call_get_attribute
        (call_at (sip_load_message (sample_env 0) [] tcp_header sample_payload).1 0)
        SIP_ATTR_CALLID = none := by
  decide

/-- C7, at a failing input: the store holds the call `abc123` with one
message; a record for the same Call-ID whose header line starts with `T` is
added to that call as its second message, unparsed, and `call_msg_count` of
the call goes from 1 to 2. -/
theorem sip_load_message_attaches_unmatched :
    (msg_parse_header (sample_env 0) (sip_msg_create tcp_header sample_payload) tcp_header).2 = 1
    ∧ call_msg_count (call_at one_call_store 0) = 1
    ∧ call_msg_count
        (call_at (sip_load_message (sample_env 0) one_call_store tcp_header sample_payload).1 0)
        = 2
    ∧ (call_at (sip_load_message (sample_env 0) one_call_store tcp_header sample_payload).1
        0).msgs.get? 1
      = (sip_load_message (sample_env 0) one_call_store tcp_header sample_payload).2
    ∧ ((sip_load_message (sample_env 0) one_call_store tcp_header sample_payload).2.map
        (fun m => (m.headerptr, m.parsed))) = some (tcp_header, false) := by
  decide

theorem sscanf_short_header :
    sscanf short_header "U %d/%d/%d %d:%d:%d.%d %s -> %s"
      = (3, [Val.int 2024, Val.int 1, Val.int 1]) := by
  decide

theorem sscanf_empty_header :
    sscanf [] "U %d/%d/%d %d:%d:%d.%d %s -> %s" = (-1, []) := by
  decide

/-- C8, at two failing inputs: for the header line `U 2024/01/01`, which stops
after the date, and for the empty header line, `msg_parse_header` returns 0 and
sets `TIME`, `SRC` and `DST` (the last two to what the buffers `ipfrom` and
`ipto` held before), and `msg_parse` returns the message and marks it parsed. -/
theorem msg_parse_header_accepts_short (env : Env) (payload : CStr) :
    (msg_parse_header env (sip_msg_create short_header payload) short_header).2 = 0
    ∧ (msg_get_attribute
        (some (msg_parse_header env (sip_msg_create short_header payload) short_header).1)
        SIP_ATTR_TIME).isSome = true
    ∧ msg_get_attribute
        (some (msg_parse_header env (sip_msg_create short_header payload) short_header).1)
        SIP_ATTR_SRC = some env.junk_ipfrom
    ∧ msg_get_attribute
        (some (msg_parse_header env (sip_msg_create short_header payload) short_header).1)
        SIP_ATTR_DST = some env.junk_ipto
    ∧ (msg_parse env (sip_msg_create short_header payload)).2 = true
    ∧ (msg_parse env (sip_msg_create short_header payload)).1.parsed = true
    ∧ (msg_parse_header env (sip_msg_create [] payload) []).2 = 0
    ∧ (msg_parse env (sip_msg_create [] payload)).2 = true := by
  have h1 : (msg_parse_header env (sip_msg_create short_header payload) short_header).2 = 0 := by
    simp [msg_parse_header, sscanf_short_header]
  have h2 : (msg_parse_header env (sip_msg_create [] payload) []).2 = 0 := by
    simp [msg_parse_header, sscanf_empty_header]
  have h3 : (msg_parse env (sip_msg_create short_header payload)).2 = true := by
    unfold msg_parse
    simp [show (sip_msg_create short_header payload).headerptr = short_header from rfl, h1,
      show (sip_msg_create short_header payload).parsed = false from rfl, msg_parse_payload_ok]
  have h4 : (msg_parse env (sip_msg_create [] payload)).2 = true := by
    unfold msg_parse
    simp [show (sip_msg_create [] payload).headerptr = [] from rfl, h2,
      show (sip_msg_create [] payload).parsed = false from rfl, msg_parse_payload_ok]
  refine ⟨h1, ?_, ?_, ?_, h3, msg_parse_parsed _ _ h3, h2, h4⟩
  · simp [msg_parse_header, sscanf_short_header, msg_get_attribute,
      msg_set_attribute_get_other, msg_set_attribute_get_same]
  · simp [msg_parse_header, sscanf_short_header, msg_get_attribute, arg_str,
      msg_set_attribute_get_other, msg_set_attribute_get_same]
  · simp [msg_parse_header, sscanf_short_header, msg_get_attribute, arg_str,
      msg_set_attribute_get_same]

/-! ## The first message of a call under `sip.ignoreincomplete` -/

theorem method_rejected_iff (method : Option CStr) :
    method_rejected method = true
      ↔ ∃ m, method = some m ∧ ∀ n ∈ initiating_methods, strncasecmp m n n.length ≠ 0 := by
  cases method with
  | none => simp [method_rejected]
  | some m =>
    simp only [method_rejected, initiating_methods, Option.some.injEq, exists_eq_left',
      List.mem_cons, List.mem_singleton, forall_eq_or_imp, forall_eq, Bool.and_eq_true,
      decide_eq_true_eq, List.not_mem_nil, IsEmpty.forall_iff, implies_true, and_true,
      and_assoc]
    have e1 : "INVITE".toList.length = 6 := by decide
    have e2 : "REGISTER".toList.length = 8 := by decide
    have e3 : "SUBSCRIBE".toList.length = 9 := by decide
    have e4 : "OPTIONS".toList.length = 7 := by decide
    have e5 : "PUBLISH".toList.length = 7 := by decide
    have e6 : "MESSAGE".toList.length = 7 := by decide
    have e7 : "NOTIFY".toList.length = 6 := by decide
    rw [e1, e2, e3, e4, e5, e6, e7]

/-- C6, a counterexample: with `sip.ignoreincomplete` on and the empty store,
a first message whose method is `INVITEX`, equal to none of the seven names as a
whole string, is loaded and its call is created. -/
theorem sip_load_message_incomplete_counterexample :
    msg_get_attribute (msg_parse_ptr (sample_env 1)
        (some (sip_msg_create sample_header invitex_payload))) SIP_ATTR_METHOD
      = some "INVITEX".toList
    ∧ (∀ n ∈ initiating_methods, strcasecmp "INVITEX".toList n ≠ 0)
    ∧ (sip_load_message (sample_env 1) [] sample_header invitex_payload).2.isSome = true
    ∧ (sip_load_message (sample_env 1) [] sample_header invitex_payload).1.length = 1 := by
  decide

/-- C6, amended: with capture and `sip.ignoreincomplete` on, no call in the
store for the Call-ID of the payload, and a force-parsed message that has a
`METHOD`, `sip_load_message` drops the record (returns `NULL`, store as before)
if and only if none of the seven names INVITE, REGISTER, SUBSCRIBE, OPTIONS,
PUBLISH, MESSAGE, NOTIFY is a prefix of the `METHOD` ignoring case
(`strncasecmp` over the length of the name). Otherwise it returns a message and
the store has one call more, at its end. -/
theorem sip_load_message_incomplete (env : Env) (calls : Store)
    (header payload callid method : CStr)
    (hcap : env.is_option_enabled "sip.capture" = true)
    (hinc : env.get_option_int_value "sip.ignoreincomplete" ≠ 0)
    (hid : sip_get_callid payload = some callid)
    (hf : call_find_by_callid calls callid = none)
    (hmethod : msg_get_attribute (msg_parse_ptr env (some (sip_msg_create header payload)))
      SIP_ATTR_METHOD = some method) :
    (sip_load_message env calls header payload = (calls, none)
      ↔ ∀ n ∈ initiating_methods, strncasecmp method n n.length ≠ 0)
    ∧ (sip_load_message env calls header payload ≠ (calls, none)
      → ∃ c m, sip_load_message env calls header payload = (calls ++ [c], some m)) := by
  cases hrej : method_rejected (msg_get_attribute
      (msg_parse_ptr env (some (sip_msg_create header payload))) SIP_ATTR_METHOD) with
  | true =>
    have h := sip_load_message_rejected env calls header payload callid hcap hid hf hinc hrej
    refine ⟨⟨fun _ => ?_, fun _ => h⟩, fun hne => absurd h hne⟩
    obtain ⟨m, hm, hall⟩ := (method_rejected_iff _).1 hrej
    rw [hmethod] at hm
    rw [Option.some.inj hm]
    exact hall
  | false =>
    have h := sip_load_message_forced env calls header payload callid hcap hid hf hinc hrej
    rw [sip_load_attach_new] at h
    refine ⟨⟨fun he => ?_, fun hm => ?_⟩, fun _ => ⟨_, _, h⟩⟩
    · rw [h] at he
      simp at he
    · rw [(method_rejected_iff _).2 ⟨method, hmethod, hm⟩] at hrej
      simp at hrej

/-- Witness of C6, amended: a first message with `CSeq: 1 BYE` is dropped. -/
theorem sip_load_message_incomplete_witness :
    msg_get_attribute (msg_parse_ptr (sample_env 1)
        (some (sip_msg_create sample_header bye_payload))) SIP_ATTR_METHOD = some "BYE".toList
    ∧ (sip_load_message (sample_env 1) [] sample_header bye_payload = ([], none)
      ↔ ∀ n ∈ initiating_methods, strncasecmp "BYE".toList n n.length ≠ 0)
    ∧ sip_load_message (sample_env 1) [] sample_header bye_payload = ([], none) :=
  ⟨by decide,
   (sip_load_message_incomplete (sample_env 1) [] sample_header bye_payload "abc123".toList
      "BYE".toList (by decide) (by decide) (by decide) (by decide) (by decide)).1,
   by decide⟩

/-! ## Walking the messages of a call -/

theorem get?_append_cons_succ {α : Type} (pre : List α) (x : α) (post : List α) :
    (pre ++ x :: post).get? (pre.length + 1) = post.head? := by
  induction pre with
  | nil => cases post <;> rfl
  | cons p ps ih => simpa using ih

theorem set_append_cons_succ {α : Type} (pre : List α) (x y z : α) (post : List α) :
    (pre ++ x :: y :: post).set (pre.length + 1) z = (pre ++ [x]) ++ z :: post := by
  induction pre with
  | nil => rfl
  | cons p ps ih => simp [ih]

/-- The walk from the message at position `pre.length` on, when every message
after it can be parsed. -/
theorem call_walk_from (env : Env) (attrs : sip_attr_list) (post : List sip_msg) :
    ∀ (fuel : Nat) (pre : List sip_msg) (x : sip_msg),
      (∀ m ∈ post, (msg_parse env m).2 = true) → post.length < fuel →
      call_walk env fuel { attrs := attrs, msgs := pre ++ x :: post } (some pre.length)
        = ({ attrs := attrs, msgs := pre ++ x :: post.map (fun m => (msg_parse env m).1) },
           List.range' (pre.length + 1) post.length) := by
  induction post with
  | nil =>
    intro fuel pre x _ hfuel
    cases fuel with
    | zero => simp at hfuel
    | succ f =>
      have hstep : call_get_next_msg env { attrs := attrs, msgs := pre ++ [x] }
            (some pre.length) = ({ attrs := attrs, msgs := pre ++ [x] }, none) := by
        simp only [call_get_next_msg, get?_append_cons_succ, List.head?_nil]
      unfold call_walk
      rw [hstep]
      rfl
  | cons y ys ih =>
    intro fuel pre x hok hfuel
    cases fuel with
    | zero => simp at hfuel
    | succ f =>
      have hy : (msg_parse env y).2 = true := hok y (List.mem_cons_self _ _)
      have hstep : call_get_next_msg env { attrs := attrs, msgs := pre ++ x :: y :: ys }
            (some pre.length)
          = ({ attrs := attrs, msgs := (pre ++ [x]) ++ (msg_parse env y).1 :: ys },
             some (pre ++ [x]).length) := by
        simp only [call_get_next_msg, get?_append_cons_succ, List.head?_cons, hy, if_true,
          set_append_cons_succ, List.length_append, List.length_singleton]
      have hrec := ih f (pre ++ [x]) (msg_parse env y).1
        (fun m hm => hok m (List.mem_cons_of_mem _ hm))
        (by simp only [List.length_cons] at hfuel; omega)
      unfold call_walk
      rw [hstep]
      simp only []
      rw [hrec]
      simp [List.range'_succ]

/-- The walk from `NULL`, when every message after the first can be parsed. -/
theorem call_walk_none (env : Env) (call : sip_call) (fuel : Nat)
    (hok : ∀ m ∈ call.msgs.tail, (msg_parse env m).2 = true) (hfuel : call.msgs.length < fuel) :
    call_walk env fuel call none
      = ({ call with
            msgs := call.msgs.head?.toList ++ call.msgs.tail.map (fun m => (msg_parse env m).1) },
         List.range call.msgs.length) := by
  obtain ⟨attrs, msgs⟩ := call
  cases fuel with
  | zero => simp at hfuel
  | succ f =>
    cases msgs with
    | nil => simp [call_walk, call_get_next_msg]
    | cons x post =>
      have h := call_walk_from env attrs post f [] x hok
        (by simp only [List.length_cons] at hfuel; omega)
      simp only [List.nil_append, List.length_nil] at h
      unfold call_walk
      simp only [call_get_next_msg, if_false, List.cons_ne_nil]
      rw [h]
      simp only [List.length_cons, List.range_eq_range', List.range'_succ, List.head?_cons,
        Option.toList, List.tail_cons, List.singleton_append, Nat.zero_add]

/-- C10, at a failing input: a call built by three `sip_load_message` calls, the
second with a header line that starts with `T`, holds three messages, and the
walk with `call_get_next_msg` from `NULL` returns the first one only: the
second message, which `call_add_message` put into the call, cannot be parsed,
and `call_get_next_msg` returns `NULL` for it. -/
theorem call_walk_stops_at_unmatched :
    call_msg_count gap_call = 3
    ∧ (call_walk (sample_env 0) 10 gap_call none).2 = [0]
    ∧ (call_walk (sample_env 0) 10 gap_call none).2 ≠ List.range (call_msg_count gap_call) := by
  decide

/-- The walk over a call that holds no message with a header line that is not
matched: for every call whose messages after the first can be parsed
(`msg_parse` does not return `NULL` for them), the walk with
`call_get_next_msg` from `NULL` until `NULL` returns pointers to all messages of
the call, each once, in list order, and the messages are then in their parsed
state; and list order is the order of appending, as `call_add_message` puts a
message after the last one of a call that has messages. -/
theorem call_walk_yields_all (env : Env) (call : sip_call) (fuel : Nat)
    (hok : ∀ m ∈ call.msgs.tail, (msg_parse env m).2 = true) (hfuel : call.msgs.length < fuel) :
    (call_walk env fuel call none).2 = List.range call.msgs.length
    ∧ (call_walk env fuel call none).1.msgs
        = call.msgs.head?.toList ++ call.msgs.tail.map (fun m => (msg_parse env m).1)
    ∧ ∀ (cidx : Nat) (msg : sip_msg), call.msgs ≠ [] →
        (call_add_message env call cidx msg).1.msgs
          = call.msgs ++ [{ msg with call := some cidx }] := by
  rw [call_walk_none env call fuel hok hfuel]
  exact ⟨rfl, rfl, fun cidx msg h => call_add_message_nonempty env call cidx msg h⟩

/-- An instance: the call built by the three sample records holds two
messages, and the walk returns both. -/
theorem call_walk_yields_all_witness :
    call_msg_count (call_at (sip_load_all [] sample_records) 0) = 2
    ∧ (call_walk (sample_env 0) 5 (call_at (sip_load_all [] sample_records) 0) none).2 = [0, 1] :=
  ⟨by decide,
   (call_walk_yields_all (sample_env 0) (call_at (sip_load_all [] sample_records) 0) 5
      (by decide) (by decide)).1⟩

/-! ## The first request of a call -/

theorem sscanf_go_lits_match (cs : List Char) (ds : List Dir) (inp : List Char) (done : Nat)
    (acc : List Val) :
    sscanf_go (cs.map Dir.lit ++ ds) (cs ++ inp) done acc = sscanf_go ds inp done acc := by
  induction cs with
  | nil => rfl
  | cons c cs ih => simp [sscanf_go, ih]

theorem sscanf_go_lit_mismatch (c x : Char) (ds : List Dir) (inp : List Char) (hx : x ≠ c) :
    sscanf_go (Dir.lit c :: ds) (x :: inp) 0 [] = (0, []) := by
  simp [sscanf_go, hx]

theorem fmt_cseq : fmt "CSeq: %s %[^\t\n\r]"
    = "CSeq:".toList.map Dir.lit ++ [Dir.ws, Dir.str, Dir.ws, Dir.set ['\t', '\n', '\r']] := by
  decide

theorem takeWhile_all {α : Type} (p : α → Bool) (l : List α) (h : ∀ a ∈ l, p a = true) :
    l.takeWhile p = l := by
  induction l with
  | nil => rfl
  | cons x xs ih =>
    simp [List.takeWhile_cons, h x (List.mem_cons_self _ _),
      ih (fun a ha => h a (List.mem_cons_of_mem _ ha))]

theorem dropWhile_all {α : Type} (p : α → Bool) (l : List α) (h : ∀ a ∈ l, p a = true) :
    l.dropWhile p = [] := by
  induction l with
  | nil => rfl
  | cons x xs ih =>
    simp [List.dropWhile_cons, h x (List.mem_cons_self _ _),
      ih (fun a ha => h a (List.mem_cons_of_mem _ ha))]

theorem sscanf_cseq_line (n M : CStr) (hn : n ≠ []) (hns : ∀ c ∈ n, isspace c = false)
    (hM : M ≠ []) (hMs : ∀ c ∈ M, c ≠ '\t' ∧ c ≠ '\n' ∧ c ≠ '\r')
    (hM0 : ∀ c, M.head? = some c → isspace c = false) :
    sscanf ("CSeq: ".toList ++ n ++ ' ' :: M) "CSeq: %s %[^\t\n\r]"
      = (2, [Val.str n, Val.str M]) := by
  have hl : "CSeq: ".toList ++ n ++ ' ' :: M = "CSeq:".toList ++ (' ' :: (n ++ ' ' :: M)) := rfl
  unfold sscanf
  rw [fmt_cseq, hl, sscanf_go_lits_match]
  obtain ⟨c, n', rfl⟩ := List.exists_cons_of_ne_nil hn
  obtain ⟨d, M', rfl⟩ := List.exists_cons_of_ne_nil hM
  have hc : isspace c = false := hns c (List.mem_cons_self _ _)
  have hd : isspace d = false := hM0 d rfl
  have hsp : isspace ' ' = true := by decide
  have h1 : List.dropWhile isspace (' ' :: (c :: n' ++ ' ' :: d :: M')) = c :: n' ++ ' ' :: d :: M' := by
    simp [List.dropWhile_cons, hsp, hc]
  have h2 : List.dropWhile isspace (c :: n' ++ ' ' :: d :: M') = c :: (n' ++ ' ' :: d :: M') := by
    simp [List.dropWhile_cons, hc]
  have hnp : ∀ a ∈ c :: n', (fun c => !isspace c) a = true := by
    intro a ha; simp [hns a ha]
  have h3 : List.takeWhile (fun c => !isspace c) (c :: (n' ++ ' ' :: d :: M')) = c :: n' := by
    rw [← List.cons_append, List.takeWhile_append_of_pos hnp]
    simp [List.takeWhile_cons, hsp]
  have h4 : List.dropWhile (fun c => !isspace c) (c :: (n' ++ ' ' :: d :: M')) = ' ' :: d :: M' := by
    rw [← List.cons_append, List.dropWhile_append_of_pos hnp]
    simp [List.dropWhile_cons, hsp]
  have h5 : List.dropWhile isspace (' ' :: d :: M') = d :: M' := by
    simp [List.dropWhile_cons, hsp, hd]
  have hMp : ∀ a ∈ d :: M', (fun c => !(['\t', '\n', '\r'].contains c)) a = true := by
    intro a ha
    obtain ⟨e1, e2, e3⟩ := hMs a ha
    simp [e1, e2, e3]
  have h6 : List.takeWhile (fun c => !(['\t', '\n', '\r'].contains c)) (d :: M') = d :: M' :=
    takeWhile_all _ _ hMp
  have h7 : List.dropWhile (fun c => !(['\t', '\n', '\r'].contains c)) (d :: M') = [] :=
    dropWhile_all _ _ hMp
  simp only [sscanf_go, h1, h2, h3, h4, h5, h6, h7]
  simp

theorem sscanf_head_mismatch (f : String) (c x : Char) (inp : List Char)
    (hf : (fmt f).head? = some (Dir.lit c)) (hx : x ≠ c) : sscanf (x :: inp) f = (0, []) := by
  unfold sscanf
  cases h : fmt f with
  | nil => rw [h] at hf; simp at hf
  | cons d ds =>
    rw [h] at hf
    simp only [List.head?_cons, Option.some.injEq] at hf
    subst hf
    exact sscanf_go_lit_mismatch c x ds inp hx

theorem msg_parse_header_get_rest (env : Env) (m : sip_msg) (h : CStr) (j : sip_attr_id)
    (h1 : j ≠ SIP_ATTR_TIME) (h2 : j ≠ SIP_ATTR_SRC) (h3 : j ≠ SIP_ATTR_DST) :
    sip_attr_get (msg_parse_header env m h).1.attrs j = sip_attr_get m.attrs j := by
  unfold msg_parse_header
  simp only []
  split_ifs
  · rw [msg_set_attribute_get_other _ _ _ _ h3, msg_set_attribute_get_other _ _ _ _ h2,
      msg_set_attribute_get_other _ _ _ _ h1]
  · rfl

theorem msg_parse_header_payloadptr (env : Env) (m : sip_msg) (h : CStr) :
    (msg_parse_header env m h).1.payloadptr = m.payloadptr := by
  unfold msg_parse_header
  simp only []
  split_ifs <;> rfl

theorem cseq_line_eq (n M : CStr) :
    "CSeq: ".toList ++ n ++ ' ' :: M = 'C' :: ("Seq: ".toList ++ n ++ ' ' :: M) := rfl

/-- The loop body on a line `CSeq: <n> <M>` when no method is set yet. -/
theorem payload_step_cseq (s : PayloadState) (n M : CStr) (hn : n ≠ [])
    (hns : ∀ c ∈ n, isspace c = false) (hM : M ≠ [])
    (hMs : ∀ c ∈ M, c ≠ '\t' ∧ c ≠ '\n' ∧ c ≠ '\r')
    (hM0 : ∀ c, M.head? = some c → isspace c = false)
    (hack : strcasecmp M "ACK".toList ≠ 0)
    (hmeth : sip_attr_get s.msg.attrs SIP_ATTR_METHOD = none) :
    sip_attr_get (payload_step s ("CSeq: ".toList ++ n ++ ' ' :: M)).msg.attrs SIP_ATTR_METHOD
        = some M
    ∧ sip_attr_get (payload_step s ("CSeq: ".toList ++ n ++ ' ' :: M)).msg.attrs SIP_ATTR_REQUEST
        = some "1".toList
    ∧ sip_attr_get (payload_step s ("CSeq: ".toList ++ n ++ ' ' :: M)).msg.attrs SIP_ATTR_CSEQ
        = some n := by
  have hscan := sscanf_cseq_line n M hn hns hM hMs hM0
  have hx1 := sscanf_head_mismatch "X-Call-ID: %[^@\t\n\r]" 'X' 'C'
    ("Seq: ".toList ++ n ++ ' ' :: M) (by decide) (by decide)
  have hx2 := sscanf_head_mismatch "X-CID: %[^@\t\n\r]" 'X' 'C'
    ("Seq: ".toList ++ n ++ ' ' :: M) (by decide) (by decide)
  have hx3 := sscanf_head_mismatch "SIP/2.0 %[^\t\n\r]" 'S' 'C'
    ("Seq: ".toList ++ n ++ ' ' :: M) (by decide) (by decide)
  rw [← cseq_line_eq] at hx1 hx2 hx3
  have hlen : ("CSeq: ".toList ++ n ++ ' ' :: M).length ≠ 0 := by
    rw [cseq_line_eq]; simp
  unfold payload_step
  simp only [hlen, if_false]
  unfold payload_xcallid
  simp only [hx1, arg_str]
  unfold payload_xcid
  simp only [hx2, arg_str]
  unfold payload_status
  simp only [hx3, arg_str]
  unfold payload_cseq
  simp only [hscan, arg_str]
  have hack1 : ¬ strcasecmp M ['A', 'C', 'K'] = 0 := hack
  simp [msg_get_attribute, hmeth, hack1, msg_set_attribute_get_same, msg_set_attribute_get_other]

/-- The loop body writes none of `METHOD`, `REQUEST`, `CSEQ` for a line that
the `CSeq:` test does not take and that the status line test does not take
either, unless a method is set already. -/
theorem payload_step_keeps (s : PayloadState) (pch : CStr) (j : sip_attr_id)
    (hj : cseq_written j)
    (hc : pch = [] ∨ (sscanf pch "CSeq: %s %[^\t\n\r]").1 = 0)
    (hs : (sip_attr_get s.msg.attrs SIP_ATTR_METHOD).isSome = true ∨ pch = []
      ∨ (sscanf pch "SIP/2.0 %[^\t\n\r]").1 = 0) :
    sip_attr_get (payload_step s pch).msg.attrs j = sip_attr_get s.msg.attrs j := by
  have j1 : j ≠ SIP_ATTR_XCALLID := by rcases hj with h | h | h <;> simp [h]
  have j2 : j ≠ SIP_ATTR_SIPFROM := by rcases hj with h | h | h <;> simp [h]
  have j3 : j ≠ SIP_ATTR_SIPTO := by rcases hj with h | h | h <;> simp [h]
  have j4 : j ≠ SIP_ATTR_SDP := by rcases hj with h | h | h <;> simp [h]
  unfold payload_step
  simp only []
  by_cases hlen : pch.length = 0
  · simp only [hlen, if_true]
  · have hne : pch ≠ [] := fun h => hlen (by simp [h])
    have hc1 : (sscanf pch "CSeq: %s %[^\t\n\r]").1 = 0 := hc.resolve_left hne
    simp only [hlen, if_false]
    unfold payload_xcallid
    simp only []
    split_ifs
    · exact msg_set_attribute_get_other _ _ _ _ j1
    · unfold payload_xcid
      simp only []
      split_ifs
      · exact msg_set_attribute_get_other _ _ _ _ j1
      · unfold payload_status
        simp only []
        by_cases hst : (sscanf pch "SIP/2.0 %[^\t\n\r]").1 = 0
        · simp only [hst, ne_eq, not_true_eq_false, if_false]
          unfold payload_cseq
          simp only [hc1, ne_eq, not_true_eq_false, if_false]
          rw [payload_from_get_other _ _ _ j4 j3 j2]
        · have hsome : (sip_attr_get s.msg.attrs SIP_ATTR_METHOD).isSome = true := by
            rcases hs with h | h | h
            · exact h
            · exact absurd h hne
            · exact absurd h hst
          have hnone : ¬ (msg_get_attribute (some
              ({ s.msg with payload := s.msg.payload ++ [pch] } : sip_msg))
              SIP_ATTR_METHOD).isNone = true := by
            simp only [msg_get_attribute]
            cases hg : sip_attr_get s.msg.attrs SIP_ATTR_METHOD with
            | none => rw [hg] at hsome; simp at hsome
            | some v => simp
          simp only [hst, ne_eq, not_false_eq_true, if_true, hnone, if_false]
          simp

theorem payload_foldl_pre (ls : List CStr) (s : PayloadState)
    (hmeth : sip_attr_get s.msg.attrs SIP_ATTR_METHOD = none)
    (hls : ∀ l ∈ ls, l = [] ∨ ((sscanf l "SIP/2.0 %[^\t\n\r]").1 = 0
      ∧ (sscanf l "CSeq: %s %[^\t\n\r]").1 = 0)) :
    sip_attr_get (ls.foldl payload_step s).msg.attrs SIP_ATTR_METHOD = none := by
  induction ls generalizing s with
  | nil => exact hmeth
  | cons l ls ih =>
    rw [List.foldl_cons]
    apply ih
    · rw [payload_step_keeps s l SIP_ATTR_METHOD (Or.inl rfl)]
      · exact hmeth
      · rcases hls l (List.mem_cons_self _ _) with h | h
        · exact Or.inl h
        · exact Or.inr h.2
      · rcases hls l (List.mem_cons_self _ _) with h | h
        · exact Or.inr (Or.inl h)
        · exact Or.inr (Or.inr h.1)
    · exact fun x hx => hls x (List.mem_cons_of_mem _ hx)

theorem payload_foldl_post (ls : List CStr) (s : PayloadState)
    (hmeth : (sip_attr_get s.msg.attrs SIP_ATTR_METHOD).isSome = true)
    (hls : ∀ l ∈ ls, l = [] ∨ (sscanf l "CSeq: %s %[^\t\n\r]").1 = 0)
    (j : sip_attr_id) (hj : cseq_written j) :
    sip_attr_get (ls.foldl payload_step s).msg.attrs j = sip_attr_get s.msg.attrs j := by
  induction ls generalizing s with
  | nil => rfl
  | cons l ls ih =>
    rw [List.foldl_cons]
    have hl := hls l (List.mem_cons_self _ _)
    rw [ih (payload_step s l) ?_ (fun x hx => hls x (List.mem_cons_of_mem _ hx))]
    · exact payload_step_keeps s l j hj hl (Or.inl hmeth)
    · rw [payload_step_keeps s l SIP_ATTR_METHOD (Or.inl rfl) hl (Or.inl hmeth)]
      exact hmeth

/-- The payload loop on lines `pre`, then `CSeq: <n> <M>`, then `post`. -/
theorem payload_foldl_cseq (pre post : List CStr) (s : PayloadState) (n M : CStr)
    (hn : n ≠ []) (hns : ∀ c ∈ n, isspace c = false) (hM : M ≠ [])
    (hMs : ∀ c ∈ M, c ≠ '\t' ∧ c ≠ '\n' ∧ c ≠ '\r')
    (hM0 : ∀ c, M.head? = some c → isspace c = false)
    (hack : strcasecmp M "ACK".toList ≠ 0)
    (hmeth : sip_attr_get s.msg.attrs SIP_ATTR_METHOD = none)
    (hpre : ∀ l ∈ pre, l = [] ∨ ((sscanf l "SIP/2.0 %[^\t\n\r]").1 = 0
      ∧ (sscanf l "CSeq: %s %[^\t\n\r]").1 = 0))
    (hpost : ∀ l ∈ post, l = [] ∨ (sscanf l "CSeq: %s %[^\t\n\r]").1 = 0) :
    sip_attr_get ((pre ++ ("CSeq: ".toList ++ n ++ ' ' :: M) :: post).foldl payload_step
        s).msg.attrs SIP_ATTR_METHOD = some M
    ∧ sip_attr_get ((pre ++ ("CSeq: ".toList ++ n ++ ' ' :: M) :: post).foldl payload_step
        s).msg.attrs SIP_ATTR_REQUEST = some "1".toList
    ∧ sip_attr_get ((pre ++ ("CSeq: ".toList ++ n ++ ' ' :: M) :: post).foldl payload_step
        s).msg.attrs SIP_ATTR_CSEQ = some n := by
  rw [List.foldl_append, List.foldl_cons]
  obtain ⟨h1, h2, h3⟩ := payload_step_cseq (pre.foldl payload_step s) n M hn hns hM hMs hM0 hack
    (payload_foldl_pre pre s hmeth hpre)
  have hsome : (sip_attr_get (payload_step (pre.foldl payload_step s)
      ("CSeq: ".toList ++ n ++ ' ' :: M)).msg.attrs SIP_ATTR_METHOD).isSome = true := by
    rw [h1]; rfl
  rw [payload_foldl_post post _ hsome hpost _ (Or.inl rfl),
    payload_foldl_post post _ hsome hpost _ (Or.inr (Or.inl rfl)),
    payload_foldl_post post _ hsome hpost _ (Or.inr (Or.inr rfl))]
  exact ⟨h1, h2, h3⟩

/-- The parse of an unparsed message with a header line of nine fields and a
payload with the lines `pre`, `CSeq: <n> <M>`, `post`. -/
theorem msg_parse_cseq (env : Env) (m : sip_msg) (pre post : List CStr) (n M : CStr)
    (hp : m.parsed = false)
    (hh : (sscanf m.headerptr "U %d/%d/%d %d:%d:%d.%d %s -> %s").1 = 9)
    (hlines : payload_lines m.payloadptr = pre ++ ("CSeq: ".toList ++ n ++ ' ' :: M) :: post)
    (hn : n ≠ []) (hns : ∀ c ∈ n, isspace c = false) (hM : M ≠ [])
    (hMs : ∀ c ∈ M, c ≠ '\t' ∧ c ≠ '\n' ∧ c ≠ '\r')
    (hM0 : ∀ c, M.head? = some c → isspace c = false)
    (hack : strcasecmp M "ACK".toList ≠ 0)
    (hmeth : sip_attr_get m.attrs SIP_ATTR_METHOD = none)
    (hpre : ∀ l ∈ pre, l = [] ∨ ((sscanf l "SIP/2.0 %[^\t\n\r]").1 = 0
      ∧ (sscanf l "CSeq: %s %[^\t\n\r]").1 = 0))
    (hpost : ∀ l ∈ post, l = [] ∨ (sscanf l "CSeq: %s %[^\t\n\r]").1 = 0) :
    (msg_parse env m).2 = true
    ∧ sip_attr_get (msg_parse env m).1.attrs SIP_ATTR_METHOD = some M
    ∧ sip_attr_get (msg_parse env m).1.attrs SIP_ATTR_REQUEST = some "1".toList
    ∧ sip_attr_get (msg_parse env m).1.attrs SIP_ATTR_CSEQ = some n := by
  have hhdr : (msg_parse_header env m m.headerptr).2 = 0 := by
    unfold msg_parse_header
    simp [hh]
  have hm0 : sip_attr_get (msg_parse_header env m m.headerptr).1.attrs SIP_ATTR_METHOD = none := by
    rw [msg_parse_header_get_rest _ _ _ _ (by decide) (by decide) (by decide)]
    exact hmeth
  have hfold := payload_foldl_cseq pre post
    { msg := (msg_parse_header env m m.headerptr).1, value := env.junk_value,
      rest := env.junk_rest } n M hn hns hM hMs hM0 hack hm0 hpre hpost
  rw [← hlines, ← msg_parse_header_payloadptr env m m.headerptr] at hfold
  unfold msg_parse
  simp only [hp, hhdr, msg_parse_payload_ok, Bool.false_eq_true, if_false, ne_eq,
    not_true_eq_false]
  exact ⟨trivial, hfold⟩

theorem sip_get_callid_go_append (a b : List CStr) (acc : Option CStr) :
    sip_get_callid_go (a ++ b) acc = sip_get_callid_go b (sip_get_callid_go a acc) := by
  induction a generalizing acc with
  | nil => rfl
  | cons l ls ih =>
    simp only [List.cons_append, sip_get_callid_go]
    split_ifs <;> exact ih _

theorem sip_get_callid_go_keep (ls : List CStr) (acc : Option CStr)
    (h : ∀ l ∈ ls, ¬ ("Call-ID:".toList <+: l)) : sip_get_callid_go ls acc = acc := by
  induction ls with
  | nil => rfl
  | cons l ls ih =>
    have hl : (sscanf l "Call-ID: %[^@\n]").1 ≠ 1 :=
      fun h1 => h l (List.mem_cons_self _ _) (sscanf_callid_literal l h1)
    have ih1 := ih (fun x hx => h x (List.mem_cons_of_mem _ hx))
    unfold sip_get_callid_go
    simp only [hl, if_false, ih1, ite_self]

theorem fmt_callid : fmt "Call-ID: %[^@\n]"
    = "Call-ID:".toList.map Dir.lit ++ [Dir.ws, Dir.set ['@', '\n']] := by
  decide

theorem sscanf_callid_line (id host : CStr) (hid : id ≠ [])
    (hids : ∀ c ∈ id, c ≠ '@' ∧ c ≠ '\n') (hid0 : ∀ c, id.head? = some c → isspace c = false) :
    sscanf ("Call-ID: ".toList ++ id ++ '@' :: host) "Call-ID: %[^@\n]" = (1, [Val.str id]) := by
  have hl : "Call-ID: ".toList ++ id ++ '@' :: host
      = "Call-ID:".toList ++ (' ' :: (id ++ '@' :: host)) := rfl
  unfold sscanf
  rw [fmt_callid, hl, sscanf_go_lits_match]
  obtain ⟨c, id', rfl⟩ := List.exists_cons_of_ne_nil hid
  have hc : isspace c = false := hid0 c rfl
  have hsp : isspace ' ' = true := by decide
  have h1 : List.dropWhile isspace (' ' :: (c :: id' ++ '@' :: host))
      = c :: (id' ++ '@' :: host) := by
    simp [List.dropWhile_cons, hsp, hc]
  have hp : ∀ a ∈ c :: id', (fun c => !(['@', '\n'].contains c)) a = true := by
    intro a ha
    obtain ⟨e1, e2⟩ := hids a ha
    simp [e1, e2]
  have h2 : List.takeWhile (fun c => !(['@', '\n'].contains c)) (c :: (id' ++ '@' :: host))
      = c :: id' := by
    rw [← List.cons_append, List.takeWhile_append_of_pos hp]
    simp [List.takeWhile_cons]
  simp only [sscanf_go, h1, h2]
  simp

theorem strncasecmp_callid_line (rest : CStr) :
    strncasecmp ("Call-ID: ".toList ++ rest) "Call-ID".toList 7 = 0 := by
  rfl

/-- The Call-ID of a payload whose last `Call-ID:` line is `Call-ID: <id>@<host>`. -/
theorem sip_get_callid_line (payload : CStr) (a b : List CStr) (id host : CStr)
    (hlines : payload_lines payload = a ++ ("Call-ID: ".toList ++ id ++ '@' :: host) :: b)
    (hid : id ≠ []) (hids : ∀ c ∈ id, c ≠ '@' ∧ c ≠ '\n')
    (hid0 : ∀ c, id.head? = some c → isspace c = false)
    (hb : ∀ l ∈ b, ¬ ("Call-ID:".toList <+: l)) :
    sip_get_callid payload = some id := by
  unfold sip_get_callid
  rw [hlines, sip_get_callid_go_append]
  unfold sip_get_callid_go
  simp only [strncasecmp_callid_line, if_true, sscanf_callid_line id host hid hids hid0, arg_str]
  exact sip_get_callid_go_keep b _ hb

theorem method_rejected_initiating (M : CStr) (h : M ∈ initiating_methods) :
    method_rejected (some M) = false := by
  simp only [initiating_methods, List.mem_cons, List.mem_singleton, List.not_mem_nil,
    or_false] at h
  rcases h with rfl | rfl | rfl | rfl | rfl | rfl | rfl <;> decide

/-- C1, two counterexamples. A payload with the lines `Call-ID: abc123@hostA`,
`CSeq: 1 INVITE`, `CSeq: 2 BYE`, loaded with the header line of the scenario
into the empty store, gives a message with `METHOD` INVITE and `REQUEST` 1 whose
`CSEQ` is 2, not 1: a later `CSeq:` line writes `CSEQ` again. A payload with the
lines `Call-ID: abc123@hostA`, `CSeq: 1 INVITE`, `Call-ID: xyz789@hostB`, loaded
into a store whose only call is `xyz789`, creates no call: the last `Call-ID:`
line counts, and the message is added to the call `xyz789`. -/
theorem sip_load_message_first_request_counterexample :
    payload_lines two_cseq_payload
      = ["Call-ID: abc123@hostA".toList, "CSeq: 1 INVITE".toList, "CSeq: 2 BYE".toList]
    ∧ msg_get_attribute (sip_load_message (sample_env 0) [] sample_header two_cseq_payload).2
        SIP_ATTR_METHOD = some "INVITE".toList
    ∧ msg_get_attribute (sip_load_message (sample_env 0) [] sample_header two_cseq_payload).2
        SIP_ATTR_CSEQ = some "2".toList
    ∧ payload_lines two_callid_payload
      = ["Call-ID: abc123@hostA".toList, "CSeq: 1 INVITE".toList, "Call-ID: xyz789@hostB".toList]
    ∧ call_find_by_callid other_call_store "abc123".toList = none
    ∧ other_call_store.length = 1
    ∧ (sip_load_message (sample_env 0) other_call_store sample_header two_callid_payload).1.length
        = 1
    ∧ call_msg_count
        (call_at (sip_load_message (sample_env 0) other_call_store sample_header
          two_callid_payload).1 0) = 2 := by
  decide

/-- C1, amended: capture is on, the header line has all nine fields, the
payload has a line `Call-ID: <id>@<host>` with no line starting with `Call-ID:`
after it, the store holds no call for `id`, and the payload has a line
`CSeq: <n> <M>` such that no line before it makes the status line scan or the
`CSeq:` scan return non-zero, no line after it makes the `CSeq:` scan return
non-zero, `M` is not ACK ignoring case and, if `sip.ignoreincomplete` is on, `M`
is one of the seven method names. Then `sip_load_message` adds exactly one call
at the end of the store, the only message of that call is the message returned,
and that message has `METHOD` = `M`, `REQUEST` = `1` and `CSEQ` = `n`. -/
theorem sip_load_message_first_request (env : Env) (calls : Store) (header payload : CStr)
    (a b pre post : List CStr) (id host n M : CStr)
    (hcap : env.is_option_enabled "sip.capture" = true)
    (hhdr : (sscanf header "U %d/%d/%d %d:%d:%d.%d %s -> %s").1 = 9)
    (hcl : payload_lines payload = a ++ ("Call-ID: ".toList ++ id ++ '@' :: host) :: b)
    (hid : id ≠ []) (hids : ∀ c ∈ id, c ≠ '@' ∧ c ≠ '\n')
    (hid0 : ∀ c, id.head? = some c → isspace c = false)
    (hb : ∀ l ∈ b, ¬ ("Call-ID:".toList <+: l))
    (hnew : call_find_by_callid calls id = none)
    (hlines : payload_lines payload = pre ++ ("CSeq: ".toList ++ n ++ ' ' :: M) :: post)
    (hn : n ≠ []) (hns : ∀ c ∈ n, isspace c = false) (hM : M ≠ [])
    (hMs : ∀ c ∈ M, c ≠ '\t' ∧ c ≠ '\n' ∧ c ≠ '\r')
    (hM0 : ∀ c, M.head? = some c → isspace c = false)
    (hack : strcasecmp M "ACK".toList ≠ 0)
    (hpre : ∀ l ∈ pre, l = [] ∨ ((sscanf l "SIP/2.0 %[^\t\n\r]").1 = 0
      ∧ (sscanf l "CSeq: %s %[^\t\n\r]").1 = 0))
    (hpost : ∀ l ∈ post, l = [] ∨ (sscanf l "CSeq: %s %[^\t\n\r]").1 = 0)
    (hinc : env.get_option_int_value "sip.ignoreincomplete" ≠ 0 → M ∈ initiating_methods) :
    ∃ m, sip_load_message env calls header payload
          = (calls ++ [{ attrs := [], msgs := [m] }], some m)
      ∧ msg_get_attribute (some m) SIP_ATTR_METHOD = some M
      ∧ msg_get_attribute (some m) SIP_ATTR_REQUEST = some "1".toList
      ∧ msg_get_attribute (some m) SIP_ATTR_CSEQ = some n := by
  have hcid := sip_get_callid_line payload a b id host hcl hid hids hid0 hb
  by_cases hinc0 : env.get_option_int_value "sip.ignoreincomplete" = 0
  · rw [sip_load_message_new env calls header payload id hcap hcid hnew hinc0,
      sip_load_attach_new]
    obtain ⟨h0, h1, h2, h3⟩ := msg_parse_cseq env
      { (msg_set_attribute (sip_msg_create header payload) SIP_ATTR_CALLID id) with
        call := some calls.length }
      pre post n M rfl hhdr hlines hn hns hM hMs hM0 hack
      (by simp [msg_set_attribute, sip_msg_create, sip_attr_set, sip_attr_replace, sip_attr_get])
      hpre hpost
    refine ⟨(first_msg_parse env (sip_msg_create header payload) id calls.length).1, ?_,
      h1, h2, h3⟩
    have h0' : (first_msg_parse env (sip_msg_create header payload) id calls.length).2 = true :=
      h0
    rw [h0']
    rfl
  · obtain ⟨h0, h1, h2, h3⟩ := msg_parse_cseq env (sip_msg_create header payload)
      pre post n M rfl hhdr hlines hn hns hM hMs hM0 hack rfl hpre hpost
    have hrej : method_rejected (msg_get_attribute
        (msg_parse_ptr env (some (sip_msg_create header payload))) SIP_ATTR_METHOD) = false := by
      simp only [msg_parse_ptr, h0, if_true, msg_get_attribute, h1]
      exact method_rejected_initiating M (hinc hinc0)
    rw [sip_load_message_forced env calls header payload id hcap hcid hnew hinc0 hrej,
      sip_load_attach_new]
    have hparsed := msg_parse_parsed env _ h0
    have hfirst : first_msg_parse env (msg_parse env (sip_msg_create header payload)).1 id
          calls.length
        = ({ (msg_set_attribute (msg_parse env (sip_msg_create header payload)).1
              SIP_ATTR_CALLID id) with call := some calls.length }, true) :=
      msg_parse_of_parsed env _ hparsed
    rw [hfirst]
    refine ⟨_, rfl, ?_, ?_, ?_⟩
    · simp only [msg_get_attribute]
      rw [← h1]
      exact msg_set_attribute_get_other _ _ _ _ (by decide)
    · simp only [msg_get_attribute]
      rw [← h2]
      exact msg_set_attribute_get_other _ _ _ _ (by decide)
    · simp only [msg_get_attribute]
      rw [← h3]
      exact msg_set_attribute_get_other _ _ _ _ (by decide)

/-- Witness of C1, amended: the scenario of the specification, with
`sip.ignoreincomplete` on; the call `abc123` is created and the message
returned has `METHOD` INVITE, `REQUEST` 1 and `CSEQ` 1. -/
theorem sip_load_message_first_request_witness :
    (sip_load_message (sample_env 1) [] sample_header sample_payload).1.length = 1
    ∧ call_get_attribute (call_at (sip_load_message (sample_env 1) [] sample_header
        sample_payload).1 0) SIP_ATTR_CALLID = some "abc123".toList
    ∧ ∃ m, sip_load_message (sample_env 1) [] sample_header sample_payload
          = ([] ++ [{ attrs := [], msgs := [m] }], some m)
      ∧ msg_get_attribute (some m) SIP_ATTR_METHOD = some "INVITE".toList
      ∧ msg_get_attribute (some m) SIP_ATTR_REQUEST = some "1".toList
      ∧ msg_get_attribute (some m) SIP_ATTR_CSEQ = some "1".toList :=
  ⟨by decide, by decide,
   sip_load_message_first_request (sample_env 1) [] sample_header sample_payload
     [] ["CSeq: 1 INVITE".toList] ["Call-ID: abc123@hostA".toList] []
     "abc123".toList "hostA".toList "1".toList "INVITE".toList
     (by decide) (by decide) (by decide) (by decide) (by decide) (by decide) (by decide)
     (by decide) (by decide) (by decide) (by decide) (by decide) (by decide) (by decide)
     (by decide) (by decide) (by decide) (by decide)⟩

/-! ## Attributes of a call -/

/-- C13, a counterexample: the call `abc123` of the sample store, after
`call_set_attribute(call, CALLID, "zzz")`, still has the Call-ID `abc123` for
`call_get_attribute`, although `zzz` is stored in its own attribute list; and a
call without messages has no `XCALLID` for `call_get_attribute` after
`call_set_attribute(call, XCALLID, "zzz")`. -/
theorem call_set_attribute_counterexample :
    call_get_attribute (call_set_attribute (call_at one_call_store 0) SIP_ATTR_CALLID
        "zzz".toList) SIP_ATTR_CALLID = some "abc123".toList
    ∧ sip_attr_get (call_set_attribute (call_at one_call_store 0) SIP_ATTR_CALLID
        "zzz".toList).attrs SIP_ATTR_CALLID = some "zzz".toList
    ∧ call_get_attribute (call_set_attribute { attrs := [], msgs := [] } SIP_ATTR_XCALLID
        "zzz".toList) SIP_ATTR_XCALLID = none := by
  decide

/-- C13, amended: for every call, id and string `v`, `call_set_attribute(call,
id, v)` stores `v` under `id` in the attribute list of the call itself and
leaves the messages as they are, and `call_get_attribute` does not read that
list: for every id, `CALLID` and `XCALLID` included, it returns after the call
what it returned before, which for `CALLID` and `XCALLID` is the attribute of
the first message, absent when the call has no message. -/
theorem call_set_attribute_unread (call : sip_call) (id j : sip_attr_id) (v : CStr) :
    sip_attr_get (call_set_attribute call id v).attrs id = some v
    ∧ (call_set_attribute call id v).msgs = call.msgs
    ∧ call_get_attribute (call_set_attribute call id v) j = call_get_attribute call j
    ∧ call_get_attribute (call_set_attribute call id v) SIP_ATTR_CALLID
        = msg_get_attribute call.msgs.head? SIP_ATTR_CALLID
    ∧ call_get_attribute (call_set_attribute call id v) SIP_ATTR_XCALLID
        = msg_get_attribute call.msgs.head? SIP_ATTR_XCALLID :=
  ⟨sip_attr_get_set_same call.attrs id v, rfl, rfl, rfl, rfl⟩

theorem printf_d_nat (n : Nat) : printf_d (n : Int) = (Nat.repr n).toList := by
  simp [printf_d, printf_0d, dec_digits, Nat.repr, List.asString]

/-- C14: for every call, `call_get_attribute(call, MSGCNT)` is the decimal
string of `call_msg_count(call)`, which is the number of messages of the call;
`call_get_attribute(call, STARTING)` is the `METHOD` of the first message; for
each of the nine ids SIPFROM, SIPTO, SRC, DST, TIME, METHOD, REQUEST, CSEQ, SDP
it is `msg_get_attribute` of the first message, absent when the call has no
message; the first message being what `call_get_next_msg(call, NULL)` returns,
which changes nothing in the call. -/
theorem call_get_attribute_views (env : Env) (call : sip_call) :
    call_get_attribute call SIP_ATTR_MSGCNT = some (Nat.repr (call_msg_count call)).toList
    ∧ call_msg_count call = call.msgs.length
    ∧ call_get_attribute call SIP_ATTR_STARTING
        = msg_get_attribute call.msgs.head? SIP_ATTR_METHOD
    ∧ (∀ id ∈ [SIP_ATTR_SIPFROM, SIP_ATTR_SIPTO, SIP_ATTR_SRC, SIP_ATTR_DST, SIP_ATTR_TIME,
          SIP_ATTR_METHOD, SIP_ATTR_REQUEST, SIP_ATTR_CSEQ, SIP_ATTR_SDP],
        call_get_attribute call id = msg_get_attribute call.msgs.head? id
        ∧ (call.msgs = [] → call_get_attribute call id = none))
    ∧ (call_get_next_msg env call none).1 = call
    ∧ msg_at call (call_get_next_msg env call none).2 = call.msgs.head? := by
  refine ⟨?_, rfl, rfl, ?_, rfl, ?_⟩
  · simp only [call_get_attribute, if_true]
    rw [printf_d_nat]
  · intro id hid
    simp only [List.mem_cons, List.mem_singleton, List.not_mem_nil, or_false] at hid
    have h1 : call_get_attribute call id = msg_get_attribute call.msgs.head? id := by
      rcases hid with h | h | h | h | h | h | h | h | h <;> subst h <;> rfl
    refine ⟨h1, fun hm => ?_⟩
    rw [h1, hm]
    rfl
  · cases hm : call.msgs with
    | nil => simp [call_get_next_msg, hm, msg_at]
    | cons m ms => simp [call_get_next_msg, hm, msg_at]

/-! ## The key of the Call-ID line -/

/-- C18, at failing inputs: for the payload line `call-id: abc123@hostA` the
test `strncasecmp(pch, "Call-ID", 7)` succeeds, `sscanf` with the format
`Call-ID: %[^@\n]` returns 0, and `sip_get_callid` returns `NULL`; so for
`CALL-ID: abc123@hostA`; and `sip_load_message` drops a record whose Call-ID
line is written `call-id:`. With the key written `Call-ID` the value is
`abc123`. -/
theorem sip_get_callid_key_case :
    strncasecmp "call-id: abc123@hostA".toList "Call-ID".toList 7 = 0
    ∧ (sscanf "call-id: abc123@hostA".toList "Call-ID: %[^@\n]").1 = 0
    ∧ sip_get_callid "call-id: abc123@hostA".toList = none
    ∧ sip_get_callid "CALL-ID: abc123@hostA".toList = none
    ∧ sip_load_message (sample_env 0) [] sample_header
        "call-id: abc123@hostA\nCSeq: 1 INVITE".toList = ([], none)
    ∧ sip_get_callid "Call-ID: abc123@hostA".toList = some "abc123".toList := by
  decide

/-! ## The payload lines of a message -/

theorem strtok_go_filter (text cur : List Char) :
    strtok_go text cur = (spec_split_go text cur).filter (fun l => decide (l ≠ [])) := by
  induction text generalizing cur with
  | nil =>
    by_cases h : cur = [] <;> simp [strtok_go, spec_split_go, h]
  | cons c cs ih =>
    by_cases hc : c = '\n'
    · by_cases h : cur = [] <;> simp [strtok_go, spec_split_go, hc, h, ih]
    · simp [strtok_go, spec_split_go, hc, ih]

theorem strtok_filter (text : CStr) :
    strtok text = (spec_split_lines text).filter (fun l => decide (l ≠ [])) :=
  strtok_go_filter text []

theorem msg_set_attribute_payload (m : sip_msg) (id : sip_attr_id) (v : CStr) :
    (msg_set_attribute m id v).payload = m.payload := rfl

theorem payload_sdp_payload (s : PayloadState) (pch : CStr) :
    (payload_sdp s pch).msg.payload = s.msg.payload := by
  unfold payload_sdp
  split_ifs <;> rfl

theorem payload_to_payload (s : PayloadState) (pch : CStr) :
    (payload_to s pch).msg.payload = s.msg.payload := by
  unfold payload_to
  simp only []
  split_ifs
  · rfl
  · rw [payload_sdp_payload]

theorem payload_from_payload (s : PayloadState) (pch : CStr) :
    (payload_from s pch).msg.payload = s.msg.payload := by
  unfold payload_from
  simp only []
  split_ifs
  · rfl
  · rw [payload_to_payload]

theorem payload_cseq_payload (s : PayloadState) (pch : CStr) :
    (payload_cseq s pch).msg.payload = s.msg.payload := by
  unfold payload_cseq
  simp only []
  split_ifs
  · rfl
  · rfl
  · rfl
  · rw [payload_from_payload]

theorem payload_status_payload (s : PayloadState) (pch : CStr) :
    (payload_status s pch).msg.payload = s.msg.payload := by
  unfold payload_status
  simp only []
  split_ifs
  · rfl
  · rfl
  · rw [payload_cseq_payload]

theorem payload_xcid_payload (s : PayloadState) (pch : CStr) :
    (payload_xcid s pch).msg.payload = s.msg.payload := by
  unfold payload_xcid
  simp only []
  split_ifs
  · rfl
  · rw [payload_status_payload]

theorem payload_xcallid_payload (s : PayloadState) (pch : CStr) :
    (payload_xcallid s pch).msg.payload = s.msg.payload := by
  unfold payload_xcallid
  simp only []
  split_ifs
  · rfl
  · rw [payload_xcid_payload]

theorem payload_step_payload (s : PayloadState) (pch : CStr) :
    (payload_step s pch).msg.payload = s.msg.payload ++ [pch] := by
  unfold payload_step
  simp only []
  split_ifs
  · rfl
  · rw [payload_xcallid_payload]

theorem payload_foldl_payload (ls : List CStr) (s : PayloadState) :
    (ls.foldl payload_step s).msg.payload = s.msg.payload ++ ls := by
  induction ls generalizing s with
  | nil => simp
  | cons l ls ih => rw [List.foldl_cons, ih, payload_step_payload]; simp

theorem msg_parse_header_payload (env : Env) (m : sip_msg) (h : CStr) :
    (msg_parse_header env m h).1.payload = m.payload := by
  unfold msg_parse_header
  simp only []
  split_ifs <;> rfl

/-- The payload lines after a `msg_parse` that returns the message: those the
message had if it was parsed already, else those and the lines of the text. -/
theorem msg_parse_payload_lines (env : Env) (m : sip_msg) (hok : (msg_parse env m).2 = true)
    (hp : m.parsed = false) :
    (msg_parse env m).1.payload = m.payload ++ payload_lines m.payloadptr := by
  unfold msg_parse at hok ⊢
  by_cases h2 : (msg_parse_header env m m.headerptr).2 = 0
  · simp only [hp, h2, msg_parse_payload_ok, Bool.false_eq_true, if_false, ne_eq,
      not_true_eq_false, msg_parse_payload]
    rw [payload_foldl_payload, msg_parse_header_payload, msg_parse_header_payloadptr]
  · simp [hp, h2] at hok

theorem spec_split_go_splitOnP (text acc : List Char) :
    spec_split_go text acc.reverse = List.splitOnP.go (fun c => c == '\n') text acc := by
  induction text generalizing acc with
  | nil => simp [spec_split_go, List.splitOnP.go]
  | cons c cs ih =>
    by_cases hc : c = '\n'
    · have h := ih []
      simp only [List.reverse_nil] at h
      simp [spec_split_go, List.splitOnP.go, hc, h]
    · have h := ih (c :: acc)
      simp only [List.reverse_cons] at h
      simp [spec_split_go, List.splitOnP.go, hc, h]

theorem spec_split_lines_splitOn (text : CStr) :
    spec_split_lines text = List.splitOn '\n' text := by
  have h := spec_split_go_splitOnP text []
  simpa [spec_split_lines, List.splitOn, List.splitOnP] using h

theorem fix_last_cut (l : CStr) : fix_last l = l ∨ l = fix_last l ++ ['.'] := by
  unfold fix_last
  split_ifs with h
  · right
    exact (List.dropLast_append_getLast? '.' (by simp [h])).symm
  · left
    rfl

/-- C19, a counterexample: the payload `Call-ID: abc123@hostA`, empty line,
`v=0` has three lines when split on newline; after a successful `msg_parse` the
message holds two payload lines, the empty one is not among them, and `plines`
is 2. -/
theorem msg_parse_blank_line_counterexample :
    (msg_parse (sample_env 0) (sip_msg_create sample_header blank_line_payload)).2 = true
    ∧ spec_split_lines blank_line_payload
        = ["Call-ID: abc123@hostA".toList, [], "v=0".toList]
    ∧ (msg_parse (sample_env 0) (sip_msg_create sample_header blank_line_payload)).1.payload
        = ["Call-ID: abc123@hostA".toList, "v=0".toList]
    ∧ (msg_parse (sample_env 0) (sip_msg_create sample_header blank_line_payload)).1.plines = 2
    ∧ (spec_split_lines blank_line_payload).length = 3 := by
  decide

/-- C19, amended: after a successful `msg_parse` of a message that was not
parsed and held no payload line, with payload text `P`, the payload lines of
the message are the pieces of `P` between newline characters that are not
empty, in order, each with its last character cut when that is a `.` (a piece
that is only `.` gives an empty line); pieces that are empty, the blank lines
of `P`, are left out, as `strtok` does; `plines` is the number of pieces that
are not empty. -/
theorem msg_parse_payload_list (env : Env) (m : sip_msg) (hp : m.parsed = false)
    (hempty : m.payload = []) (hok : (msg_parse env m).2 = true) :
    (msg_parse env m).1.payload
        = ((List.splitOn '\n' m.payloadptr).filter (fun l => decide (l ≠ []))).map fix_last
    ∧ (msg_parse env m).1.plines
        = ((List.splitOn '\n' m.payloadptr).filter (fun l => decide (l ≠ []))).length
    ∧ List.splitOn '\n' m.payloadptr = spec_split_lines m.payloadptr
    ∧ ∀ l : CStr, fix_last l = l ∨ l = fix_last l ++ ['.'] := by
  have h := msg_parse_payload_lines env m hok hp
  rw [hempty, List.nil_append, payload_lines, strtok_filter, spec_split_lines_splitOn] at h
  refine ⟨h, ?_, (spec_split_lines_splitOn _).symm, fix_last_cut⟩
  rw [sip_msg.plines, h, List.length_map]

/-- Witness of C19, amended: a payload with a line that is only `.`. -/
theorem msg_parse_payload_list_witness :
    (msg_parse (sample_env 0) (sip_msg_create sample_header dotted_payload)).1.payload
        = ["Call-ID: abc123@hostA".toList, "CSeq: 1 INVITE".toList, [], "v=0".toList]
    ∧ (msg_parse (sample_env 0) (sip_msg_create sample_header dotted_payload)).1.payload
        = ((List.splitOn '\n' dotted_payload).filter (fun l => decide (l ≠ []))).map fix_last :=
  ⟨by decide,
   (msg_parse_payload_list (sample_env 0) (sip_msg_create sample_header dotted_payload)
      (by decide) (by decide) (by decide)).1⟩

/-! ## The method of a message -/

theorem payload_step_method_kept (s : PayloadState) (pch : CStr) (j : sip_attr_id)
    (hj : j = SIP_ATTR_METHOD ∨ j = SIP_ATTR_REQUEST)
    (hsome : (sip_attr_get s.msg.attrs SIP_ATTR_METHOD).isSome = true) :
    sip_attr_get (payload_step s pch).msg.attrs j = sip_attr_get s.msg.attrs j := by
  have j1 : j ≠ SIP_ATTR_XCALLID := by rcases hj with h | h <;> simp [h]
  have j2 : j ≠ SIP_ATTR_SIPFROM := by rcases hj with h | h <;> simp [h]
  have j3 : j ≠ SIP_ATTR_SIPTO := by rcases hj with h | h <;> simp [h]
  have j4 : j ≠ SIP_ATTR_SDP := by rcases hj with h | h <;> simp [h]
  have j5 : j ≠ SIP_ATTR_CSEQ := by rcases hj with h | h <;> simp [h]
  have hnone : ¬ (msg_get_attribute (some
      ({ s.msg with payload := s.msg.payload ++ [pch] } : sip_msg))
      SIP_ATTR_METHOD).isNone = true := by
    simp only [msg_get_attribute]
    cases hg : sip_attr_get s.msg.attrs SIP_ATTR_METHOD with
    | none => rw [hg] at hsome; simp at hsome
    | some v => simp
  unfold payload_step
  simp only []
  by_cases hlen : pch.length = 0
  · simp only [hlen, if_true]
  · simp only [hlen, if_false]
    unfold payload_xcallid
    simp only []
    split_ifs
    · exact msg_set_attribute_get_other _ _ _ _ j1
    · unfold payload_xcid
      simp only []
      split_ifs
      · exact msg_set_attribute_get_other _ _ _ _ j1
      · unfold payload_status
        simp only []
        by_cases hst : (sscanf pch "SIP/2.0 %[^\t\n\r]").1 = 0
        · simp only [hst, ne_eq, not_true_eq_false, if_false]
          unfold payload_cseq
          simp only []
          by_cases hcs : (sscanf pch "CSeq: %s %[^\t\n\r]").1 = 0
          · simp only [hcs, ne_eq, not_true_eq_false, if_false]
            rw [payload_from_get_other _ _ _ j4 j3 j2]
          · simp only [hcs, ne_eq, not_false_eq_true, if_true, hnone, if_false]
            rw [msg_set_attribute_get_other _ _ _ _ j5]
            simp
        · simp only [hst, ne_eq, not_false_eq_true, if_true, hnone, if_false]
          simp

theorem payload_foldl_method_kept (ls : List CStr) (s : PayloadState) (j : sip_attr_id)
    (hj : j = SIP_ATTR_METHOD ∨ j = SIP_ATTR_REQUEST)
    (hsome : (sip_attr_get s.msg.attrs SIP_ATTR_METHOD).isSome = true) :
    sip_attr_get (ls.foldl payload_step s).msg.attrs j = sip_attr_get s.msg.attrs j := by
  induction ls generalizing s with
  | nil => rfl
  | cons l ls ih =>
    rw [List.foldl_cons, ih (payload_step s l) ?_]
    · exact payload_step_method_kept s l j hj hsome
    · rw [payload_step_method_kept s l SIP_ATTR_METHOD (Or.inl rfl) hsome]
      exact hsome

theorem payload_foldl_quiet (ls : List CStr) (s : PayloadState) (j : sip_attr_id)
    (hj : cseq_written j) (hls : ∀ l ∈ ls, no_method_line l) :
    sip_attr_get (ls.foldl payload_step s).msg.attrs j = sip_attr_get s.msg.attrs j := by
  induction ls generalizing s with
  | nil => rfl
  | cons l ls ih =>
    rw [List.foldl_cons, ih (payload_step s l) (fun x hx => hls x (List.mem_cons_of_mem _ hx))]
    rcases hls l (List.mem_cons_self _ _) with h | h
    · exact payload_step_keeps s l j hj (Or.inl h) (Or.inr (Or.inl h))
    · exact payload_step_keeps s l j hj (Or.inr h.2) (Or.inr (Or.inr h.1))

theorem fmt_status : fmt "SIP/2.0 %[^\t\n\r]"
    = "SIP/2.0".toList.map Dir.lit ++ [Dir.ws, Dir.set ['\t', '\n', '\r']] := by
  decide

theorem sscanf_status_line (reason : CStr) (hr : line_value reason) :
    sscanf ("SIP/2.0 ".toList ++ reason) "SIP/2.0 %[^\t\n\r]" = (1, [Val.str reason]) := by
  obtain ⟨hne, hrs, hr0⟩ := hr
  have hl : "SIP/2.0 ".toList ++ reason = "SIP/2.0".toList ++ (' ' :: reason) := rfl
  unfold sscanf
  rw [fmt_status, hl, sscanf_go_lits_match]
  obtain ⟨d, r', rfl⟩ := List.exists_cons_of_ne_nil hne
  have hd : isspace d = false := hr0 d rfl
  have hsp : isspace ' ' = true := by decide
  have h1 : List.dropWhile isspace (' ' :: d :: r') = d :: r' := by
    simp [List.dropWhile_cons, hsp, hd]
  have hp : ∀ a ∈ d :: r', (fun c => !(['\t', '\n', '\r'].contains c)) a = true := by
    intro a ha
    obtain ⟨e1, e2, e3⟩ := hrs a ha
    simp [e1, e2, e3]
  have h2 : List.takeWhile (fun c => !(['\t', '\n', '\r'].contains c)) (d :: r') = d :: r' :=
    takeWhile_all _ _ hp
  have h3 : List.dropWhile (fun c => !(['\t', '\n', '\r'].contains c)) (d :: r') = [] :=
    dropWhile_all _ _ hp
  simp only [sscanf_go, h1, h2, h3]
  simp

theorem status_line_eq (reason : CStr) :
    "SIP/2.0 ".toList ++ reason = 'S' :: ("IP/2.0 ".toList ++ reason) := rfl

/-- The loop body on a line `SIP/2.0 <reason>` when no method is set yet. -/
theorem payload_step_status (s : PayloadState) (reason : CStr) (hr : line_value reason)
    (hmeth : sip_attr_get s.msg.attrs SIP_ATTR_METHOD = none) :
    sip_attr_get (payload_step s ("SIP/2.0 ".toList ++ reason)).msg.attrs SIP_ATTR_METHOD
        = some reason
    ∧ sip_attr_get (payload_step s ("SIP/2.0 ".toList ++ reason)).msg.attrs SIP_ATTR_REQUEST
        = sip_attr_get s.msg.attrs SIP_ATTR_REQUEST
    ∧ sip_attr_get (payload_step s ("SIP/2.0 ".toList ++ reason)).msg.attrs SIP_ATTR_CSEQ
        = sip_attr_get s.msg.attrs SIP_ATTR_CSEQ := by
  have hscan := sscanf_status_line reason hr
  have hx1 := sscanf_head_mismatch "X-Call-ID: %[^@\t\n\r]" 'X' 'S'
    ("IP/2.0 ".toList ++ reason) (by decide) (by decide)
  have hx2 := sscanf_head_mismatch "X-CID: %[^@\t\n\r]" 'X' 'S'
    ("IP/2.0 ".toList ++ reason) (by decide) (by decide)
  rw [← status_line_eq] at hx1 hx2
  have hlen : ("SIP/2.0 ".toList ++ reason).length ≠ 0 := by
    rw [status_line_eq]; simp
  unfold payload_step
  simp only [hlen, if_false]
  unfold payload_xcallid
  simp only [hx1, arg_str]
  unfold payload_xcid
  simp only [hx2, arg_str]
  unfold payload_status
  simp only [hscan, arg_str]
  simp [msg_get_attribute, hmeth, msg_set_attribute_get_same, msg_set_attribute_get_other]

/-- The loop body on a line `CSeq: <n> <M>`: `CSEQ` is `n` afterwards, and
`METHOD` is `M` when no method was set before. -/
theorem payload_step_cseq_line (s : PayloadState) (n M : CStr) (hn : line_token n)
    (hM : line_value M) :
    sip_attr_get (payload_step s ("CSeq: ".toList ++ n ++ ' ' :: M)).msg.attrs SIP_ATTR_CSEQ
        = some n
    ∧ (sip_attr_get s.msg.attrs SIP_ATTR_METHOD = none →
        sip_attr_get (payload_step s ("CSeq: ".toList ++ n ++ ' ' :: M)).msg.attrs
          SIP_ATTR_METHOD = some M) := by
  have hscan := sscanf_cseq_line n M hn.1 hn.2 hM.1 hM.2.1 hM.2.2
  have hx1 := sscanf_head_mismatch "X-Call-ID: %[^@\t\n\r]" 'X' 'C'
    ("Seq: ".toList ++ n ++ ' ' :: M) (by decide) (by decide)
  have hx2 := sscanf_head_mismatch "X-CID: %[^@\t\n\r]" 'X' 'C'
    ("Seq: ".toList ++ n ++ ' ' :: M) (by decide) (by decide)
  have hx3 := sscanf_head_mismatch "SIP/2.0 %[^\t\n\r]" 'S' 'C'
    ("Seq: ".toList ++ n ++ ' ' :: M) (by decide) (by decide)
  rw [← cseq_line_eq] at hx1 hx2 hx3
  have hlen : ("CSeq: ".toList ++ n ++ ' ' :: M).length ≠ 0 := by
    rw [cseq_line_eq]; simp
  unfold payload_step
  simp only [hlen, if_false]
  unfold payload_xcallid
  simp only [hx1, arg_str]
  unfold payload_xcid
  simp only [hx2, arg_str]
  unfold payload_status
  simp only [hx3, arg_str]
  unfold payload_cseq
  simp only [hscan, arg_str]
  refine ⟨by simp [msg_set_attribute_get_same], fun hmeth => ?_⟩
  simp [msg_get_attribute, hmeth, msg_set_attribute_get_same, msg_set_attribute_get_other]

/-- The attributes after a `msg_parse` that parsed the message: those the
payload loop leaves, started on the message the header phase leaves. -/
theorem msg_parse_attrs (env : Env) (m : sip_msg) (hp : m.parsed = false)
    (hok : (msg_parse env m).2 = true) :
    (msg_parse env m).1.attrs
      = ((payload_lines m.payloadptr).foldl payload_step
          { msg := (msg_parse_header env m m.headerptr).1, value := env.junk_value,
            rest := env.junk_rest }).msg.attrs := by
  unfold msg_parse at hok ⊢
  by_cases h2 : (msg_parse_header env m m.headerptr).2 = 0
  · simp only [hp, h2, msg_parse_payload_ok, Bool.false_eq_true, if_false, ne_eq,
      not_true_eq_false, msg_parse_payload]
    rw [msg_parse_header_payloadptr]
  · simp [hp, h2] at hok

/-- C20 (amended): in a parse that succeeds on a message without `METHOD` and
`REQUEST`, with payload lines `pre` first, none of which the status line test or the
`CSeq:` test takes: (1) when the next line is the status line `SIP/2.0
<reason>` and a line `CSeq: <n> <M>` follows later, with no line after it that
the `CSeq:` test takes, then afterwards `METHOD` = `reason`, `CSEQ` = `n` and
`REQUEST` is absent; (2) when the next line is `SIP/2.0 <reason>`, `METHOD` =
`reason` whatever lines follow; (3) when the next line is `CSeq: <n> <M>`,
`METHOD` = `M` whatever lines follow; (4) a `METHOD` that is set is not changed
by any further line of the payload loop. -/
theorem msg_parse_method_once (env : Env) (m : sip_msg) (pre : List CStr)
    (hp : m.parsed = false) (hok : (msg_parse env m).2 = true)
    (hmeth : sip_attr_get m.attrs SIP_ATTR_METHOD = none)
    (hreq : sip_attr_get m.attrs SIP_ATTR_REQUEST = none)
    (hpre : ∀ l ∈ pre, no_method_line l) :
    (∀ (reason n M : CStr) (mid post : List CStr),
        line_value reason → line_token n → line_value M → (∀ l ∈ post, no_cseq_line l) →
        payload_lines m.payloadptr
          = pre ++ ("SIP/2.0 ".toList ++ reason)
              :: (mid ++ ("CSeq: ".toList ++ n ++ ' ' :: M) :: post) →
        sip_attr_get (msg_parse env m).1.attrs SIP_ATTR_METHOD = some reason
        ∧ sip_attr_get (msg_parse env m).1.attrs SIP_ATTR_CSEQ = some n
        ∧ sip_attr_get (msg_parse env m).1.attrs SIP_ATTR_REQUEST = none)
    ∧ (∀ (reason : CStr) (rest : List CStr), line_value reason →
        payload_lines m.payloadptr = pre ++ ("SIP/2.0 ".toList ++ reason) :: rest →
        sip_attr_get (msg_parse env m).1.attrs SIP_ATTR_METHOD = some reason)
    ∧ (∀ (n M : CStr) (rest : List CStr), line_token n → line_value M →
        payload_lines m.payloadptr = pre ++ ("CSeq: ".toList ++ n ++ ' ' :: M) :: rest →
        sip_attr_get (msg_parse env m).1.attrs SIP_ATTR_METHOD = some M)
    ∧ (∀ (s : PayloadState) (ls : List CStr) (v : CStr),
        sip_attr_get s.msg.attrs SIP_ATTR_METHOD = some v →
        sip_attr_get (ls.foldl payload_step s).msg.attrs SIP_ATTR_METHOD = some v) := by
  have hattrs := msg_parse_attrs env m hp hok
  have hm0 : sip_attr_get (msg_parse_header env m m.headerptr).1.attrs SIP_ATTR_METHOD
      = none := by
    rw [msg_parse_header_get_rest _ _ _ _ (by decide) (by decide) (by decide)]
    exact hmeth
  have hr0 : sip_attr_get (msg_parse_header env m m.headerptr).1.attrs SIP_ATTR_REQUEST
      = none := by
    rw [msg_parse_header_get_rest _ _ _ _ (by decide) (by decide) (by decide)]
    exact hreq
  have hsticky : ∀ (s : PayloadState) (ls : List CStr) (v : CStr),
      sip_attr_get s.msg.attrs SIP_ATTR_METHOD = some v →
      sip_attr_get (ls.foldl payload_step s).msg.attrs SIP_ATTR_METHOD = some v := by
    intro s ls v hv
    rw [payload_foldl_method_kept ls s SIP_ATTR_METHOD (Or.inl rfl) (by rw [hv]; rfl)]
    exact hv
  -- the state after the lines `pre`
  have hpm := payload_foldl_quiet pre
    { msg := (msg_parse_header env m m.headerptr).1, value := env.junk_value,
      rest := env.junk_rest } SIP_ATTR_METHOD (Or.inl rfl) hpre
  have hpr := payload_foldl_quiet pre
    { msg := (msg_parse_header env m m.headerptr).1, value := env.junk_value,
      rest := env.junk_rest } SIP_ATTR_REQUEST (Or.inr (Or.inl rfl)) hpre
  simp only [hm0] at hpm
  simp only [hr0] at hpr
  refine ⟨?_, ?_, ?_, hsticky⟩
  · intro reason n M mid post hreason hn hM hpost hlines
    rw [hattrs, hlines, List.foldl_append, List.foldl_cons, List.foldl_append, List.foldl_cons]
    obtain ⟨s1, s2, -⟩ := payload_step_status _ reason hreason hpm
    rw [hpr] at s2
    -- after the lines `mid`
    have hsome1 : (sip_attr_get (payload_step (pre.foldl payload_step
        { msg := (msg_parse_header env m m.headerptr).1, value := env.junk_value,
          rest := env.junk_rest }) ("SIP/2.0 ".toList ++ reason)).msg.attrs
        SIP_ATTR_METHOD).isSome = true := by rw [s1]; rfl
    have m1 := payload_foldl_method_kept mid _ SIP_ATTR_METHOD (Or.inl rfl) hsome1
    have m2 := payload_foldl_method_kept mid _ SIP_ATTR_REQUEST (Or.inr rfl) hsome1
    rw [s1] at m1
    rw [s2] at m2
    -- after the `CSeq:` line
    have hsome2 : (sip_attr_get (mid.foldl payload_step (payload_step (pre.foldl payload_step
        { msg := (msg_parse_header env m m.headerptr).1, value := env.junk_value,
          rest := env.junk_rest }) ("SIP/2.0 ".toList ++ reason))).msg.attrs
        SIP_ATTR_METHOD).isSome = true := by rw [m1]; rfl
    have c1 := payload_step_method_kept _ ("CSeq: ".toList ++ n ++ ' ' :: M) SIP_ATTR_METHOD
      (Or.inl rfl) hsome2
    have c2 := payload_step_method_kept _ ("CSeq: ".toList ++ n ++ ' ' :: M) SIP_ATTR_REQUEST
      (Or.inr rfl) hsome2
    have c3 := (payload_step_cseq_line (mid.foldl payload_step (payload_step
      (pre.foldl payload_step
        { msg := (msg_parse_header env m m.headerptr).1, value := env.junk_value,
          rest := env.junk_rest }) ("SIP/2.0 ".toList ++ reason))) n M hn hM).1
    rw [m1] at c1
    rw [m2] at c2
    -- after the lines `post`
    have hsome3 : (sip_attr_get (payload_step (mid.foldl payload_step (payload_step
        (pre.foldl payload_step
          { msg := (msg_parse_header env m m.headerptr).1, value := env.junk_value,
            rest := env.junk_rest }) ("SIP/2.0 ".toList ++ reason)))
        ("CSeq: ".toList ++ n ++ ' ' :: M)).msg.attrs SIP_ATTR_METHOD).isSome = true := by
      rw [c1]; rfl
    rw [payload_foldl_post post _ hsome3 hpost _ (Or.inl rfl),
      payload_foldl_post post _ hsome3 hpost _ (Or.inr (Or.inl rfl)),
      payload_foldl_post post _ hsome3 hpost _ (Or.inr (Or.inr rfl))]
    exact ⟨c1, c3, c2⟩
  · intro reason rest hreason hlines
    rw [hattrs, hlines, List.foldl_append, List.foldl_cons]
    exact hsticky _ rest reason (payload_step_status _ reason hreason hpm).1
  · intro n M rest hn hM hlines
    rw [hattrs, hlines, List.foldl_append, List.foldl_cons]
    exact hsticky _ rest M ((payload_step_cseq_line _ n M hn hM).2 hpm)

/-- Witness of C20: a response with the status line `SIP/2.0 200 OK` and the
line `CSeq: 1 INVITE` has `METHOD` = `200 OK`, `CSEQ` = `1` and no `REQUEST`. -/
theorem msg_parse_method_once_witness :
    sip_attr_get (msg_parse (sample_env 0) (sip_msg_create sample_header response_payload)).1.attrs
        SIP_ATTR_METHOD = some "200 OK".toList
    ∧ sip_attr_get (msg_parse (sample_env 0) (sip_msg_create sample_header response_payload)).1.attrs
        SIP_ATTR_CSEQ = some "1".toList
    ∧ sip_attr_get (msg_parse (sample_env 0) (sip_msg_create sample_header response_payload)).1.attrs
        SIP_ATTR_REQUEST = none :=
  (msg_parse_method_once (sample_env 0) (sip_msg_create sample_header response_payload) []
      (by decide) (by decide) (by decide) (by decide) (by simp)).1
    "200 OK".toList "1".toList "INVITE".toList ["Call-ID: abc123@hostA".toList]
    ["From: <sip:alice@hostA>".toList]
    ⟨by decide, by decide, by decide⟩ ⟨by decide, by decide⟩ ⟨by decide, by decide, by decide⟩
    (by unfold no_cseq_line; decide) (by decide)

/-! ## The filter -/

theorem strstr_isSome (hay needle : CStr) :
    (strstr hay needle).isSome = true ↔ needle <:+: hay := by
  induction hay with
  | nil =>
    by_cases h : needle = [] <;> simp [strstr, h]
  | cons x hay ih =>
    unfold strstr
    by_cases hp : needle.isPrefixOf (x :: hay) = true
    · simp only [hp, if_true, Option.isSome_some, true_iff]
      exact (List.isPrefixOf_iff_prefix.1 hp).isInfix
    · simp only [hp, if_false, Bool.false_eq_true]
      rw [ih, List.infix_cons_iff]
      constructor
      · exact fun h => Or.inr h
      · rintro (h | h)
        · exact absurd (List.isPrefixOf_iff_prefix.2 h) hp
        · exact h

theorem tolower_eq_zero (a : Char) : tolower a = 0 ↔ a.toNat = 0 := by
  unfold tolower
  split_ifs with h
  · constructor
    · intro h1
      exact h1.elim
    · intro h1
      omega
  · exact Iff.rfl

theorem strncasecmp_initial (f s : CStr) (hnul : ∀ c ∈ f, c.toNat ≠ 0) :
    strncasecmp f s f.length = 0 ↔ ci_initial f s := by
  induction f generalizing s with
  | nil => simp [strncasecmp, ci_initial]
  | cons a as ih =>
    have ha : tolower a ≠ 0 := fun h => hnul a (List.mem_cons_self _ _) ((tolower_eq_zero a).1 h)
    cases s with
    | nil =>
      simp only [List.length_cons, strncasecmp, ci_initial, List.length_nil]
      constructor
      · intro h
        exact absurd (Int.natCast_eq_zero.1 h) ha
      · intro h
        omega
    | cons b bs =>
      simp only [List.length_cons, strncasecmp]
      have ih1 := ih bs (fun c hc => hnul c (List.mem_cons_of_mem _ hc))
      by_cases hab : tolower a = tolower b
      · simp only [hab, if_true, ih1, ci_initial, List.length_cons, List.take_succ_cons,
          List.map_cons, List.cons.injEq, true_and, Nat.add_le_add_iff_right]
      · simp only [hab, if_false, ci_initial, List.length_cons, List.take_succ_cons,
          List.map_cons, List.cons.injEq]
        constructor
        · intro h
          exact absurd (by omega) hab
        · intro h
          exact absurd h.2.1.symm hab

theorem filter_strstr_some (filter : Option CStr) (v : CStr) :
    ∃ b, filter_strstr filter (some v) = some b
      ∧ (b = true ↔ substring_filter_fails filter v) := by
  unfold filter_strstr substring_filter_fails
  cases filter with
  | none => exact ⟨false, rfl, by simp⟩
  | some f =>
    by_cases hf : f = []
    · exact ⟨false, by simp [hf], by simp [hf]⟩
    · have hlen : f.length ≠ 0 := fun h => hf (List.length_eq_zero.1 h)
      refine ⟨(strstr v f).isNone, by simp [hlen], ?_⟩
      simp only [Option.some.injEq, exists_eq_left', hf, ne_eq, not_false_eq_true, true_and]
      rw [← strstr_isSome]
      cases strstr v f <;> simp

theorem filter_strncasecmp_some (filter : Option CStr) (v : CStr)
    (hnul : ∀ f, filter = some f → ∀ c ∈ f, c.toNat ≠ 0) :
    ∃ b, filter_strncasecmp filter (some v) = some b
      ∧ (b = true ↔ initial_filter_fails filter v) := by
  unfold filter_strncasecmp initial_filter_fails
  cases filter with
  | none => exact ⟨false, rfl, by simp⟩
  | some f =>
    by_cases hf : f = []
    · exact ⟨false, by simp [hf], by simp [hf]⟩
    · have hlen : f.length ≠ 0 := fun h => hf (List.length_eq_zero.1 h)
      refine ⟨decide (strncasecmp f v f.length ≠ 0), by simp [hlen], ?_⟩
      simp only [Option.some.injEq, exists_eq_left', hf, ne_eq, not_false_eq_true, true_and,
        decide_eq_true_eq]
      rw [strncasecmp_initial f v (hnul f rfl)]

theorem ignored_value_scan_false (flt : Filters) (call : sip_call) (l : List sip_attr_hdr) :
    ignored_value_scan flt call l = false
      ↔ ∀ hdr ∈ l, flt.is_ignored_value hdr.name (call_get_attribute call hdr.id) = false := by
  induction l with
  | nil => simp [ignored_value_scan]
  | cons h rest ih =>
    simp only [ignored_value_scan, List.mem_cons, forall_eq_or_imp]
    cases hv : flt.is_ignored_value h.name (call_get_attribute call h.id) <;> simp [ih]

theorem sip_calls_count_loop_all (l : List sip_call) (n : Nat) :
    sip_calls_count_loop (fun _ => some 0) l n = some (n + l.length) := by
  induction l generalizing n with
  | nil => rfl
  | cons c cs ih =>
    simp only [sip_calls_count_loop, if_true, ih, List.length_cons]
    congr 1
    omega

theorem call_next_chain_all (l : List sip_call) (i : Nat) :
    call_next_chain (fun _ => some 0) l i = some (if l = [] then none else some i) := by
  cases l with
  | nil => rfl
  | cons c cs => simp [call_next_chain]

/-- C15: when the option `filter.enable` is not enabled and `is_ignored_value` is
false for every name and value, `sip_check_call_ignore` returns 0 for every
call, whatever attributes it has or lacks; `sip_calls_count` is then the number
of calls of the store, `call_get_next(NULL)` is the first call of the store and
`call_get_next(cur)` the call right after `cur`, `NULL` after the last one. -/
theorem sip_check_call_ignore_off (env : Env) (flt : Filters) (calls : Store)
    (hoff : env.is_option_enabled "filter.enable" = false)
    (hign : ∀ name value, flt.is_ignored_value name value = false) :
    (∀ call, sip_check_call_ignore env flt call = some 0)
    ∧ sip_calls_count env flt calls = some calls.length
    ∧ call_get_next env flt calls none = some (if calls = [] then none else some 0)
    ∧ ∀ i, call_get_next env flt calls (some i)
        = some (if i + 1 < calls.length then some (i + 1) else none) := by
  have h0 : ∀ call, sip_check_call_ignore env flt call = some 0 := by
    intro call
    have hs : ignored_value_scan flt call attrs = false :=
      (ignored_value_scan_false flt call attrs).2 (fun hdr _ => hign _ _)
    simp [sip_check_call_ignore, hs, hoff]
  have hf : sip_check_call_ignore env flt = fun _ => some 0 := funext h0
  refine ⟨h0, ?_, ?_, ?_⟩
  · simp [sip_calls_count, hf, sip_calls_count_loop_all]
  · simp [call_get_next, call_get_next_with, hf, call_next_chain_all]
  · intro i
    simp only [call_get_next, call_get_next_with, hf, call_next_chain_all]
    by_cases hi : i + 1 < calls.length
    · have hne : List.drop (i + 1) calls ≠ [] := by
        simp only [ne_eq, List.drop_eq_nil_iff, not_le]
        exact hi
      simp [hne, hi]
    · have he : List.drop (i + 1) calls = [] := by
        simp only [List.drop_eq_nil_iff]
        omega
      simp [he, hi]

/-- Witness of C15: the sample store of two calls, no filter, no ignored
value. -/
theorem sip_check_call_ignore_off_witness :
    sip_calls_count (sample_env 0) no_filters (sip_load_all [] sample_records) = some 2
    ∧ call_get_next (sample_env 0) no_filters (sip_load_all [] sample_records) none
        = some (some 0)
    ∧ call_get_next (sample_env 0) no_filters (sip_load_all [] sample_records) (some 0)
        = some (some 1)
    ∧ sip_calls_count (sample_env 0) no_filters (sip_load_all [] sample_records)
        = some (sip_load_all [] sample_records).length :=
  ⟨by decide, by decide, by decide,
   (sip_check_call_ignore_off (sample_env 0) no_filters (sip_load_all [] sample_records)
      (by decide) (fun _ _ => rfl)).2.1⟩

theorem ignored_value_scan_true (flt : Filters) (call : sip_call) (l : List sip_attr_hdr)
    (hdr : sip_attr_hdr) (hmem : hdr ∈ l)
    (h : flt.is_ignored_value hdr.name (call_get_attribute call hdr.id) = true) :
    ignored_value_scan flt call l = true := by
  cases hs : ignored_value_scan flt call l with
  | true => rfl
  | false =>
    have := (ignored_value_scan_false flt call l).1 hs hdr hmem
    rw [h] at this
    exact absurd this (by simp)

/-- The filter tests on a call whose `STARTING` fits the buffer
`filter_option`: for a call whose `SIPFROM`, `SIPTO`, `SRC`, `DST` and
`STARTING` are present, `STARTING` of at most 72 characters, with
`filter.enable` on and no value of the call ignored, `sip_check_call_ignore`
returns 1 if and only if `filter.sipfrom` is set, not empty and not a substring
of `SIPFROM`, or so `filter.sipto` for `SIPTO`, or `filter.src` is set, not
empty and not an initial part of `SRC` ignoring letter case, or so `filter.dst`
for `DST`, or the option `filter.<STARTING>` is not enabled; it returns 0
otherwise. The values of `filter.src` and `filter.dst` are C strings: no
character of them is NUL. And for every call and every setting of the options,
it returns 1 when the value of some attribute of the table is an ignored value
for the name of that attribute. -/
theorem sip_check_call_ignore_filters (env : Env) (flt : Filters) (call : sip_call)
    (sipfrom sipto src dst starting : CStr)
    (hen : env.is_option_enabled "filter.enable" = true)
    (hign : ∀ hdr ∈ attrs,
      flt.is_ignored_value hdr.name (call_get_attribute call hdr.id) = false)
    (h1 : call_get_attribute call SIP_ATTR_SIPFROM = some sipfrom)
    (h2 : call_get_attribute call SIP_ATTR_SIPTO = some sipto)
    (h3 : call_get_attribute call SIP_ATTR_SRC = some src)
    (h4 : call_get_attribute call SIP_ATTR_DST = some dst)
    (h5 : call_get_attribute call SIP_ATTR_STARTING = some starting)
    (hlen : starting.length ≤ 72)
    (hsrc : ∀ f, flt.get_option_value "filter.src" = some f → ∀ c ∈ f, c.toNat ≠ 0)
    (hdst : ∀ f, flt.get_option_value "filter.dst" = some f → ∀ c ∈ f, c.toNat ≠ 0) :
    (sip_check_call_ignore env flt call = some 1
      ↔ substring_filter_fails (flt.get_option_value "filter.sipfrom") sipfrom
        ∨ substring_filter_fails (flt.get_option_value "filter.sipto") sipto
        ∨ initial_filter_fails (flt.get_option_value "filter.src") src
        ∨ initial_filter_fails (flt.get_option_value "filter.dst") dst
        ∨ env.is_option_enabled (String.mk ("filter.".toList ++ starting)) = false)
    ∧ (sip_check_call_ignore env flt call = some 1 ∨ sip_check_call_ignore env flt call = some 0)
    ∧ ∀ (env1 : Env) (flt1 : Filters) (call1 : sip_call) (hdr : sip_attr_hdr), hdr ∈ attrs →
        flt1.is_ignored_value hdr.name (call_get_attribute call1 hdr.id) = true →
        sip_check_call_ignore env1 flt1 call1 = some 1 := by
  have hs : ignored_value_scan flt call attrs = false :=
    (ignored_value_scan_false flt call attrs).2 hign
  obtain ⟨b1, e1, i1⟩ := filter_strstr_some (flt.get_option_value "filter.sipfrom") sipfrom
  obtain ⟨b2, e2, i2⟩ := filter_strstr_some (flt.get_option_value "filter.sipto") sipto
  obtain ⟨b3, e3, i3⟩ := filter_strncasecmp_some (flt.get_option_value "filter.src") src hsrc
  obtain ⟨b4, e4, i4⟩ := filter_strncasecmp_some (flt.get_option_value "filter.dst") dst hdst
  have hval : sip_check_call_ignore env flt call
      = filter_then (some b1) (filter_then (some b2) (filter_then (some b3)
          (filter_then (some b4)
            (if !env.is_option_enabled (String.mk ("filter.".toList ++ starting))
              then some 1 else some 0)))) := by
    have hfit : filter_option (some starting)
        = some (String.mk ("filter.".toList ++ starting)) := by
      have h7 : "filter.".toList.length = 7 := by decide
      simp only [filter_option, Option.getD_some]
      rw [if_pos (by rw [List.length_append, h7]; omega)]
    unfold sip_check_call_ignore
    simp only [hs, Bool.false_eq_true, if_false, hen, if_true, h1, h2, h3, h4, h5, e1, e2, e3,
      e4, hfit]
  refine ⟨?_, ?_, ?_⟩
  · rw [hval, ← i1, ← i2, ← i3, ← i4]
    cases b1 <;> cases b2 <;> cases b3 <;> cases b4 <;>
      cases env.is_option_enabled (String.mk ("filter.".toList ++ starting)) <;>
      simp [filter_then]
  · rw [hval]
    cases b1 <;> cases b2 <;> cases b3 <;> cases b4 <;>
      cases env.is_option_enabled (String.mk ("filter.".toList ++ starting)) <;>
      simp [filter_then]
  · intro env1 flt1 call1 hdr hmem hv
    unfold sip_check_call_ignore
    simp [ignored_value_scan_true flt1 call1 attrs hdr hmem hv]

/-- An instance of the filter tests: a call from `10.0.0.1:5060` with the filter
`filter.src` set to `10.0.0.9` is ignored, and is not ignored without that
filter. -/
theorem sip_check_call_ignore_filters_witness :
    (sip_check_call_ignore filter_env src_filters filter_call = some 1
      ↔ substring_filter_fails (src_filters.get_option_value "filter.sipfrom")
          "alice@hostA".toList
        ∨ substring_filter_fails (src_filters.get_option_value "filter.sipto") "bob@hostB".toList
        ∨ initial_filter_fails (src_filters.get_option_value "filter.src") "10.0.0.1:5060".toList
        ∨ initial_filter_fails (src_filters.get_option_value "filter.dst") "10.0.0.2:5060".toList
        ∨ filter_env.is_option_enabled (String.mk ("filter.".toList ++ "INVITE".toList)) = false)
    ∧ sip_check_call_ignore filter_env src_filters filter_call = some 1
    ∧ sip_check_call_ignore filter_env no_filters filter_call = some 0 :=
  ⟨(sip_check_call_ignore_filters filter_env src_filters filter_call
      "alice@hostA".toList "bob@hostB".toList "10.0.0.1:5060".toList "10.0.0.2:5060".toList
      "INVITE".toList (by decide) (by decide) (by decide) (by decide) (by decide) (by decide)
      (by decide) (by decide) (by decide) (by decide)).1,
   by decide, by decide⟩

/-! ## Walking the calls of the store -/

theorem call_next_chain_nearest (ign : sip_call → Int) (calls : Store) (l : List sip_call) :
    ∀ i, (∀ k, l.get? k = calls.get? (i + k)) →
      ∃ r, call_next_chain (fun c => some (ign c)) l i = some r ∧ nearest_after ign calls i r := by
  induction l with
  | nil =>
    intro i h
    refine ⟨none, rfl, ?_⟩
    intro k c hk hc
    have := h (k - i)
    rw [show i + (k - i) = k by omega, hc] at this
    simp at this
  | cons next rest ih =>
    intro i h
    have hnext : calls.get? i = some next := by
      have := h 0
      simpa using this.symm
    by_cases hz : ign next = 0
    · refine ⟨some i, by simp [call_next_chain, hz], le_refl _, ⟨next, hnext, hz⟩, ?_⟩
      intro k c hk1 hk2
      omega
    · obtain ⟨r, hr, hn⟩ := ih (i + 1) (fun k => by
        have := h (k + 1)
        simp only [List.get?_cons_succ] at this
        rw [this]
        congr 1
        omega)
      refine ⟨r, by simp [call_next_chain, hz, hr], ?_⟩
      cases r with
      | none =>
        intro k c hk hc
        by_cases hki : k = i
        · subst hki
          rw [hnext] at hc
          simp only [Option.some.injEq] at hc
          subst hc
          exact hz
        · exact hn k c (by omega) hc
      | some j =>
        obtain ⟨hj, hex, hall⟩ := hn
        refine ⟨by omega, hex, ?_⟩
        intro k c hk1 hk2 hc
        by_cases hki : k = i
        · subst hki
          rw [hnext] at hc
          simp only [Option.some.injEq] at hc
          subst hc
          exact hz
        · exact hall k c (by omega) hk2 hc

theorem get?_append_cons_self {α : Type} (pre : List α) (x : α) (post : List α) :
    (pre ++ x :: post).get? pre.length = some x := by
  induction pre with
  | nil => rfl
  | cons p ps ih => simpa using ih

theorem call_prev_chain_nearest (ign : sip_call → Int) (calls : Store) (l : List sip_call) :
    l.reverse <+: calls →
      ∃ r, call_prev_chain (fun c => some (ign c)) l = some r
        ∧ nearest_before ign calls l.length r := by
  induction l with
  | nil =>
    intro _
    refine ⟨none, rfl, ?_⟩
    intro k c hk
    simp at hk
  | cons prev before ih =>
    intro h
    obtain ⟨t, ht⟩ := h
    have hprev : calls.get? before.length = some prev := by
      have := get?_append_cons_self before.reverse prev t
      rw [List.length_reverse] at this
      rw [← ht, List.reverse_cons, List.append_assoc]
      exact this
    have hbefore : before.reverse <+: calls := ⟨prev :: t, by rw [← ht]; simp⟩
    by_cases hz : ign prev = 0
    · refine ⟨some before.length, by simp [call_prev_chain, hz], ?_⟩
      refine ⟨by simp, ⟨prev, hprev, hz⟩, ?_⟩
      intro k c hk1 hk2
      simp only [List.length_cons] at hk2
      omega
    · obtain ⟨r, hr, hn⟩ := ih hbefore
      refine ⟨r, by simp [call_prev_chain, hz, hr], ?_⟩
      cases r with
      | none =>
        intro k c hk hc
        simp only [List.length_cons] at hk
        by_cases hkb : k = before.length
        · subst hkb
          rw [hprev] at hc
          simp only [Option.some.injEq] at hc
          subst hc
          exact hz
        · exact hn k c (by omega) hc
      | some j =>
        obtain ⟨hj, hex, hall⟩ := hn
        refine ⟨by simp only [List.length_cons]; omega, hex, ?_⟩
        intro k c hk1 hk2 hc
        simp only [List.length_cons] at hk2
        by_cases hkb : k = before.length
        · subst hkb
          rw [hprev] at hc
          simp only [Option.some.injEq] at hc
          subst hc
          exact hz
        · exact hall k c hk1 (by omega) hc

theorem nearest_before_beyond (ign : sip_call → Int) (calls : Store) (i : Nat) (r : Option Nat)
    (h : nearest_before ign calls (min i calls.length) r) : nearest_before ign calls i r := by
  have hlt : ∀ k c, calls.get? k = some c → k < calls.length := by
    intro k c hc
    by_contra hk
    rw [List.get?_eq_none.2 (by omega)] at hc
    simp at hc
  cases r with
  | none =>
    intro k c hk hc
    exact h k c (by have := hlt k c hc; omega) hc
  | some j =>
    obtain ⟨hj, hex, hall⟩ := h
    refine ⟨by omega, hex, ?_⟩
    intro k c hk1 hk2 hc
    exact hall k c hk1 (by have := hlt k c hc; omega) hc

/-- C17: for every store and every test `ign` of the calls (a call is ignored
when the test is not 0), `call_get_next(NULL)` returns the first call of the
store that is not ignored, `call_get_next(cur)` the nearest call after `cur`
that is not ignored, `call_get_prev(cur)` the nearest call before `cur` that is
not ignored, and each returns `NULL` when there is no such call. The functions
are total: the recursion goes down the rest of the store, one call a step.
`call_get_next` and `call_get_prev` are these functions with
`sip_check_call_ignore` as the test. -/
theorem call_get_next_prev_nearest (ign : sip_call → Int) (calls : Store) (i : Nat) :
    (∃ r, call_get_next_with (fun c => some (ign c)) calls none = some r
      ∧ nearest_after ign calls 0 r)
    ∧ (∃ r, call_get_next_with (fun c => some (ign c)) calls (some i) = some r
      ∧ nearest_after ign calls (i + 1) r)
    ∧ (∃ r, call_get_prev_with (fun c => some (ign c)) calls (some i) = some r
      ∧ nearest_before ign calls i r)
    ∧ (∀ (env : Env) (flt : Filters) (cur : Option Nat),
        call_get_next env flt calls cur
          = call_get_next_with (sip_check_call_ignore env flt) calls cur
        ∧ call_get_prev env flt calls cur
          = call_get_prev_with (sip_check_call_ignore env flt) calls cur) := by
  refine ⟨?_, ?_, ?_, fun _ _ _ => ⟨rfl, rfl⟩⟩
  · exact call_next_chain_nearest ign calls calls 0 (fun k => by simp)
  · exact call_next_chain_nearest ign calls (calls.drop (i + 1)) (i + 1)
      (fun k => by simp [List.getElem?_drop])
  · obtain ⟨r, hr, hn⟩ := call_prev_chain_nearest ign calls (calls.take i).reverse
      (by rw [List.reverse_reverse]; exact List.take_prefix i calls)
    refine ⟨r, hr, nearest_before_beyond ign calls i r ?_⟩
    simpa [List.length_take] using hn


theorem call_prev_scan_found (l : List sip_msg) :
    ∀ (p d : Nat) (ret : Option Nat) (m : sip_msg), l.get? d = some m →
      call_prev_scan l p (p + d) ret = if d = 0 then ret else some (p + d - 1) := by
  induction l with
  | nil => intro p d ret m h; simp at h
  | cons x next ih =>
    intro p d ret m h
    cases d with
    | zero => simp [call_prev_scan]
    | succ d' =>
      simp only [List.get?_cons_succ] at h
      have hne : ¬ p = p + (d' + 1) := by omega
      simp only [call_prev_scan, hne, if_false]
      have := ih (p + 1) d' (some p) m h
      rw [show p + (d' + 1) = p + 1 + d' by omega, this]
      by_cases hd : d' = 0
      · simp [hd]
      · simp only [hd, if_false, Nat.add_one_ne_zero]

theorem get?_set_same {α : Type} (l : List α) (k : Nat) (x y : α) (h : l.get? k = some x) :
    (l.set k y).get? k = some y := by
  induction l generalizing k with
  | nil => simp at h
  | cons a as ih =>
    cases k with
    | zero => rfl
    | succ k => simpa using ih k (by simpa using h)

/-- The function `call_get_prev_msg` on the first message of a call. -/
theorem call_get_prev_msg_first (env : Env) (call : sip_call) (m : sip_msg)
    (hm : call.msgs.get? 0 = some m) : call_get_prev_msg env call (some 0) = (call, none) := by
  have h := call_prev_scan_found call.msgs 0 0 none m hm
  simp only [Nat.add_zero, if_true] at h
  simp only [call_get_prev_msg, h]

/-- The function `call_get_prev_msg` on a later message of a call: the message
before it is parsed, and returned when the parse succeeds. -/
theorem call_get_prev_msg_later (env : Env) (call : sip_call) (k : Nat) (m p : sip_msg)
    (hm : call.msgs.get? (k + 1) = some m) (hp : call.msgs.get? k = some p) :
    call_get_prev_msg env call (some (k + 1))
      = ({ call with msgs := call.msgs.set k (msg_parse env p).1 },
         if (msg_parse env p).2 then some k else none) := by
  have h := call_prev_scan_found call.msgs 0 (k + 1) none m hm
  simp only [Nat.zero_add, Nat.add_one_ne_zero, if_false, Nat.add_sub_cancel] at h
  simp only [call_get_prev_msg, h, hp]

theorem payload_lines_differ_false (a b : List CStr) :
    payload_lines_differ a b = false
      ↔ ∀ i x y, a.get? i = some x → b.get? i = some y → strcasecmp x y = 0 := by
  induction a generalizing b with
  | nil => simp [payload_lines_differ]
  | cons x xs ih =>
    cases b with
    | nil => simp [payload_lines_differ]
    | cons y ys =>
      simp only [payload_lines_differ]
      by_cases hxy : strcasecmp x y = 0
      · simp only [hxy, ne_eq, not_true_eq_false, if_false, ih]
        constructor
        · intro h i u v hu hv
          cases i with
          | zero =>
            simp only [List.get?_cons_zero, Option.some.injEq] at hu hv
            subst hu; subst hv
            exact hxy
          | succ i => exact h i u v (by simpa using hu) (by simpa using hv)
        · intro h i u v hu hv
          exact h (i + 1) u v (by simpa using hu) (by simpa using hv)
      · simp only [hxy, ne_eq, not_false_eq_true, if_true, Bool.true_eq_false, false_iff]
        intro h
        exact hxy (h 0 x y rfl rfl)

/-- The return value of `msg_is_retrans` for the first message of a call. -/
theorem msg_is_retrans_first (env : Env) (calls : Store) (cidx : Nat) (call : sip_call)
    (m : sip_msg) (hc : calls.get? cidx = some call) (hm : call.msgs.get? 0 = some m)
    (ho : m.call = some cidx) : (msg_is_retrans env calls (some m) 0).2 = 0 := by
  simp only [msg_is_retrans, ho, hc, call_get_prev_msg_first env call m hm, msg_at]

/-- The return value of `msg_is_retrans` for a later message `m` of a call,
with `p` the message before it. -/
theorem msg_is_retrans_later (env : Env) (calls : Store) (cidx k : Nat) (call : sip_call)
    (m p : sip_msg) (hc : calls.get? cidx = some call) (hm : call.msgs.get? (k + 1) = some m)
    (hp : call.msgs.get? k = some p) (ho : m.call = some cidx) :
    (msg_is_retrans env calls (some m) (k + 1)).2
      = if (msg_parse env p).2 = true ∧ m.plines = (msg_parse env p).1.plines
          ∧ payload_lines_differ m.payload (msg_parse env p).1.payload = false
        then 1 else 0 := by
  simp only [msg_is_retrans, ho, hc, call_get_prev_msg_later env call k m p hm hp]
  by_cases hok : (msg_parse env p).2 = true
  · simp only [hok, if_true, msg_at, get?_set_same call.msgs k p _ hp, true_and]
    by_cases hpl : m.plines = (msg_parse env p).1.plines
    · simp only [hpl, ne_eq, not_true_eq_false, if_false, true_and]
      cases payload_lines_differ m.payload (msg_parse env p).1.payload <;> simp
    · simp [hpl]
  · simp [hok, msg_at]


/-- C12 (as stated) fails. In `gap_store` the third message of the call has the
second one right before it, both hold no payload lines, so no line differs; the
second cannot be parsed and `msg_is_retrans` returns 0. In `triple_store` the
third and second messages hold the same text and the same (zero) stored lines
when the function is called, the second one is parsed by the call, and the
function returns 0. -/
theorem msg_is_retrans_counterexample :
    ((call_at gap_store 0).msgs.get? 2).map (fun m => m.call) = some (some 0)
      ∧ ((call_at gap_store 0).msgs.get? 2).map (fun m => m.plines) = some 0
      ∧ ((call_at gap_store 0).msgs.get? 1).map (fun p => p.plines) = some 0
      ∧ (msg_is_retrans (sample_env 0) gap_store ((call_at gap_store 0).msgs.get? 2) 2).2 = 0
      ∧ ((call_at triple_store 0).msgs.get? 2).map (fun m => m.call) = some (some 0)
      ∧ ((call_at triple_store 0).msgs.get? 2).map (fun m => m.payloadptr) = some sample_payload
      ∧ ((call_at triple_store 0).msgs.get? 1).map (fun p => p.payloadptr) = some sample_payload
      ∧ ((call_at triple_store 0).msgs.get? 2).map (fun m => m.plines) = some 0
      ∧ ((call_at triple_store 0).msgs.get? 1).map (fun p => p.plines) = some 0
      ∧ (msg_is_retrans (sample_env 0) triple_store ((call_at triple_store 0).msgs.get? 2) 2).2
        = 0 := by
  decide

/-- C12 (amended): for a message `m` at position `pos` of the call it points
to, `msg_is_retrans` returns 1 exactly when there is a message `p` right before
`m` in the call, `msg_parse` succeeds on `p`, the number of payload lines
stored in `m` equals that of the parsed `p`, and every stored line of `m`
equals the line of the parsed `p` at the same index ignoring case. Otherwise it
returns 0; so it does for the first message of a call and for a message with
no call. -/
theorem msg_is_retrans_iff (env : Env) (calls : Store) (cidx pos : Nat) (call : sip_call)
    (m : sip_msg) (hc : calls.get? cidx = some call) (hm : call.msgs.get? pos = some m)
    (ho : m.call = some cidx) :
    ((msg_is_retrans env calls (some m) pos).2 = 1
        ↔ ∃ k p, pos = k + 1 ∧ call.msgs.get? k = some p ∧ (msg_parse env p).2 = true
            ∧ m.plines = (msg_parse env p).1.plines
            ∧ ∀ i a b, m.payload.get? i = some a → (msg_parse env p).1.payload.get? i = some b
                → strcasecmp a b = 0)
      ∧ ((msg_is_retrans env calls (some m) pos).2 ≠ 1
          → (msg_is_retrans env calls (some m) pos).2 = 0)
      ∧ (pos = 0 → (msg_is_retrans env calls (some m) pos).2 = 0)
      ∧ (∀ (m0 : sip_msg) (pos0 : Nat), m0.call = none
          → (msg_is_retrans env calls (some m0) pos0).2 = 0)
      ∧ (∀ pos0 : Nat, (msg_is_retrans env calls none pos0).2 = 0) := by
  refine ⟨?_, ?_, ?_, ?_, ?_⟩
  · cases pos with
    | zero =>
      rw [msg_is_retrans_first env calls cidx call m hc hm ho]
      constructor
      · intro h; exact absurd h (by decide)
      · rintro ⟨k, p, hk, _⟩; omega
    | succ k =>
      have hlt : k < call.msgs.length := by
        have := List.get?_eq_some.1 hm
        obtain ⟨h1, _⟩ := this
        omega
      have hp : call.msgs.get? k = some (call.msgs.get ⟨k, hlt⟩) := List.get?_eq_get hlt
      rw [msg_is_retrans_later env calls cidx k call m _ hc hm hp ho]
      constructor
      · intro h
        by_cases hcond : (msg_parse env (call.msgs.get ⟨k, hlt⟩)).2 = true
            ∧ m.plines = (msg_parse env (call.msgs.get ⟨k, hlt⟩)).1.plines
            ∧ payload_lines_differ m.payload (msg_parse env (call.msgs.get ⟨k, hlt⟩)).1.payload
                = false
        · exact ⟨k, _, rfl, hp, hcond.1, hcond.2.1, (payload_lines_differ_false _ _).1 hcond.2.2⟩
        · rw [if_neg hcond] at h; exact absurd h (by decide)
      · rintro ⟨k0, p, hk, hp0, hok, hpl, hlines⟩
        have hkk : k0 = k := by omega
        subst hkk
        rw [hp] at hp0
        have hpp := Option.some.inj hp0
        rw [hpp]
        rw [if_pos ⟨hok, hpl, (payload_lines_differ_false _ _).2 hlines⟩]
  · intro hne
    cases pos with
    | zero => exact msg_is_retrans_first env calls cidx call m hc hm ho
    | succ k =>
      have hlt : k < call.msgs.length := by
        have := List.get?_eq_some.1 hm
        obtain ⟨h1, _⟩ := this
        omega
      have hp : call.msgs.get? k = some (call.msgs.get ⟨k, hlt⟩) := List.get?_eq_get hlt
      rw [msg_is_retrans_later env calls cidx k call m _ hc hm hp ho] at hne ⊢
      split_ifs with hcond
      · rw [if_pos hcond] at hne; exact absurd rfl hne
      · rfl
  · intro h0
    subst h0
    exact msg_is_retrans_first env calls cidx call m hc hm ho
  · intro m0 pos0 h0
    simp only [msg_is_retrans, h0]
  · intro pos0
    rfl

/-- C12 witness: in `twice_walked` the second message of the call is parsed and
equals the first line by line, and `msg_is_retrans` returns 1 for it. -/
theorem msg_is_retrans_iff_witness :
    (msg_is_retrans (sample_env 0) twice_walked ((call_at twice_walked 0).msgs.get? 1) 1).2 = 1
      ∧ ∃ m, (call_at twice_walked 0).msgs.get? 1 = some m
        ∧ ((msg_is_retrans (sample_env 0) twice_walked (some m) 1).2 = 1
            ↔ ∃ k p, 1 = k + 1 ∧ (call_at twice_walked 0).msgs.get? k = some p
                ∧ (msg_parse (sample_env 0) p).2 = true
                ∧ m.plines = (msg_parse (sample_env 0) p).1.plines
                ∧ ∀ i a b, m.payload.get? i = some a
                    → (msg_parse (sample_env 0) p).1.payload.get? i = some b
                    → strcasecmp a b = 0) :=
  ⟨by decide,
   ((call_at twice_walked 0).msgs.get ⟨1, by decide⟩),
   by decide,
   (msg_is_retrans_iff (sample_env 0) twice_walked 0 1 (call_at twice_walked 0)
      ((call_at twice_walked 0).msgs.get ⟨1, by decide⟩) (by decide) (by decide)
      (by decide)).1⟩


theorem payload_sdp_call (s : PayloadState) (pch : CStr) :
    (payload_sdp s pch).msg.call = s.msg.call := by
  unfold payload_sdp
  split_ifs <;> rfl

theorem payload_to_call (s : PayloadState) (pch : CStr) :
    (payload_to s pch).msg.call = s.msg.call := by
  unfold payload_to
  simp only []
  split_ifs
  · rfl
  · rw [payload_sdp_call]

theorem payload_from_call (s : PayloadState) (pch : CStr) :
    (payload_from s pch).msg.call = s.msg.call := by
  unfold payload_from
  simp only []
  split_ifs
  · rfl
  · rw [payload_to_call]

theorem payload_cseq_call (s : PayloadState) (pch : CStr) :
    (payload_cseq s pch).msg.call = s.msg.call := by
  unfold payload_cseq
  simp only []
  split_ifs
  · rfl
  · rfl
  · rfl
  · rw [payload_from_call]

theorem payload_status_call (s : PayloadState) (pch : CStr) :
    (payload_status s pch).msg.call = s.msg.call := by
  unfold payload_status
  simp only []
  split_ifs
  · rfl
  · rfl
  · rw [payload_cseq_call]

theorem payload_xcid_call (s : PayloadState) (pch : CStr) :
    (payload_xcid s pch).msg.call = s.msg.call := by
  unfold payload_xcid
  simp only []
  split_ifs
  · rfl
  · rw [payload_status_call]

theorem payload_xcallid_call (s : PayloadState) (pch : CStr) :
    (payload_xcallid s pch).msg.call = s.msg.call := by
  unfold payload_xcallid
  simp only []
  split_ifs
  · rfl
  · rw [payload_xcid_call]

theorem payload_step_call (s : PayloadState) (pch : CStr) :
    (payload_step s pch).msg.call = s.msg.call := by
  unfold payload_step
  simp only []
  split_ifs
  · rfl
  · rw [payload_xcallid_call]

theorem payload_foldl_call (ls : List CStr) (s : PayloadState) :
    (ls.foldl payload_step s).msg.call = s.msg.call := by
  induction ls generalizing s with
  | nil => rfl
  | cons l ls ih => rw [List.foldl_cons, ih, payload_step_call]

theorem msg_parse_header_call (env : Env) (m : sip_msg) (h : CStr) :
    (msg_parse_header env m h).1.call = m.call := by
  unfold msg_parse_header
  simp only []
  split_ifs <;> rfl

/-- The function `msg_parse` leaves the owner of the message as it is. -/
theorem msg_parse_call (env : Env) (m : sip_msg) : (msg_parse env m).1.call = m.call := by
  unfold msg_parse
  by_cases hp : m.parsed = true
  · simp only [hp, if_true]
  · by_cases h2 : (msg_parse_header env m m.headerptr).2 = 0
    · simp only [hp, h2, msg_parse_payload_ok, Bool.false_eq_true, if_false, ne_eq,
        not_true_eq_false, msg_parse_payload]
      rw [payload_foldl_call, msg_parse_header_call]
    · simp only [hp, h2, Bool.false_eq_true, if_false, ne_eq, not_false_eq_true, if_true]
      exact msg_parse_header_call env m m.headerptr

/-- The function `msg_parse` returns a message that was not parsed before when
`sscanf` on its header line returns non-zero. -/
theorem msg_parse_accepts (env : Env) (m : sip_msg) (hp : m.parsed = false)
    (hh : (sscanf m.headerptr "U %d/%d/%d %d:%d:%d.%d %s -> %s").1 ≠ 0) :
    (msg_parse env m).2 = true := by
  have h2 : (msg_parse_header env m m.headerptr).2 = 0 := by
    unfold msg_parse_header
    simp only [hh, ne_eq, not_false_eq_true, if_true]
  unfold msg_parse
  simp only [hp, h2, msg_parse_payload_ok, Bool.false_eq_true, if_false, ne_eq,
    not_true_eq_false]

theorem strcasecmp_self (l : CStr) : strcasecmp l l = 0 := by
  induction l with
  | nil => rfl
  | cons a as ih => simp [strcasecmp, ih]

theorem payload_lines_differ_self (l : List CStr) : payload_lines_differ l l = false := by
  induction l with
  | nil => rfl
  | cons a as ih => simp [payload_lines_differ, strcasecmp_self, ih]

theorem call_find_from_append (a : List sip_call) (c : sip_call) (k : Nat) (callid : CStr)
    (ha : ∀ x ∈ a, call_get_attribute x SIP_ATTR_CALLID ≠ some callid)
    (hc : call_get_attribute c SIP_ATTR_CALLID = some callid) :
    call_find_by_callid_from (a ++ [c]) k callid = some (k + a.length) := by
  induction a generalizing k with
  | nil => simp [call_find_by_callid_from, hc, strcmp]
  | cons x xs ih =>
    have hx := ha x (List.mem_cons_self _ _)
    have hxs : ∀ y ∈ xs, call_get_attribute y SIP_ATTR_CALLID ≠ some callid :=
      fun y hy => ha y (List.mem_cons_of_mem _ hy)
    simp only [List.cons_append, call_find_by_callid_from]
    cases hg : call_get_attribute x SIP_ATTR_CALLID with
    | none =>
      have h := ih (k + 1) hxs
      simp only [List.length_cons]
      rw [show k + (xs.length + 1) = k + 1 + xs.length by omega]
      exact h
    | some v =>
      have hv : v ≠ callid := by
        intro hv
        rw [hg, hv] at hx
        exact hx rfl
      simp only [strcmp, hv, if_false]
      rw [if_neg (by decide)]
      have h := ih (k + 1) hxs
      simp only [List.length_cons]
      rw [show k + (xs.length + 1) = k + 1 + xs.length by omega]
      exact h


theorem sip_load_attach_length (env : Env) (calls : Store) (cidx : Nat) (msg : sip_msg)
    (callid : CStr) : (sip_load_attach env calls cidx msg callid).1.length = calls.length := by
  unfold sip_load_attach
  cases calls.get? cidx with
  | none => rfl
  | some call => simp

theorem first_msg_of_attach_new (env : Env) (calls : Store) (msg0 m1 : sip_msg) (callid : CStr)
    (h : sip_load_attach env (calls ++ [{ attrs := [], msgs := [] }]) calls.length msg0 callid
      = (calls ++ [{ attrs := [], msgs := [m1] }], some m1)) :
    first_msg_parse env msg0 callid calls.length = (m1, true) := by
  rw [sip_load_attach_new] at h
  have h2 := (Prod.mk.inj h).2
  have h1 := List.append_cancel_left (Prod.mk.inj h).1
  have hm : (first_msg_parse env msg0 callid calls.length).1 = m1 := Option.some.inj h2
  cases hok : (first_msg_parse env msg0 callid calls.length).2 with
  | true => exact Prod.ext hm hok
  | false =>
    rw [hok] at h1
    simp at h1

/-- A record accepted as the first message of a new call: capture is on, the
payload has a Call-ID that no call of the store has, and the message is the
message created from the record as `call_add_message` parsed it. -/
theorem sip_load_message_first_inv (env : Env) (calls : Store) (h1 p1 : CStr) (m1 : sip_msg)
    (hfirst : sip_load_message env calls h1 p1
      = (calls ++ [{ attrs := [], msgs := [m1] }], some m1)) :
    env.is_option_enabled "sip.capture" = true
      ∧ ∃ callid msg0, sip_get_callid p1 = some callid
        ∧ call_find_by_callid calls callid = none
        ∧ first_msg_parse env msg0 callid calls.length = (m1, true)
        ∧ (msg0 = sip_msg_create h1 p1 ∨ msg0 = (msg_parse env (sip_msg_create h1 p1)).1) := by
  have hlen : (sip_load_message env calls h1 p1).1.length = calls.length + 1 := by
    rw [hfirst]; simp
  cases hcap : env.is_option_enabled "sip.capture" with
  | false =>
    rw [sip_load_message_off env calls h1 p1 hcap] at hlen
    simp at hlen
  | true =>
    refine ⟨rfl, ?_⟩
    cases hid : sip_get_callid p1 with
    | none =>
      rw [sip_load_message_noid env calls h1 p1 hid] at hlen
      simp at hlen
    | some callid =>
      cases hf : call_find_by_callid calls callid with
      | some cidx =>
        rw [sip_load_message_found env calls h1 p1 callid cidx hcap hid hf,
          sip_load_attach_length] at hlen
        omega
      | none =>
        by_cases hinc : env.get_option_int_value "sip.ignoreincomplete" = 0
        · rw [sip_load_message_new env calls h1 p1 callid hcap hid hf hinc] at hfirst
          exact ⟨callid, _, rfl, hf, first_msg_of_attach_new env calls _ m1 callid hfirst,
            Or.inl rfl⟩
        · cases hrej : method_rejected (msg_get_attribute
              (msg_parse_ptr env (some (sip_msg_create h1 p1))) SIP_ATTR_METHOD) with
          | true =>
            rw [sip_load_message_rejected env calls h1 p1 callid hcap hid hf hinc hrej] at hlen
            simp at hlen
          | false =>
            rw [sip_load_message_forced env calls h1 p1 callid hcap hid hf hinc hrej] at hfirst
            exact ⟨callid, _, rfl, hf, first_msg_of_attach_new env calls _ m1 callid hfirst,
              Or.inr rfl⟩

/-- The first message of a new call, as `call_add_message` parsed it: it is
parsed, the call is its owner, it has the Call-ID of the call, and its payload
lines are the lines of the payload of the record. -/
theorem first_msg_parse_fields (env : Env) (h1 p1 callid : CStr) (cidx : Nat)
    (msg0 m1 : sip_msg) (hfp : first_msg_parse env msg0 callid cidx = (m1, true))
    (h0 : msg0 = sip_msg_create h1 p1 ∨ msg0 = (msg_parse env (sip_msg_create h1 p1)).1) :
    m1.parsed = true ∧ m1.call = some cidx
      ∧ sip_attr_get m1.attrs SIP_ATTR_CALLID = some callid
      ∧ m1.payload = payload_lines p1 := by
  have hm : (first_msg_parse env msg0 callid cidx).1 = m1 := by rw [hfp]
  have hok : (first_msg_parse env msg0 callid cidx).2 = true := by rw [hfp]
  have hcreate : ∀ m, first_msg_parse env (sip_msg_create h1 p1) callid cidx = (m, true) →
      m.payload = payload_lines p1 := by
    intro m hfm
    have hm0 : (first_msg_parse env (sip_msg_create h1 p1) callid cidx).1 = m := by rw [hfm]
    have hok0 : (first_msg_parse env (sip_msg_create h1 p1) callid cidx).2 = true := by rw [hfm]
    rw [← hm0]
    unfold first_msg_parse at hok0 ⊢
    rw [msg_parse_payload_lines env _ hok0 rfl]
    rfl
  refine ⟨?_, ?_, ?_, ?_⟩
  · rw [← hm]
    exact msg_parse_parsed env _ hok
  · rw [← hm]
    unfold first_msg_parse
    rw [msg_parse_call]
  · rw [← hm]
    exact first_msg_parse_callid env msg0 callid cidx
  · rcases h0 with h0 | h0
    · subst h0
      exact hcreate m1 hfp
    · cases hr : (msg_parse env (sip_msg_create h1 p1)).2 with
      | false =>
        rw [msg_parse_failed env _ hr] at h0
        subst h0
        exact hcreate m1 hfp
      | true =>
        have hpar := msg_parse_parsed env _ hr
        have hpl := msg_parse_payload_lines env (sip_msg_create h1 p1) hr rfl
        rw [← hm, h0]
        unfold first_msg_parse
        rw [msg_parse_of_parsed env _ (by exact hpar)]
        simpa [msg_set_attribute, sip_msg_create] using hpl


/-- C11 (as stated) fails. Two records with the header line and the payload of
the scenario are loaded into the empty store; the first is accepted as the
first message of a new call. The message the second call returns is not parsed
and holds no payload lines, and `msg_is_retrans` returns 0 for it. -/
theorem msg_is_retrans_identical_counterexample :
    (sip_load_message (sample_env 0) [] sample_header sample_payload).1.length = 1
      ∧ call_msg_count
          (call_at (sip_load_message (sample_env 0) [] sample_header sample_payload).1 0) = 1
      ∧ (sip_load_message (sample_env 0)
            (sip_load_message (sample_env 0) [] sample_header sample_payload).1
            sample_header sample_payload).1 = twice_store
      ∧ (sip_load_message (sample_env 0)
            (sip_load_message (sample_env 0) [] sample_header sample_payload).1
            sample_header sample_payload).2 = (call_at twice_store 0).msgs.get? 1
      ∧ ((call_at twice_store 0).msgs.get? 1).map (fun m => m.parsed) = some false
      ∧ ((call_at twice_store 0).msgs.get? 1).map (fun m => m.plines) = some 0
      ∧ (msg_is_retrans (sample_env 0) twice_store ((call_at twice_store 0).msgs.get? 1) 1).2
        = 0 := by
  decide

/-- C11 (amended): a record is accepted as the first message `m1` of a new
call, and a second record whose header line `sscanf` accepts and whose payload
has the same lines is loaded. Then the second call adds a message `m2` to the
same call and returns it; `m2` is not parsed and `msg_is_retrans` returns 0 for
it; `call_get_next_msg` on the first message parses `m2`, and `msg_is_retrans`
returns 1 for the parsed message. -/
theorem msg_is_retrans_identical (env : Env) (calls : Store) (h1 p1 h2 p2 : CStr) (m1 : sip_msg)
    (hfirst : sip_load_message env calls h1 p1
      = (calls ++ [{ attrs := [], msgs := [m1] }], some m1))
    (hhdr : (sscanf h2 "U %d/%d/%d %d:%d:%d.%d %s -> %s").1 ≠ 0)
    (hlines : payload_lines p2 = payload_lines p1) :
    ∃ m2, sip_load_message env (calls ++ [{ attrs := [], msgs := [m1] }]) h2 p2
          = (calls ++ [{ attrs := [], msgs := [m1, m2] }], some m2)
      ∧ m2.parsed = false
      ∧ (msg_is_retrans env (calls ++ [{ attrs := [], msgs := [m1, m2] }]) (some m2) 1).2 = 0
      ∧ call_get_next_msg env { attrs := [], msgs := [m1, m2] } (some 0)
          = ({ attrs := [], msgs := [m1, (msg_parse env m2).1] }, some 1)
      ∧ (msg_is_retrans env (calls ++ [{ attrs := [], msgs := [m1, (msg_parse env m2).1] }])
          (some (msg_parse env m2).1) 1).2 = 1 := by
  obtain ⟨hcap, callid, msg0, hid, hf, hfp, h0⟩ :=
    sip_load_message_first_inv env calls h1 p1 m1 hfirst
  obtain ⟨hpar, hcall, hcid, hpay⟩ :=
    first_msg_parse_fields env h1 p1 callid calls.length msg0 m1 hfp h0
  have hne : payload_lines p1 ≠ [] := by
    intro hnil
    unfold sip_get_callid at hid
    rw [hnil] at hid
    exact absurd hid (by simp [sip_get_callid_go])
  have hid2 : sip_get_callid p2 = some callid := by
    unfold sip_get_callid at hid ⊢
    rw [hlines]
    exact hid
  have hc1 : call_get_attribute { attrs := [], msgs := [m1] } SIP_ATTR_CALLID = some callid := by
    simp only [call_get_attribute, msg_get_attribute, List.head?_cons]
    rw [if_neg (by decide), if_neg (by decide)]
    exact hcid
  have hfind : call_find_by_callid (calls ++ [{ attrs := [], msgs := [m1] }]) callid
      = some calls.length := by
    have := call_find_from_append calls { attrs := [], msgs := [m1] } 0 callid
      (call_find_from_none calls 0 callid hf) hc1
    simpa [call_find_by_callid] using this
  have hm2 : ∀ m2 : sip_msg, m2.headerptr = h2 → m2.payloadptr = p2 → m2.parsed = false
      → m2.payload = [] → m2.call = some calls.length →
      m2.parsed = false
      ∧ (msg_is_retrans env (calls ++ [{ attrs := [], msgs := [m1, m2] }]) (some m2) 1).2 = 0
      ∧ call_get_next_msg env { attrs := [], msgs := [m1, m2] } (some 0)
          = ({ attrs := [], msgs := [m1, (msg_parse env m2).1] }, some 1)
      ∧ (msg_is_retrans env (calls ++ [{ attrs := [], msgs := [m1, (msg_parse env m2).1] }])
          (some (msg_parse env m2).1) 1).2 = 1 := by
    intro m2 hh hp hpd hpl hcl
    have hok : (msg_parse env m2).2 = true := msg_parse_accepts env m2 hpd (by rw [hh]; exact hhdr)
    have hpl2 : (msg_parse env m2).1.payload = payload_lines p1 := by
      rw [msg_parse_payload_lines env m2 hok hpd, hpl, hp, hlines]
      rfl
    have hm1 : msg_parse env m1 = (m1, true) := msg_parse_of_parsed env m1 hpar
    have hlen1 : 0 < m1.plines := by
      unfold sip_msg.plines
      rw [hpay]
      exact List.length_pos.2 hne
    refine ⟨hpd, ?_, ?_, ?_⟩
    · rw [msg_is_retrans_later env _ calls.length 0 { attrs := [], msgs := [m1, m2] } m2 m1
        (get?_append_length calls _) rfl rfl hcl]
      rw [hm1]
      have : m2.plines ≠ m1.plines := by
        unfold sip_msg.plines at hlen1 ⊢
        rw [hpl]
        simp only [List.length_nil]
        omega
      simp [this]
    · simp only [call_get_next_msg, List.get?_cons_succ, List.get?_cons_zero, hok, if_true]
      rfl
    · rw [msg_is_retrans_later env _ calls.length 0
        { attrs := [], msgs := [m1, (msg_parse env m2).1] } (msg_parse env m2).1 m1
        (get?_append_length calls _) rfl rfl (by rw [msg_parse_call]; exact hcl)]
      rw [hm1]
      have e1 : (msg_parse env m2).1.plines = m1.plines := by
        unfold sip_msg.plines
        rw [hpl2, hpay]
      have e2 : payload_lines_differ (msg_parse env m2).1.payload m1.payload = false := by
        rw [hpl2, hpay]
        exact payload_lines_differ_self _
      simp [e1, e2]
  refine ⟨{ (msg_set_attribute (sip_msg_create h2 p2) SIP_ATTR_CALLID callid) with
      call := some calls.length }, ?_, hm2 _ rfl rfl rfl rfl rfl⟩
  rw [sip_load_message_found env _ h2 p2 callid calls.length hcap hid2 hfind,
    sip_load_attach_some env _ _ _ _ _ (get?_append_length calls _), set_append_length]
  rfl

/-- C11 witness: the header line and the payload of the scenario, loaded twice
into the empty store. -/
theorem msg_is_retrans_identical_witness :
    sip_load_message (sample_env 0) [] sample_header sample_payload
        = ([] ++ [{ attrs := [], msgs := [sample_first_msg] }], some sample_first_msg)
      ∧ (sscanf sample_header "U %d/%d/%d %d:%d:%d.%d %s -> %s").1 ≠ 0
      ∧ ∃ m2, sip_load_message (sample_env 0) ([] ++ [{ attrs := [], msgs := [sample_first_msg] }])
            sample_header sample_payload
          = ([] ++ [{ attrs := [], msgs := [sample_first_msg, m2] }], some m2)
        ∧ m2.parsed = false
        ∧ (msg_is_retrans (sample_env 0) ([] ++ [{ attrs := [], msgs := [sample_first_msg, m2] }])
            (some m2) 1).2 = 0
        ∧ call_get_next_msg (sample_env 0) { attrs := [], msgs := [sample_first_msg, m2] } (some 0)
          = ({ attrs := [], msgs := [sample_first_msg, (msg_parse (sample_env 0) m2).1] }, some 1)
        ∧ (msg_is_retrans (sample_env 0)
            ([] ++ [{ attrs := [], msgs := [sample_first_msg, (msg_parse (sample_env 0) m2).1] }])
            (some (msg_parse (sample_env 0) m2).1) 1).2 = 1 :=
  ⟨by decide, by decide,
   msg_is_retrans_identical (sample_env 0) [] sample_header sample_payload sample_header
     sample_payload sample_first_msg (by decide) (by decide) rfl⟩


theorem sip_attr_replace_present (l : sip_attr_list) (id : sip_attr_id) (v : CStr)
    (h : id ∈ l.map Prod.fst) :
    ∃ a w b, l = a ++ (id, w) :: b ∧ id ∉ a.map Prod.fst
      ∧ sip_attr_replace l id v = some (a ++ (id, v) :: b) := by
  induction l with
  | nil => simp at h
  | cons e l ih =>
    obtain ⟨i, w⟩ := e
    by_cases hi : id = i
    · subst hi
      exact ⟨[], w, l, rfl, by simp, by simp [sip_attr_replace]⟩
    · have hl : id ∈ l.map Prod.fst := by
        simp only [List.map_cons, List.mem_cons] at h
        rcases h with h | h
        · exact absurd h hi
        · exact h
      obtain ⟨a, w0, b, hab, hna, hr⟩ := ih hl
      refine ⟨(i, w) :: a, w0, b, by rw [hab]; rfl, ?_, ?_⟩
      · simp only [List.map_cons, List.mem_cons, not_or]
        exact ⟨hi, hna⟩
      · simp [sip_attr_replace, hi, hr]

theorem sip_attr_replace_absent (l : sip_attr_list) (id : sip_attr_id) (v : CStr)
    (h : id ∉ l.map Prod.fst) : sip_attr_replace l id v = none := by
  induction l with
  | nil => rfl
  | cons e l ih =>
    obtain ⟨i, w⟩ := e
    simp only [List.map_cons, List.mem_cons, not_or] at h
    simp [sip_attr_replace, h.1, ih h.2]

theorem sip_attr_set_present (l : sip_attr_list) (id : sip_attr_id) (v : CStr)
    (h : id ∈ l.map Prod.fst) :
    ∃ a w b, l = a ++ (id, w) :: b ∧ id ∉ a.map Prod.fst
      ∧ sip_attr_set l id v = a ++ (id, v) :: b := by
  obtain ⟨a, w, b, hab, hna, hr⟩ := sip_attr_replace_present l id v h
  exact ⟨a, w, b, hab, hna, by simp [sip_attr_set, hr]⟩

theorem sip_attr_set_absent (l : sip_attr_list) (id : sip_attr_id) (v : CStr)
    (h : id ∉ l.map Prod.fst) : sip_attr_set l id v = (id, v) :: l := by
  simp [sip_attr_set, sip_attr_replace_absent l id v h]

theorem sip_attr_set_ids (l : sip_attr_list) (id : sip_attr_id) (v : CStr)
    (h : id ∈ l.map Prod.fst) : (sip_attr_set l id v).map Prod.fst = l.map Prod.fst := by
  obtain ⟨a, w, b, hab, -, hs⟩ := sip_attr_set_present l id v h
  rw [hs, hab]
  simp

theorem sip_attr_set_nodup (l : sip_attr_list) (id : sip_attr_id) (v : CStr)
    (h : (l.map Prod.fst).Nodup) : ((sip_attr_set l id v).map Prod.fst).Nodup := by
  by_cases hid : id ∈ l.map Prod.fst
  · rw [sip_attr_set_ids l id v hid]
    exact h
  · rw [sip_attr_set_absent l id v hid]
    simp only [List.map_cons, List.nodup_cons]
    exact ⟨hid, h⟩

theorem sip_attr_set_all_nodup (sets : List (sip_attr_id × CStr)) (l : sip_attr_list)
    (h : (l.map Prod.fst).Nodup) : ((sip_attr_set_all l sets).map Prod.fst).Nodup := by
  induction sets generalizing l with
  | nil => exact h
  | cons p ps ih => exact ih _ (sip_attr_set_nodup l p.1 p.2 h)

/-- C21: for every attribute list `L`, ids `i` and `j` of the catalog with `i`
different from `j`, and string `v`: `sip_attr_get(sip_attr_set(L, i, v), i)` is
`v`, `sip_attr_get(sip_attr_set(L, i, v), j)` is `sip_attr_get(L, j)`, and
`sip_attr_get` on the empty list is `NULL` for every id. -/
theorem sip_attr_get_set (L : sip_attr_list) (i j : sip_attr_id) (v : CStr) (hij : i ≠ j) :
    sip_attr_get (sip_attr_set L i v) i = some v
    ∧ sip_attr_get (sip_attr_set L i v) j = sip_attr_get L j
    ∧ ∀ id, sip_attr_get [] id = none :=
  ⟨sip_attr_get_set_same L i v, sip_attr_get_set_other L i j v (fun h => hij h.symm),
   fun _ => rfl⟩

/-- Witness of C21: in a list that holds `CSEQ` = `1`, setting `CSEQ` to `2`
makes `sip_attr_get` return `2` for `CSEQ` and leaves `METHOD` as it was. -/
theorem sip_attr_get_set_witness :
    sip_attr_get sample_attrs SIP_ATTR_METHOD = some "INVITE".toList
    ∧ sip_attr_get (sip_attr_set sample_attrs SIP_ATTR_CSEQ "2".toList) SIP_ATTR_CSEQ
        = some "2".toList
    ∧ sip_attr_get (sip_attr_set sample_attrs SIP_ATTR_CSEQ "2".toList) SIP_ATTR_METHOD
        = sip_attr_get sample_attrs SIP_ATTR_METHOD :=
  ⟨by decide,
   (sip_attr_get_set sample_attrs SIP_ATTR_CSEQ SIP_ATTR_METHOD "2".toList (by decide)).1,
   (sip_attr_get_set sample_attrs SIP_ATTR_CSEQ SIP_ATTR_METHOD "2".toList (by decide)).2.1⟩

/-- C22: starting from the empty list, after every sequence of `sip_attr_set`
calls no two entries of the list have the same id, and `sip_attr_set` keeps
that property of any list. Setting an id that is present replaces the value of
the first entry for that id and nothing else: the length of the list and the
order of its ids are unchanged. Setting an id that is not present gives the old
list with the new entry in front. -/
theorem sip_attr_set_one_entry (sets : List (sip_attr_id × CStr)) (L : sip_attr_list)
    (id : sip_attr_id) (v : CStr) :
    ((sip_attr_set_all [] sets).map Prod.fst).Nodup
    ∧ ((L.map Prod.fst).Nodup → ((sip_attr_set L id v).map Prod.fst).Nodup)
    ∧ (id ∈ L.map Prod.fst →
        (sip_attr_set L id v).length = L.length
        ∧ (sip_attr_set L id v).map Prod.fst = L.map Prod.fst
        ∧ ∃ a w b, L = a ++ (id, w) :: b ∧ id ∉ a.map Prod.fst
            ∧ sip_attr_set L id v = a ++ (id, v) :: b)
    ∧ (id ∉ L.map Prod.fst → sip_attr_set L id v = (id, v) :: L) := by
  refine ⟨sip_attr_set_all_nodup sets [] List.nodup_nil, sip_attr_set_nodup L id v, ?_,
    sip_attr_set_absent L id v⟩
  intro hid
  refine ⟨?_, sip_attr_set_ids L id v hid, sip_attr_set_present L id v hid⟩
  have h := congrArg List.length (sip_attr_set_ids L id v hid)
  simpa using h

/-- Witness of C22: in the sample list, setting `CSEQ`, which is present,
changes the value of its entry in place, and setting `SDP`, which is not
present, puts a new entry in front. -/
theorem sip_attr_set_one_entry_witness :
    (sample_attrs.map Prod.fst).Nodup
    ∧ SIP_ATTR_CSEQ ∈ sample_attrs.map Prod.fst
    ∧ SIP_ATTR_SDP ∉ sample_attrs.map Prod.fst
    ∧ ((sip_attr_set sample_attrs SIP_ATTR_CSEQ "2".toList).map Prod.fst).Nodup
    ∧ (sip_attr_set sample_attrs SIP_ATTR_CSEQ "2".toList).map Prod.fst
        = sample_attrs.map Prod.fst
    ∧ sip_attr_set sample_attrs SIP_ATTR_SDP "1".toList
        = (SIP_ATTR_SDP, "1".toList) :: sample_attrs :=
  ⟨by decide, by decide, by decide,
   (sip_attr_set_one_entry [] sample_attrs SIP_ATTR_CSEQ "2".toList).2.1 (by decide),
   ((sip_attr_set_one_entry [] sample_attrs SIP_ATTR_CSEQ "2".toList).2.2.1 (by decide)).2.1,
   (sip_attr_set_one_entry [] sample_attrs SIP_ATTR_SDP "1".toList).2.2.2 (by decide)⟩


theorem strcasecmp_eq_zero (a b : CStr) (ha : ∀ c ∈ a, c.toNat ≠ 0) (hb : ∀ c ∈ b, c.toNat ≠ 0) :
    strcasecmp a b = 0 ↔ a.map tolower = b.map tolower := by
  induction a generalizing b with
  | nil =>
    cases b with
    | nil => simp [strcasecmp]
    | cons y ys =>
      have hy : tolower y ≠ 0 := fun h => hb y (List.mem_cons_self _ _) ((tolower_eq_zero y).1 h)
      simp only [strcasecmp, List.map_nil, List.map_cons]
      constructor
      · intro h; omega
      · intro h; simp at h
  | cons x xs ih =>
    have hx : tolower x ≠ 0 := fun h => ha x (List.mem_cons_self _ _) ((tolower_eq_zero x).1 h)
    cases b with
    | nil =>
      simp only [strcasecmp, List.map_nil, List.map_cons]
      constructor
      · intro h; omega
      · intro h; simp at h
    | cons y ys =>
      have ih1 := ih ys (fun c hc => ha c (List.mem_cons_of_mem _ hc))
        (fun c hc => hb c (List.mem_cons_of_mem _ hc))
      simp only [strcasecmp, List.map_cons, List.cons.injEq]
      by_cases hxy : tolower x = tolower y
      · simp only [hxy, if_true, true_and]
        exact ih1
      · simp only [hxy, if_false, false_and, iff_false]
        omega

theorem sip_attr_from_name_from_found (value : sip_attr_id → Int) (t : List sip_attr_hdr)
    (name : CStr) (hdr : sip_attr_hdr) (hmem : hdr ∈ t)
    (hmatch : strcasecmp name hdr.name.toList = 0)
    (huniq : ∀ h ∈ t, strcasecmp name h.name.toList = 0 → h.id = hdr.id) :
    sip_attr_from_name_from value t name = value hdr.id := by
  induction t with
  | nil => simp at hmem
  | cons h0 rest ih =>
    simp only [sip_attr_from_name_from]
    by_cases h0m : strcasecmp name h0.name.toList = 0
    · rw [if_pos h0m, huniq h0 (List.mem_cons_self _ _) h0m]
    · rw [if_neg h0m]
      have hr : hdr ∈ rest := by
        rcases List.mem_cons.1 hmem with h | h
        · rw [h] at hmatch
          exact absurd hmatch h0m
        · exact h
      exact ih hr (fun h hh => huniq h (List.mem_cons_of_mem _ hh))

theorem sip_attr_from_name_from_none (value : sip_attr_id → Int) (t : List sip_attr_hdr)
    (name : CStr) (h : ∀ hdr ∈ t, strcasecmp name hdr.name.toList ≠ 0) :
    sip_attr_from_name_from value t name = 0 := by
  induction t with
  | nil => rfl
  | cons h0 rest ih =>
    simp only [sip_attr_from_name_from]
    rw [if_neg (h h0 (List.mem_cons_self _ _))]
    exact ih (fun hdr hh => h hdr (List.mem_cons_of_mem _ hh))

theorem attrs_names_distinct :
    ∀ h1 ∈ attrs, ∀ h2 ∈ attrs,
      h1.name.toList.map tolower = h2.name.toList.map tolower → h1.id = h2.id := by
  decide

theorem attrs_names_nul_free : ∀ h ∈ attrs, ∀ c ∈ h.name.toList, c.toNat ≠ 0 := by
  decide

theorem sip_attr_get_header_id (id : sip_attr_id) :
    ∃ hdr, sip_attr_get_header id = some hdr ∧ hdr ∈ attrs ∧ hdr.id = id := by
  cases id <;> exact ⟨_, rfl, by decide, rfl⟩


/-- C23: for each of the 13 ids, whatever numbers `value` the enumerators have:
`sip_attr_get_header(id)` is the entry of the table whose `id` field is `id`,
`sip_attr_get_name` and `sip_attr_get_description` return the name and the
description of that entry, `sip_attr_from_name` of that name is `id`, and so is
`sip_attr_from_name` of every string equal to the name ignoring letter case
(`CSEQ`, `cseq` and `CSeq` all give `CSEQ`). For a name that equals no name of
the table ignoring case `sip_attr_from_name` returns 0, which differs from
every id when no enumerator has the number 0. -/
theorem sip_attr_from_name_get_name (value : sip_attr_id → Int) (id : sip_attr_id) :
    (∃ hdr, sip_attr_get_header id = some hdr ∧ hdr ∈ attrs ∧ hdr.id = id
      ∧ sip_attr_get_name id = some hdr.name
      ∧ sip_attr_get_description id = some hdr.desc
      ∧ sip_attr_from_name value hdr.name.toList = value id
      ∧ ∀ name : CStr, (∀ c ∈ name, c.toNat ≠ 0) → strcasecmp name hdr.name.toList = 0 →
          sip_attr_from_name value name = value id)
    ∧ attrs.length = 13
    ∧ sip_attr_from_name value "CSEQ".toList = value SIP_ATTR_CSEQ
    ∧ sip_attr_from_name value "cseq".toList = value SIP_ATTR_CSEQ
    ∧ sip_attr_from_name value "CSeq".toList = value SIP_ATTR_CSEQ
    ∧ (∀ name : CStr, (∀ hdr ∈ attrs, strcasecmp name hdr.name.toList ≠ 0) →
        sip_attr_from_name value name = 0
        ∧ ((∀ i, value i ≠ 0) → ∀ i, sip_attr_from_name value name ≠ value i)) := by
  have hcase : ∀ (hdr : sip_attr_hdr), hdr ∈ attrs → ∀ name : CStr, (∀ c ∈ name, c.toNat ≠ 0) →
      strcasecmp name hdr.name.toList = 0 → sip_attr_from_name value name = value hdr.id := by
    intro hdr hmem name hnul hmatch
    refine sip_attr_from_name_from_found value attrs name hdr hmem hmatch ?_
    intro h hh hm
    have e1 := (strcasecmp_eq_zero name _ hnul (attrs_names_nul_free h hh)).1 hm
    have e2 := (strcasecmp_eq_zero name _ hnul (attrs_names_nul_free hdr hmem)).1 hmatch
    exact attrs_names_distinct h hh hdr hmem (e1.symm.trans e2)
  refine ⟨?_, rfl, ?_, ?_, ?_, ?_⟩
  · obtain ⟨hdr, hget, hmem, hid⟩ := sip_attr_get_header_id id
    refine ⟨hdr, hget, hmem, hid, ?_, ?_, ?_, ?_⟩
    · simp only [sip_attr_get_name, hget]
    · simp only [sip_attr_get_description, hget]
    · rw [← hid]
      exact hcase hdr hmem _ (attrs_names_nul_free hdr hmem) (strcasecmp_self _)
    · intro name hnul hmatch
      rw [← hid]
      exact hcase hdr hmem name hnul hmatch
  · exact hcase ⟨SIP_ATTR_CSEQ, "CSeq", "CSeq"⟩ (by decide) _ (by decide) (by decide)
  · exact hcase ⟨SIP_ATTR_CSEQ, "CSeq", "CSeq"⟩ (by decide) _ (by decide) (by decide)
  · exact hcase ⟨SIP_ATTR_CSEQ, "CSeq", "CSeq"⟩ (by decide) _ (by decide) (by decide)
  · intro name hno
    have h0 : sip_attr_from_name value name = 0 :=
      sip_attr_from_name_from_none value attrs name hno
    refine ⟨h0, ?_⟩
    intro hval i
    rw [h0]
    exact fun h => hval i h.symm

/-- Witness of C23: with the ids numbered from 1, the name `callerid` is no
name of the table, `sip_attr_from_name` returns 0 for it, and 0 is the number
of no id; `SipFrom` gives `SIPFROM`. -/
theorem sip_attr_from_name_get_name_witness :
    sip_attr_from_name value_from_one "callerid".toList = 0
    ∧ (∀ i, sip_attr_from_name value_from_one "callerid".toList ≠ value_from_one i)
    ∧ sip_attr_from_name value_from_one "SipFrom".toList = value_from_one SIP_ATTR_SIPFROM
    ∧ sip_attr_get_name SIP_ATTR_SIPFROM = some "sipfrom" :=
  ⟨((sip_attr_from_name_get_name value_from_one SIP_ATTR_SIPFROM).2.2.2.2.2
      "callerid".toList (by decide)).1,
   ((sip_attr_from_name_get_name value_from_one SIP_ATTR_SIPFROM).2.2.2.2.2
      "callerid".toList (by decide)).2 (by intro i; cases i <;> decide),
   by decide, by decide⟩


theorem call_find_by_callid_from_shift (l : List sip_call) (i : Nat) (v : CStr) :
    call_find_by_callid_from l i v = (call_find_by_callid_from l 0 v).map (fun j => j + i) := by
  induction l generalizing i with
  | nil => rfl
  | cons c l ih =>
    simp only [call_find_by_callid_from]
    cases call_get_attribute c SIP_ATTR_CALLID with
    | none =>
      simp only []
      rw [ih (i + 1), ih (0 + 1)]
      cases call_find_by_callid_from l 0 v with
      | none => rfl
      | some j => simp only [Option.map_some']; congr 1; omega
    | some w =>
      simp only []
      split_ifs
      · simp
      · rw [ih (i + 1), ih (0 + 1)]
        cases call_find_by_callid_from l 0 v with
        | none => rfl
        | some j => simp only [Option.map_some']; congr 1; omega

theorem call_find_by_callid_first (calls : Store) (v : CStr) :
    first_call_with SIP_ATTR_CALLID v calls (call_find_by_callid calls v) := by
  unfold call_find_by_callid
  induction calls with
  | nil =>
    simp [call_find_by_callid_from, first_call_with]
  | cons c l ih =>
    simp only [call_find_by_callid_from]
    by_cases hc : call_get_attribute c SIP_ATTR_CALLID = some v
    · simp only [hc, strcmp, if_true]
      refine ⟨⟨c, rfl, hc⟩, ?_⟩
      intro k c0 hk
      omega
    · have hstep : (match call_get_attribute c SIP_ATTR_CALLID with
          | some cur_callid =>
            if strcmp cur_callid v = 0 then some 0 else call_find_by_callid_from l (0 + 1) v
          | none => call_find_by_callid_from l (0 + 1) v)
          = call_find_by_callid_from l (0 + 1) v := by
        cases hg : call_get_attribute c SIP_ATTR_CALLID with
        | none => rfl
        | some w =>
          have hw : w ≠ v := fun h => hc (by rw [hg, h])
          simp [strcmp, hw]
      rw [hstep, call_find_by_callid_from_shift l (0 + 1) v]
      cases hr : call_find_by_callid_from l 0 v with
      | none =>
        rw [hr] at ih
        simp only [Option.map_none', first_call_with] at ih ⊢
        intro c0 hc0
        rcases List.mem_cons.1 hc0 with h | h
        · rw [h]; exact hc
        · exact ih c0 h
      | some j =>
        rw [hr] at ih
        simp only [Option.map_some', first_call_with] at ih ⊢
        obtain ⟨⟨cj, hj1, hj2⟩, hmin⟩ := ih
        refine ⟨⟨cj, by simpa using hj1, hj2⟩, ?_⟩
        intro k c0 hk hget
        cases k with
        | zero =>
          simp only [List.get?_cons_zero, Option.some.injEq] at hget
          rw [← hget]; exact hc
        | succ k => exact hmin k c0 (by omega) (by simpa using hget)


theorem call_find_by_xcallid_from_first (l : List sip_call) (v : CStr) :
    ∀ i, ∃ r, call_find_by_xcallid_from l i (some v) = some (r.map (fun j => j + i))
      ∧ first_call_with SIP_ATTR_XCALLID v l r := by
  induction l with
  | nil =>
    intro i
    exact ⟨none, rfl, by simp [first_call_with]⟩
  | cons c l ih =>
    intro i
    by_cases hc : call_get_attribute c SIP_ATTR_XCALLID = some v
    · refine ⟨some 0, ?_, ⟨c, rfl, hc⟩, ?_⟩
      · simp [call_find_by_xcallid_from, hc, strcmp]
      · intro k c0 hk
        omega
    · have hstep : call_find_by_xcallid_from (c :: l) i (some v)
          = call_find_by_xcallid_from l (i + 1) (some v) := by
        simp only [call_find_by_xcallid_from]
        cases hg : call_get_attribute c SIP_ATTR_XCALLID with
        | none => rfl
        | some w =>
          have hw : w ≠ v := fun h => hc (by rw [hg, h])
          simp [strcmp, hw]
      obtain ⟨r, hr, hfirst⟩ := ih (i + 1)
      cases r with
      | none =>
        refine ⟨none, by rw [hstep, hr]; rfl, ?_⟩
        simp only [first_call_with] at hfirst ⊢
        intro c0 hc0
        rcases List.mem_cons.1 hc0 with h | h
        · rw [h]; exact hc
        · exact hfirst c0 h
      | some j =>
        refine ⟨some (j + 1), ?_, ?_⟩
        · rw [hstep, hr]
          simp only [Option.map_some']
          congr 2
          omega
        · simp only [first_call_with] at hfirst ⊢
          obtain ⟨⟨cj, hj1, hj2⟩, hmin⟩ := hfirst
          refine ⟨⟨cj, by simpa using hj1, hj2⟩, ?_⟩
          intro k c0 hk hget
          cases k with
          | zero =>
            simp only [List.get?_cons_zero, Option.some.injEq] at hget
            rw [← hget]; exact hc
          | succ k => exact hmin k c0 (by omega) (by simpa using hget)

theorem first_call_with_of_distinct (calls : Store) (v : CStr) (b : Nat) (B : sip_call)
    (r : Option Nat) (hd : callids_distinct (store_callids calls))
    (hb : calls.get? b = some B) (hB : call_get_attribute B SIP_ATTR_CALLID = some v)
    (hr : first_call_with SIP_ATTR_CALLID v calls r) : r = some b := by
  cases r with
  | none =>
    simp only [first_call_with] at hr
    exact absurd hB (hr B (List.get?_mem hb))
  | some j =>
    simp only [first_call_with] at hr
    obtain ⟨⟨cj, hj1, hj2⟩, -⟩ := hr
    by_cases hjb : j = b
    · rw [hjb]
    · exfalso
      refine callids_distinct_get _ hd j b hjb v ?_ ?_
      · simp only [store_callids, List.get?_eq_getElem?, List.getElem?_map] at hj1 ⊢
        rw [hj1]; simp [hj2]
      · simp only [store_callids, List.get?_eq_getElem?, List.getElem?_map] at hb ⊢
        rw [hb]; simp [hB]

/-- C24: for every store and every call `c` whose `CALLID` is present: when `c`
has an `XCALLID` `x`, `call_get_xcall(c)` is the first call of the store, in
store order, whose `CALLID` is `x`, `NULL` when there is none; when `c` has no
`XCALLID`, it is the first call of the store whose `XCALLID` is the `CALLID` of
`c`, `NULL` when there is none. In a store where no two calls have the same
`CALLID`, as every store that `sip_load_message` builds from the empty one is,
a call `A` whose `XCALLID` is the `CALLID` of the call `B` has
`call_get_xcall(A)` = `B`. -/
theorem call_get_xcall_first (calls : Store) (c : sip_call) (cid : CStr)
    (hcid : call_get_attribute c SIP_ATTR_CALLID = some cid) :
    (∀ x, call_get_attribute c SIP_ATTR_XCALLID = some x →
        ∃ r, call_get_xcall calls c = some r ∧ first_call_with SIP_ATTR_CALLID x calls r)
    ∧ (call_get_attribute c SIP_ATTR_XCALLID = none →
        ∃ r, call_get_xcall calls c = some r ∧ first_call_with SIP_ATTR_XCALLID cid calls r)
    ∧ (∀ (A B : sip_call) (b : Nat) (x : CStr), callids_distinct (store_callids calls) →
        calls.get? b = some B →
        call_get_attribute A SIP_ATTR_XCALLID = some x →
        call_get_attribute B SIP_ATTR_CALLID = some x →
        call_get_xcall calls A = some (some b))
    ∧ ∀ records, callids_distinct (store_callids (sip_load_all [] records)) := by
  refine ⟨?_, ?_, ?_, ?_⟩
  · intro x hx
    refine ⟨call_find_by_callid calls x, ?_, call_find_by_callid_first calls x⟩
    simp only [call_get_xcall, hx]
  · intro hx
    obtain ⟨r, hr, hfirst⟩ := call_find_by_xcallid_from_first calls cid 0
    refine ⟨r, ?_, hfirst⟩
    simp only [call_get_xcall, hx, hcid, call_find_by_xcallid, hr]
    cases r <;> simp
  · intro A B b x hd hb hA hB
    simp only [call_get_xcall, hA]
    rw [first_call_with_of_distinct calls x b B _ hd hb hB (call_find_by_callid_first calls x)]
  · intro records
    exact sip_load_all_distinct records [] List.Pairwise.nil

/-- Witness of C24: in the store of the calls `abc123` and `xyz789`, where the
first message of `abc123` has the line `X-Call-ID: xyz789@hostB`,
`call_get_xcall` of the call `abc123` is the call `xyz789`, and
`call_get_xcall` of the call `xyz789`, which has no `XCALLID`, is the call
`abc123`. -/
theorem call_get_xcall_first_witness :
    call_get_attribute (call_at xcall_store 0) SIP_ATTR_XCALLID = some "xyz789".toList
    ∧ call_get_attribute (call_at xcall_store 1) SIP_ATTR_CALLID = some "xyz789".toList
    ∧ call_get_attribute (call_at xcall_store 1) SIP_ATTR_XCALLID = none
    ∧ call_get_xcall xcall_store (call_at xcall_store 0) = some (some 1)
    ∧ call_get_xcall xcall_store (call_at xcall_store 1) = some (some 0)
    ∧ ∃ r, call_get_xcall xcall_store (call_at xcall_store 1) = some r
        ∧ first_call_with SIP_ATTR_XCALLID "xyz789".toList xcall_store r :=
  ⟨by decide, by decide, by decide,
   (call_get_xcall_first xcall_store (call_at xcall_store 0) "abc123".toList (by decide)).2.2.1
     (call_at xcall_store 0) (call_at xcall_store 1) 1 "xyz789".toList
     (sip_load_all_distinct _ [] List.Pairwise.nil) (by decide) (by decide) (by decide),
   by decide,
   (call_get_xcall_first xcall_store (call_at xcall_store 1) "xyz789".toList (by decide)).2.1
     (by decide)⟩


/-- C25, at a failing input. The call `gap_call`, built by three
`sip_load_message` calls, has three messages, the second with a header line
that `msg_parse_header` does not accept. For the third message
`call_get_prev_msg` returns `NULL`, not the second message. For the second
message it returns the first, and `call_get_next_msg` of the first returns
`NULL`, not the second message. -/
theorem call_get_prev_msg_stops_at_unmatched :
    gap_call.msgs.length = 3
    ∧ (call_get_prev_msg (sample_env 0) gap_call (some 2)).2 = none
    ∧ (call_get_prev_msg (sample_env 0) gap_call (some 1)).2 = some 0
    ∧ (call_get_next_msg (sample_env 0) (call_get_prev_msg (sample_env 0) gap_call (some 1)).1
        (call_get_prev_msg (sample_env 0) gap_call (some 1)).2).2 = none := by
  decide

/-- The previous message in a call whose messages can be parsed:
`call_get_prev_msg(call, NULL)` is `NULL`, and so is
`call_get_prev_msg` of the first message; neither changes the call. For a
message `m` at position `k + 1` of the call, with `p` the message right before
it: when `msg_parse` succeeds on `p`, `call_get_prev_msg(call, m)` is `p`,
parsed by the call, with every other message as it was; and when `msg_parse`
succeeds on `m` too, `call_get_next_msg` of the message returned is `m`, parsed
by that call. -/
theorem call_get_prev_msg_parsed (env : Env) (call : sip_call) (k : Nat) (m p : sip_msg)
    (hm : call.msgs.get? (k + 1) = some m) (hp : call.msgs.get? k = some p)
    (hok : (msg_parse env p).2 = true) :
    call_get_prev_msg env call none = (call, none)
    ∧ call_get_prev_msg env call (some 0) = (call, none)
    ∧ call_get_prev_msg env call (some (k + 1))
        = ({ call with msgs := call.msgs.set k (msg_parse env p).1 }, some k)
    ∧ msg_at (call_get_prev_msg env call (some (k + 1))).1
        (call_get_prev_msg env call (some (k + 1))).2 = some (msg_parse env p).1
    ∧ (msg_parse env p).1.parsed = true
    ∧ ((msg_parse env m).2 = true →
        call_get_next_msg env (call_get_prev_msg env call (some (k + 1))).1
            (call_get_prev_msg env call (some (k + 1))).2
          = ({ call with
                msgs := (call.msgs.set k (msg_parse env p).1).set (k + 1) (msg_parse env m).1 },
             some (k + 1))) := by
  have hlater := call_get_prev_msg_later env call k m p hm hp
  rw [hok] at hlater
  simp only [if_true] at hlater
  have hm1 : (call.msgs.set k (msg_parse env p).1).get? (k + 1) = some m := by
    rw [List.get?_eq_getElem?, List.getElem?_set_ne (by omega), ← List.get?_eq_getElem?]
    exact hm
  refine ⟨rfl, ?_, hlater, ?_, msg_parse_parsed env p hok, ?_⟩
  · cases hmsgs : call.msgs with
    | nil => simp [call_get_prev_msg, call_prev_scan, hmsgs]
    | cons a l => exact call_get_prev_msg_first env call a (by rw [hmsgs]; rfl)
  · rw [hlater]
    simp only [msg_at]
    exact get?_set_same call.msgs k p _ hp
  · intro hokm
    rw [hlater]
    simp only [call_get_next_msg, hm1, hokm, if_true]

/-- An instance: in the call of two records with the same header line and
payload, `call_get_prev_msg` of the second message is the first, and
`call_get_next_msg` of the first is the second. -/
theorem call_get_prev_msg_parsed_witness :
    (call_at twice_store 0).msgs.length = 2
    ∧ (call_get_prev_msg (sample_env 0) (call_at twice_store 0) (some 1)).2 = some 0
    ∧ (call_get_next_msg (sample_env 0)
        (call_get_prev_msg (sample_env 0) (call_at twice_store 0) (some 1)).1
        (call_get_prev_msg (sample_env 0) (call_at twice_store 0) (some 1)).2).2 = some 1
    ∧ call_get_prev_msg (sample_env 0) (call_at twice_store 0) (some (0 + 1))
        = ({ (call_at twice_store 0) with
              msgs := (call_at twice_store 0).msgs.set 0
                (msg_parse (sample_env 0) ((call_at twice_store 0).msgs.get ⟨0, by decide⟩)).1 },
           some 0) :=
  ⟨by decide, by decide, by decide,
   (call_get_prev_msg_parsed (sample_env 0) (call_at twice_store 0) 0
      ((call_at twice_store 0).msgs.get ⟨1, by decide⟩)
      ((call_at twice_store 0).msgs.get ⟨0, by decide⟩) (by decide) (by decide)
      (by decide)).2.2.1⟩


/-- C26: for every call and every message `m` that is not parsed and whose
header line `sscanf` accepts (a header line with all nine fields is one):
when the call has no message, after `call_add_message` the message is the only
message of the call and is parsed; when the call has messages, the message is
put after the last one, the messages the call had are unchanged and in the
same order, and the parsed flag, the attributes and the payload lines of `m`
are as they were, only its owner is set. The attributes of the call itself are
unchanged in both cases. -/
theorem call_add_message_first_only (env : Env) (call : sip_call) (cidx : Nat) (m : sip_msg)
    (hp : m.parsed = false)
    (hh : (sscanf m.headerptr "U %d/%d/%d %d:%d:%d.%d %s -> %s").1 ≠ 0) :
    (call.msgs = [] →
        (call_add_message env call cidx m).1.msgs = [(call_add_message env call cidx m).2]
        ∧ (call_add_message env call cidx m).2 = (msg_parse env { m with call := some cidx }).1
        ∧ (call_add_message env call cidx m).2.parsed = true
        ∧ (call_add_message env call cidx m).2.call = some cidx)
    ∧ (call.msgs ≠ [] →
        (call_add_message env call cidx m).1.msgs
          = call.msgs ++ [(call_add_message env call cidx m).2]
        ∧ (call_add_message env call cidx m).2 = { m with call := some cidx }
        ∧ (call_add_message env call cidx m).2.parsed = false
        ∧ (call_add_message env call cidx m).2.attrs = m.attrs
        ∧ (call_add_message env call cidx m).2.payload = m.payload)
    ∧ (call_add_message env call cidx m).1.attrs = call.attrs := by
  have hok : (msg_parse env { m with call := some cidx }).2 = true :=
    msg_parse_accepts env { m with call := some cidx } hp hh
  refine ⟨?_, ?_, ?_⟩
  · intro hnil
    obtain ⟨h1, h2⟩ := call_add_message_empty env call cidx m hnil
    rw [hok] at h1
    refine ⟨?_, h2, ?_, ?_⟩
    · rw [h1, h2]; rfl
    · rw [h2]; exact msg_parse_parsed env _ hok
    · rw [h2, msg_parse_call]
  · intro hne
    have h2 : (call_add_message env call cidx m).2 = { m with call := some cidx } := by
      unfold call_add_message
      cases hmsgs : call.msgs with
      | nil => exact absurd hmsgs hne
      | cons a l => rfl
    refine ⟨?_, h2, ?_, ?_, ?_⟩
    · rw [call_add_message_nonempty env call cidx m hne, h2]
    · rw [h2]; exact hp
    · rw [h2]
    · rw [h2]
  · unfold call_add_message
    cases call.msgs <;> rfl

/-- Witness of C26: the message of the scenario added to an empty call is its
only message and is parsed; added to the call `abc123` of the sample store it
is the second message and is not parsed. -/
theorem call_add_message_first_only_witness :
    (call_add_message (sample_env 0) { attrs := [], msgs := [] } 0
        (sip_msg_create sample_header sample_payload)).1.msgs.map (fun m => m.parsed) = [true]
    ∧ (call_add_message (sample_env 0) (call_at one_call_store 0) 0
        (sip_msg_create sample_header sample_payload)).1.msgs.map (fun m => m.parsed)
        = [true, false]
    ∧ (call_add_message (sample_env 0) { attrs := [], msgs := [] } 0
        (sip_msg_create sample_header sample_payload)).1.msgs
        = [(call_add_message (sample_env 0) { attrs := [], msgs := [] } 0
            (sip_msg_create sample_header sample_payload)).2]
    ∧ (call_add_message (sample_env 0) (call_at one_call_store 0) 0
        (sip_msg_create sample_header sample_payload)).1.msgs
        = (call_at one_call_store 0).msgs
          ++ [(call_add_message (sample_env 0) (call_at one_call_store 0) 0
                (sip_msg_create sample_header sample_payload)).2] :=
  ⟨by decide, by decide,
   ((call_add_message_first_only (sample_env 0) { attrs := [], msgs := [] } 0
      (sip_msg_create sample_header sample_payload) rfl (by decide)).1 rfl).1,
   ((call_add_message_first_only (sample_env 0) (call_at one_call_store 0) 0
      (sip_msg_create sample_header sample_payload) rfl (by decide)).2.1 (by decide)).1⟩


/-- C27, at failing inputs. The line `CSeq: 7` makes `sscanf` with the format
of the `CSeq:` test return 1, and in every state of the loop the line sets
`CSEQ` to `7`; the line `From: alice` makes `sscanf` with the format of the
`From:` test return 1, and in every state the line sets `SIPFROM` to the
content the buffer `value` had before; the line `SIP/2.0` makes `sscanf` return
`EOF`. After an `X-Call-ID: xyz789@hostB` line, which leaves `xyz789` in
`value`, `msg_parse` gives `METHOD` = `xyz789`, `REQUEST` = `1` and `CSEQ` =
`7` for the line `CSeq: 7`, `SIPFROM` = `xyz789` for the line `From: alice`,
and `METHOD` = `xyz789` for the line `SIP/2.0`. -/
theorem payload_step_malformed (s : PayloadState) :
    (sscanf "CSeq: 7".toList "CSeq: %s %[^\t\n\r]").1 = 1
    ∧ sip_attr_get (payload_step s "CSeq: 7".toList).msg.attrs SIP_ATTR_CSEQ = some "7".toList
    ∧ (sscanf "From: alice".toList "From: %[^:]:%[^\t\n\r>;]").1 = 1
    ∧ sip_attr_get (payload_step s "From: alice".toList).msg.attrs SIP_ATTR_SIPFROM
        = some s.value
    ∧ (sscanf "SIP/2.0".toList "SIP/2.0 %[^\t\n\r]").1 = -1
    ∧ (msg_parse (sample_env 0) (sip_msg_create sample_header cseq_only_payload)).1.attrs
        = [(SIP_ATTR_CSEQ, "7".toList), (SIP_ATTR_METHOD, "xyz789".toList),
           (SIP_ATTR_REQUEST, "1".toList), (SIP_ATTR_XCALLID, "xyz789".toList),
           (SIP_ATTR_DST, "10.0.0.2:5060".toList), (SIP_ATTR_SRC, "10.0.0.1:5060".toList),
           (SIP_ATTR_TIME, "10:00:00.000000".toList)]
    ∧ msg_get_attribute
        (msg_parse_ptr (sample_env 0) (some (sip_msg_create sample_header from_only_payload)))
        SIP_ATTR_SIPFROM = some "xyz789".toList
    ∧ msg_get_attribute
        (msg_parse_ptr (sample_env 0) (some (sip_msg_create sample_header bare_status_payload)))
        SIP_ATTR_METHOD = some "xyz789".toList := by
  have c1 : sscanf "CSeq: 7".toList "X-Call-ID: %[^@\t\n\r]" = (0, []) := by decide
  have c2 : sscanf "CSeq: 7".toList "X-CID: %[^@\t\n\r]" = (0, []) := by decide
  have c3 : sscanf "CSeq: 7".toList "SIP/2.0 %[^\t\n\r]" = (0, []) := by decide
  have c4 : sscanf "CSeq: 7".toList "CSeq: %s %[^\t\n\r]" = (1, [Val.str "7".toList]) := by
    decide
  have f1 : sscanf "From: alice".toList "X-Call-ID: %[^@\t\n\r]" = (0, []) := by decide
  have f2 : sscanf "From: alice".toList "X-CID: %[^@\t\n\r]" = (0, []) := by decide
  have f3 : sscanf "From: alice".toList "SIP/2.0 %[^\t\n\r]" = (0, []) := by decide
  have f4 : sscanf "From: alice".toList "CSeq: %s %[^\t\n\r]" = (0, []) := by decide
  have f5 : sscanf "From: alice".toList "From: %[^:]:%[^\t\n\r>;]"
      = (1, [Val.str "alice".toList]) := by decide
  refine ⟨by decide, ?_, by decide, ?_, by decide, by decide, by decide, by decide⟩
  · have hlen : ¬ ("CSeq: 7".toList.length = 0) := by decide
    simp only [payload_step, hlen, if_false, payload_xcallid, c1, payload_xcid, c2,
      payload_status, c3, payload_cseq, c4]
    simp only [arg_str, List.get?_nil, List.get?_cons_zero, List.get?_cons_succ]
    rw [if_neg (by decide), if_neg (by decide), if_neg (by decide), if_pos (by decide)]
    exact msg_set_attribute_get_same _ _ _
  · have hlen : ¬ ("From: alice".toList.length = 0) := by decide
    simp only [payload_step, hlen, if_false, payload_xcallid, f1, payload_xcid, f2,
      payload_status, f3, payload_cseq, f4, payload_from, f5]
    simp only [arg_str, List.get?_nil, List.get?_cons_zero, List.get?_cons_succ]
    rw [if_neg (by decide), if_neg (by decide), if_neg (by decide), if_neg (by decide),
      if_pos (by decide)]
    exact msg_set_attribute_get_same _ _ _


theorem isdigit_not_space (c : Char) (h : isdigit c = true) : isspace c = false := by
  unfold isdigit at h
  simp only [Bool.and_eq_true, decide_eq_true_eq] at h
  unfold isspace
  have h1 : c ≠ ' ' := by rintro rfl; revert h; decide
  have h2 : c ≠ '\t' := by rintro rfl; revert h; decide
  have h3 : c ≠ '\n' := by rintro rfl; revert h; decide
  have h4 : c ≠ Char.ofNat 11 := by rintro rfl; revert h; decide
  have h5 : c ≠ Char.ofNat 12 := by rintro rfl; revert h; decide
  have h6 : c ≠ '\r' := by rintro rfl; revert h; decide
  simp [h1, h2, h3, h4, h5, h6]

theorem isdigit_not_sign (c : Char) (h : isdigit c = true) : ¬ (c = '-' ∨ c = '+') := by
  unfold isdigit at h
  simp only [Bool.and_eq_true, decide_eq_true_eq] at h
  rintro (rfl | rfl) <;> revert h <;> decide

theorem store_int_small (v : Nat) (h : v < 2147483648) : store_int (v : Int) = v := by
  unfold store_int
  simp only []
  rw [if_neg (by omega), if_neg (by omega)]
  omega

theorem sscanf_go_ws_step (ds : List Dir) (inp : List Char) (done : Nat) (acc : List Val)
    (h : ∀ c, inp.head? = some c → isspace c = false) :
    sscanf_go (Dir.ws :: ds) (' ' :: inp) done acc = sscanf_go ds inp done acc := by
  have hsp : isspace ' ' = true := by decide
  cases inp with
  | nil => simp [sscanf_go, List.dropWhile_cons, hsp]
  | cons x rest =>
    have hx := h x rfl
    simp [sscanf_go, List.dropWhile_cons, hsp, hx]

theorem sscanf_go_lit_step (c : Char) (ds : List Dir) (inp : List Char) (done : Nat)
    (acc : List Val) :
    sscanf_go (Dir.lit c :: ds) (c :: inp) done acc = sscanf_go ds inp done acc := by
  simp [sscanf_go]

theorem sscanf_go_int_step (ds : List Dir) (num rest : List Char) (done : Nat) (acc : List Val)
    (hnum : digit_field num) (hrest : ∀ c, rest.head? = some c → isdigit c = false) :
    sscanf_go (Dir.int :: ds) (num ++ rest) done acc
      = sscanf_go ds rest (done + 1) (acc ++ [Val.int (digits_val num : Int)]) := by
  obtain ⟨hne, hdig, hval⟩ := hnum
  obtain ⟨x, xs, rfl⟩ := List.exists_cons_of_ne_nil hne
  have hx : isdigit x = true := hdig x (List.mem_cons_self _ _)
  have hxs : isspace x = false := isdigit_not_space x hx
  have hsign := isdigit_not_sign x hx
  have hminus : x ≠ '-' := fun h => hsign (Or.inl h)
  have h1 : List.dropWhile isspace (x :: xs ++ rest) = x :: (xs ++ rest) := by
    simp [List.dropWhile_cons, hxs]
  have hrest2 : List.takeWhile isdigit rest = [] := by
    cases rest with
    | nil => rfl
    | cons r rs => simp [List.takeWhile_cons, hrest r rfl]
  have hrest3 : List.dropWhile isdigit rest = rest := by
    cases rest with
    | nil => rfl
    | cons r rs => simp [List.dropWhile_cons, hrest r rfl]
  have h2 : List.takeWhile isdigit (x :: (xs ++ rest)) = x :: xs := by
    rw [← List.cons_append, List.takeWhile_append_of_pos hdig, hrest2]
    simp
  have h3 : List.dropWhile isdigit (x :: (xs ++ rest)) = rest := by
    rw [← List.cons_append, List.dropWhile_append_of_pos hdig, hrest3]
  have hplus : x ≠ '+' := fun h => hsign (Or.inr h)
  simp only [sscanf_go, h1, hminus, hplus, or_self, if_false, h2, h3]
  rw [if_neg (by simp), store_int_small _ hval]

theorem sscanf_go_str_step (ds : List Dir) (tok rest : List Char) (done : Nat) (acc : List Val)
    (htok : line_token tok) (hrest : ∀ c, rest.head? = some c → isspace c = true) :
    sscanf_go (Dir.str :: ds) (tok ++ rest) done acc
      = sscanf_go ds rest (done + 1) (acc ++ [Val.str tok]) := by
  obtain ⟨hne, hns⟩ := htok
  obtain ⟨x, xs, rfl⟩ := List.exists_cons_of_ne_nil hne
  have hx : isspace x = false := hns x (List.mem_cons_self _ _)
  have h1 : List.dropWhile isspace (x :: xs ++ rest) = x :: (xs ++ rest) := by
    simp [List.dropWhile_cons, hx]
  have hp : ∀ a ∈ x :: xs, (fun c => !isspace c) a = true := by
    intro a ha; simp [hns a ha]
  have hrest2 : List.takeWhile (fun c => !isspace c) rest = [] := by
    cases rest with
    | nil => rfl
    | cons r rs => simp [List.takeWhile_cons, hrest r rfl]
  have hrest3 : List.dropWhile (fun c => !isspace c) rest = rest := by
    cases rest with
    | nil => rfl
    | cons r rs => simp [List.dropWhile_cons, hrest r rfl]
  have h2 : List.takeWhile (fun c => !isspace c) (x :: (xs ++ rest)) = x :: xs := by
    rw [← List.cons_append, List.takeWhile_append_of_pos hp, hrest2]
    simp
  have h3 : List.dropWhile (fun c => !isspace c) (x :: (xs ++ rest)) = rest := by
    rw [← List.cons_append, List.dropWhile_append_of_pos hp, hrest3]
  simp only [sscanf_go, h1, h2, h3]

theorem fmt_header : fmt "U %d/%d/%d %d:%d:%d.%d %s -> %s"
    = [Dir.lit 'U', Dir.ws, Dir.int, Dir.lit '/', Dir.int, Dir.lit '/', Dir.int, Dir.ws,
       Dir.int, Dir.lit ':', Dir.int, Dir.lit ':', Dir.int, Dir.lit '.', Dir.int, Dir.ws,
       Dir.str, Dir.ws, Dir.lit '-', Dir.lit '>', Dir.ws, Dir.str] := by
  decide

theorem sscanf_header_line (Y M D h mi s u src dst : CStr)
    (hY : digit_field Y) (hM : digit_field M) (hD : digit_field D) (hh : digit_field h)
    (hmi : digit_field mi) (hs : digit_field s) (hu : digit_field u)
    (hsrc : line_token src) (hdst : line_token dst) :
    sscanf (header_line Y M D h mi s u src dst) "U %d/%d/%d %d:%d:%d.%d %s -> %s"
      = (9, [Val.int (digits_val Y), Val.int (digits_val M), Val.int (digits_val D),
             Val.int (digits_val h), Val.int (digits_val mi), Val.int (digits_val s),
             Val.int (digits_val u), Val.str src, Val.str dst]) := by
  have hform : header_line Y M D h mi s u src dst
      = 'U' :: ' ' :: (Y ++ ('/' :: (M ++ ('/' :: (D ++ (' ' :: (h ++ (':' :: (mi ++ (':' :: (s
        ++ ('.' :: (u ++ (' ' :: (src ++ (' ' :: '-' :: '>' :: ' ' :: (dst ++
        []))))))))))))))))) := by
    simp [header_line]
  have hdigit_head : ∀ (t : CStr) (rest : List Char), digit_field t →
      ∀ c, (t ++ rest).head? = some c → isspace c = false := by
    intro t rest ht c hc
    obtain ⟨x, xs, rfl⟩ := List.exists_cons_of_ne_nil ht.1
    simp only [List.cons_append, List.head?_cons, Option.some.injEq] at hc
    rw [← hc]
    exact isdigit_not_space x (ht.2.1 x (List.mem_cons_self _ _))
  have htoken_head : ∀ (t : CStr) (rest : List Char), line_token t →
      ∀ c, (t ++ rest).head? = some c → isspace c = false := by
    intro t rest ht c hc
    obtain ⟨x, xs, rfl⟩ := List.exists_cons_of_ne_nil ht.1
    simp only [List.cons_append, List.head?_cons, Option.some.injEq] at hc
    rw [← hc]
    exact ht.2 x (List.mem_cons_self _ _)
  have hnd : ∀ (a : Char) (rest : List Char), isdigit a = false →
      ∀ c, (a :: rest).head? = some c → isdigit c = false := by
    intro a rest ha c hc
    simp only [List.head?_cons, Option.some.injEq] at hc
    rw [← hc]; exact ha
  have hsp : ∀ (rest : List Char), ∀ c, (' ' :: rest).head? = some c → isspace c = true := by
    intro rest c hc
    simp only [List.head?_cons, Option.some.injEq] at hc
    rw [← hc]; decide
  have hnil : ∀ c, ([] : List Char).head? = some c → isspace c = true := by
    intro c hc; simp at hc
  unfold sscanf
  rw [fmt_header, hform, sscanf_go_lit_step,
    sscanf_go_ws_step _ _ _ _ (hdigit_head Y _ hY),
    sscanf_go_int_step _ Y _ _ _ hY (hnd '/' _ (by decide)), sscanf_go_lit_step,
    sscanf_go_int_step _ M _ _ _ hM (hnd '/' _ (by decide)), sscanf_go_lit_step,
    sscanf_go_int_step _ D _ _ _ hD (hnd ' ' _ (by decide)),
    sscanf_go_ws_step _ _ _ _ (hdigit_head h _ hh),
    sscanf_go_int_step _ h _ _ _ hh (hnd ':' _ (by decide)), sscanf_go_lit_step,
    sscanf_go_int_step _ mi _ _ _ hmi (hnd ':' _ (by decide)), sscanf_go_lit_step,
    sscanf_go_int_step _ s _ _ _ hs (hnd '.' _ (by decide)), sscanf_go_lit_step,
    sscanf_go_int_step _ u _ _ _ hu (hnd ' ' _ (by decide)),
    sscanf_go_ws_step _ _ _ _ (htoken_head src _ hsrc),
    sscanf_go_str_step _ src _ _ _ hsrc (hsp _),
    sscanf_go_ws_step _ _ _ _ (by intro c hc; simp at hc; rw [← hc]; decide),
    sscanf_go_lit_step, sscanf_go_lit_step,
    sscanf_go_ws_step _ _ _ _ (htoken_head dst _ hdst),
    sscanf_go_str_step _ dst _ _ _ hdst hnil]
  rfl

/-- C28 (as stated) fails. With the clock of a day when daylight saving time
is not in effect, the header line of the scenario, `U 2024/01/01 10:00:00.000000 10.0.0.1:5060 -> 10.0.0.2:5060`, is
accepted and `TIME` is `09:00:00.000000`: `mktime` is called with the daylight
saving time flag set. `SRC` and `DST` are as the claim says. -/
theorem msg_parse_header_time_counterexample :
    (msg_parse_header winter_env (sip_msg_create sample_header sample_payload) sample_header).2
        = 0
    ∧ sip_attr_get (msg_parse_header winter_env (sip_msg_create sample_header sample_payload)
        sample_header).1.attrs SIP_ATTR_TIME = some "09:00:00.000000".toList
    ∧ sip_attr_get (msg_parse_header winter_env (sip_msg_create sample_header sample_payload)
        sample_header).1.attrs SIP_ATTR_SRC = some "10.0.0.1:5060".toList
    ∧ sip_attr_get (msg_parse_header winter_env (sip_msg_create sample_header sample_payload)
        sample_header).1.attrs SIP_ATTR_DST = some "10.0.0.2:5060".toList := by
  decide

/-- C28 (amended): for a header line `U Y/M/D h:mi:s.u src -> dst` whose seven
number fields are runs of digits and whose `src` and `dst` are runs of at most
21 characters without white space (the buffers `ipfrom[22]` and `ipto[22]`),
`msg_parse_header` returns 0 and sets `SRC` = `src`, `DST` = `dst` and `TIME` =
the hour, minute and second of
`localtime(mktime(t))`, two digits each and separated by `:`, followed by `.`
and `u` padded with zeros to six digits, where `t` is the date and time of the
header line with the daylight saving time flag set. When `localtime(mktime(t))`
has the hour, minute and second of the header line, `TIME` has them too. -/
theorem msg_parse_header_time (env : Env) (msg : sip_msg) (Y M D h mi s u src dst : CStr)
    (hY : digit_field Y) (hM : digit_field M) (hD : digit_field D) (hh : digit_field h)
    (hmi : digit_field mi) (hs : digit_field s) (hu : digit_field u)
    (hsrc : line_token src) (hdst : line_token dst)
    (_hsrclen : src.length ≤ 21) (_hdstlen : dst.length ≤ 21) :
    (msg_parse_header env msg (header_line Y M D h mi s u src dst)).2 = 0
    ∧ sip_attr_get (msg_parse_header env msg (header_line Y M D h mi s u src dst)).1.attrs
        SIP_ATTR_SRC = some src
    ∧ sip_attr_get (msg_parse_header env msg (header_line Y M D h mi s u src dst)).1.attrs
        SIP_ATTR_DST = some dst
    ∧ sip_attr_get (msg_parse_header env msg (header_line Y M D h mi s u src dst)).1.attrs
        SIP_ATTR_TIME
      = some (strftime_HMS (env.localtime (env.mktime (header_tm Y M D h mi s))) ++ ['.']
          ++ printf_0d 6 (digits_val u))
    ∧ ((env.localtime (env.mktime (header_tm Y M D h mi s))).tm_hour = digits_val h
        ∧ (env.localtime (env.mktime (header_tm Y M D h mi s))).tm_min = digits_val mi
        ∧ (env.localtime (env.mktime (header_tm Y M D h mi s))).tm_sec = digits_val s →
      sip_attr_get (msg_parse_header env msg (header_line Y M D h mi s u src dst)).1.attrs
          SIP_ATTR_TIME
        = some (printf_0d 2 (digits_val h) ++ [':'] ++ printf_0d 2 (digits_val mi) ++ [':']
            ++ printf_0d 2 (digits_val s) ++ ['.'] ++ printf_0d 6 (digits_val u))) := by
  have hscan := sscanf_header_line Y M D h mi s u src dst hY hM hD hh hmi hs hu hsrc hdst
  have htime : sip_attr_get
      (msg_parse_header env msg (header_line Y M D h mi s u src dst)).1.attrs SIP_ATTR_TIME
      = some (strftime_HMS (env.localtime (env.mktime (header_tm Y M D h mi s))) ++ ['.']
          ++ printf_0d 6 (digits_val u)) := by
    simp only [msg_parse_header, hscan]
    rw [if_pos (by decide)]
    simp only [arg_int, arg_str, List.get?_cons_zero, List.get?_cons_succ]
    rw [msg_set_attribute_get_other _ _ _ _ (by decide),
      msg_set_attribute_get_other _ _ _ _ (by decide), msg_set_attribute_get_same]
    rfl
  refine ⟨?_, ?_, ?_, htime, ?_⟩
  · simp only [msg_parse_header, hscan]
    rw [if_pos (by decide)]
  · simp only [msg_parse_header, hscan]
    rw [if_pos (by decide)]
    simp only [arg_int, arg_str, List.get?_cons_zero, List.get?_cons_succ]
    rw [msg_set_attribute_get_other _ _ _ _ (by decide), msg_set_attribute_get_same]
  · simp only [msg_parse_header, hscan]
    rw [if_pos (by decide)]
    simp only [arg_int, arg_str, List.get?_cons_zero, List.get?_cons_succ]
    rw [msg_set_attribute_get_same]
  · rintro ⟨e1, e2, e3⟩
    rw [htime]
    simp only [strftime_HMS, e1, e2, e3]

/-- Witness of C28: the header line of the scenario, with the clock of a day
when daylight saving time is in effect, has `TIME` `10:00:00.000000`, `SRC`
`10.0.0.1:5060` and `DST` `10.0.0.2:5060`. -/
theorem msg_parse_header_time_witness :
    header_line "2024".toList "01".toList "01".toList "10".toList "00".toList "00".toList
        "000000".toList "10.0.0.1:5060".toList "10.0.0.2:5060".toList = sample_header
    ∧ sip_attr_get (msg_parse_header summer_env (sip_msg_create sample_header sample_payload)
        sample_header).1.attrs SIP_ATTR_TIME = some "10:00:00.000000".toList
    ∧ sip_attr_get (msg_parse_header summer_env (sip_msg_create sample_header sample_payload)
        sample_header).1.attrs SIP_ATTR_SRC = some "10.0.0.1:5060".toList
    ∧ sip_attr_get (msg_parse_header summer_env (sip_msg_create sample_header sample_payload)
        sample_header).1.attrs SIP_ATTR_DST = some "10.0.0.2:5060".toList
    ∧ sip_attr_get (msg_parse_header summer_env (sip_msg_create sample_header sample_payload)
        (header_line "2024".toList "01".toList "01".toList "10".toList "00".toList "00".toList
          "000000".toList "10.0.0.1:5060".toList "10.0.0.2:5060".toList)).1.attrs SIP_ATTR_TIME
      = some (printf_0d 2 (digits_val "10".toList) ++ [':'] ++ printf_0d 2 (digits_val "00".toList)
          ++ [':'] ++ printf_0d 2 (digits_val "00".toList) ++ ['.']
          ++ printf_0d 6 (digits_val "000000".toList)) :=
  ⟨by decide, by decide, by decide, by decide,
   (msg_parse_header_time summer_env (sip_msg_create sample_header sample_payload)
      "2024".toList "01".toList "01".toList "10".toList "00".toList "00".toList
      "000000".toList "10.0.0.1:5060".toList "10.0.0.2:5060".toList
      ⟨by decide, by decide, by decide⟩ ⟨by decide, by decide, by decide⟩
      ⟨by decide, by decide, by decide⟩ ⟨by decide, by decide, by decide⟩
      ⟨by decide, by decide, by decide⟩ ⟨by decide, by decide, by decide⟩
      ⟨by decide, by decide, by decide⟩ ⟨by decide, by decide⟩ ⟨by decide, by decide⟩
      (by decide) (by decide)).2.2.2.2
     (by decide)⟩

set_option maxRecDepth 8000 in
/-- C16, at a failing input. The first message of the call is a response whose
reason phrase has 73 characters; `SIPFROM`, `SIPTO`, `SRC`, `DST` and
`STARTING` of the call are present, `filter.enable` is on, no filter is set and
no value is ignored. The key `filter.<STARTING>` has 80 characters and does not
fit the buffer `filter_option[80]` with its terminating NUL: `sprintf` writes
past the end of the buffer, and `sip_check_call_ignore` has no defined result.
With a reason phrase of 72 characters the key fits, and the function returns 1,
the option `filter.<STARTING>` not being enabled. -/
theorem sip_check_call_ignore_long_starting :
    call_get_attribute long_reason_call SIP_ATTR_STARTING
      = some "480 Temporarily Unavailable - the callee is not registered with the proxy".toList
    ∧ (call_get_attribute long_reason_call SIP_ATTR_STARTING).map List.length = some 73
    ∧ call_get_attribute long_reason_call SIP_ATTR_SIPFROM = some "alice@hostA".toList
    ∧ call_get_attribute long_reason_call SIP_ATTR_SIPTO = some "bob@hostB".toList
    ∧ call_get_attribute long_reason_call SIP_ATTR_SRC = some "10.0.0.1:5060".toList
    ∧ call_get_attribute long_reason_call SIP_ATTR_DST = some "10.0.0.2:5060".toList
    ∧ filter_env.is_option_enabled "filter.enable" = true
    ∧ filter_option (call_get_attribute long_reason_call SIP_ATTR_STARTING) = none
    ∧ sip_check_call_ignore filter_env no_filters long_reason_call = none
    ∧ (call_get_attribute fitting_reason_call SIP_ATTR_STARTING).map List.length = some 72
    ∧ sip_check_call_ignore filter_env no_filters fitting_reason_call = some 1 := by
  decide


/-- C3, at a failing input: two records for the Call-ID `abc123` whose header
lines start with `T`, loaded into the empty store. Each call of
`sip_load_message` creates a call, which stays in the store without a message:
the store holds two calls for one Call-ID, `call_get_attribute(call, CALLID)`
returns the same for both, `NULL`, and `call_find_by_callid` finds neither. A
third record for `abc123` with a header line that is matched creates a third
call. -/
theorem sip_load_all_repeats_call :
    sip_get_callid sample_payload = some "abc123".toList
    ∧ sip_load_all [] unmatched_records = [{ attrs := [], msgs := [] }, { attrs := [], msgs := [] }]
    ∧ store_callids (sip_load_all [] unmatched_records) = [none, none]
    ∧ call_find_by_callid (sip_load_all [] unmatched_records) "abc123".toList = none
    ∧ (sip_load_all [] (unmatched_records ++ [(sample_env 0, sample_header, sample_payload)])).length
        = 3
    ∧ store_callids
        (sip_load_all [] (unmatched_records ++ [(sample_env 0, sample_header, sample_payload)]))
      = [none, none, some "abc123".toList] := by
  decide

/-- C20 (as stated) fails. The first payload has the status line
`SIP/2.0 200 OK` before the line `CSeq: 1 INVITE`, and the line `CSeq: 2 BYE`
after it. After `msg_parse`, `METHOD` is `200 OK` and `REQUEST` is absent, and
`CSEQ` is `2`, not `1`: every `CSeq:` line writes `CSEQ`. The second payload
has the line `CSeq: 1 INVITE` first, then the status line `SIP/2.0 200 OK`,
which precedes the line `CSeq: 2 BYE`. After `msg_parse`, `METHOD` is
`INVITE`, not `200 OK`, and `REQUEST` is `1`: the first of the lines sets
them. -/
theorem msg_parse_method_once_counterexample :
    payload_lines response_two_cseq_payload
      = ["SIP/2.0 200 OK".toList, "Call-ID: abc123@hostA".toList, "CSeq: 1 INVITE".toList,
         "CSeq: 2 BYE".toList]
    ∧ (msg_parse (sample_env 0) (sip_msg_create sample_header response_two_cseq_payload)).2 = true
    ∧ sip_attr_get
        (msg_parse (sample_env 0) (sip_msg_create sample_header response_two_cseq_payload)).1.attrs
        SIP_ATTR_METHOD = some "200 OK".toList
    ∧ sip_attr_get
        (msg_parse (sample_env 0) (sip_msg_create sample_header response_two_cseq_payload)).1.attrs
        SIP_ATTR_REQUEST = none
    ∧ sip_attr_get
        (msg_parse (sample_env 0) (sip_msg_create sample_header response_two_cseq_payload)).1.attrs
        SIP_ATTR_CSEQ = some "2".toList
    ∧ payload_lines request_then_status_payload
      = ["CSeq: 1 INVITE".toList, "SIP/2.0 200 OK".toList, "CSeq: 2 BYE".toList]
    ∧ (msg_parse (sample_env 0) (sip_msg_create sample_header request_then_status_payload)).1.attrs
      = [(SIP_ATTR_CSEQ, "2".toList), (SIP_ATTR_METHOD, "INVITE".toList),
         (SIP_ATTR_REQUEST, "1".toList), (SIP_ATTR_DST, "10.0.0.2:5060".toList),
         (SIP_ATTR_SRC, "10.0.0.1:5060".toList), (SIP_ATTR_TIME, "10:00:00.000000".toList)] := by
  decide

end Sngrep
